import Mathlib

/-!
# Historical datastore: the MQTT ingestion connector and its neighbours

A shallow embedding of `data/mqtt.go`: the connector state (manager map,
resolution cache, failed registrations), `register` / `unregister`, the
notification handlers, the notification listener and the message handler.
Beside it: the page loop of `aggregation/http.go`, the paging and `update` of
`registry/memstorage.go`, `SupportedPeriod` of `common/common.go` and the
entry limit of `data/lightdb.go`.

Conventions of the embedding

* A Go `map[string]V` is an association list `Dict V`; `find`, `put` and
  `remove` are the map read, the map write and the builtin `delete`.
* The broker is an oracle `BrokerCall → Bool` telling, for the operation at
  hand, which broker calls succeed; every operation also returns the list of
  broker calls it issued, in order.
* A Go function that can return an error or panic returns a `Ret`.
* `receivers` is a Go `int`; it is embedded as an `Int` (the counter only moves
  by one per call, so the machine-word bound is out of reach).
* A function that can panic on a slice bound or an index returns an `Option`,
  with `none` for the panic.
-/

/-! ## Go maps with string keys -/

/-- A Go `map[string]V`, as an association list. -/
abbrev Dict (V : Type) := List (String × V)

namespace Dict

/-- Map read `m[x]`: the value stored under `x`, if any. -/
def find {V : Type} : Dict V → String → Option V
  | [], _ => none
  | (k, v) :: m, x => if x = k then some v else find m x

/-- Map write `m[x] = w`. -/
def put {V : Type} : Dict V → String → V → Dict V
  | [], x, w => [(x, w)]
  | (k, v) :: m, x, w => if x = k then (k, w) :: m else (k, v) :: put m x w

/-- The builtin `delete(m, x)`. -/
def remove {V : Type} : Dict V → String → Dict V
  | [], _ => []
  | (k, v) :: m, x => if x = k then remove m x else (k, v) :: remove m x

end Dict

/-! ## Data model -/

/-- The record `registry.MQTTConf` (the broker configuration of a data source). -/
structure MQTTConf where
  URL : String
  Topic : String
  QoS : Nat
  Username : String
  Password : String
deriving DecidableEq, Repr

/-- A non-nil Go pointer: the address and the value it points to. -/
structure Ptr (α : Type) where
  addr : Nat
  val : α
deriving DecidableEq, Repr

/-- Go pointer comparison `p == q` on possibly-nil pointers. -/
def ptrSame {α : Type} (p q : Option (Ptr α)) : Bool :=
  p.map Ptr.addr == q.map Ptr.addr

/-- The field `DataSource.Connector`. -/
structure Connector where
  MQTT : Option (Ptr MQTTConf)
deriving DecidableEq, Repr

/-- The record `registry.Aggregation`, an element of `DataSource.Aggregation`. -/
structure DataSourceAggregation where
  ID : String
  Interval : String
  Aggregates : List String
  Retention : String
deriving DecidableEq, Repr

/-- The fields of `registry.DataSource` that the connector and the aggregation
API read. -/
structure DataSource where
  ID : String
  Resource : String
  Retention : String
  Typ : String
  Connector : Connector
  Aggregation : List DataSourceAggregation := []
deriving DecidableEq, Repr

/-- The struct `Subscription` (its back pointer to the connector is implicit). -/
structure Subscription where
  url : String
  topic : String
  qos : Nat
  receivers : Int
deriving DecidableEq, Repr

/-- The struct `Manager`; its client handle is the connection to `url`. -/
structure Manager where
  url : String
  subscriptions : Dict Subscription
deriving DecidableEq, Repr

/-- The struct `MQTTConnector`: the three maps guarded by its mutex. -/
structure MQTTConnector where
  managers : Dict Manager
  cache : Dict DataSource
  failedRegistrations : Dict MQTTConf
deriving DecidableEq

/-- The connector as `NewMQTTConnector` allocates it, before enumeration. -/
def MQTTConnector.empty : MQTTConnector :=
  { managers := [], cache := [], failedRegistrations := [] }

/-! ## The broker -/

/-- A call on a broker client handle. -/
inductive BrokerCall where
  | connect (url : String)
  | subscribe (url topic : String) (qos : Nat)
  | unsubscribe (url topic : String)
  | disconnect (url : String)
deriving DecidableEq, Repr

/-- How a Go call ended: it returned `nil`, returned an error, or panicked. -/
inductive Ret where
  | nil
  | error
  | fault
deriving DecidableEq, Repr

/-- The effect of one `register` / `unregister` call. -/
structure Step where
  state : MQTTConnector
  calls : List BrokerCall
  ret : Ret
deriving DecidableEq

/-- The broker oracle that lets every call succeed. -/
def allOk : BrokerCall → Bool := fun _ => true

/-! ## register / unregister -/

/-- The method `Manager.onConnectHandler`: one SUBSCRIBE per tracked subscription; a
failed subscribe is only logged, the manager is not changed. -/
def Manager.onConnectHandler (m : Manager) : List BrokerCall :=
  m.subscriptions.map fun p => BrokerCall.subscribe m.url p.2.topic p.2.qos

/-- The method `MQTTConnector.register`. A successful `Connect` makes the client run the
on-connect handler installed with `SetOnConnectHandler`, which is where the
first SUBSCRIBE of a new manager is issued. -/
def MQTTConnector.register (c : MQTTConnector) (ok : BrokerCall → Bool)
    (mqttConf : MQTTConf) : Step :=
  match c.managers.find mqttConf.URL with
  | none =>
    let manager : Manager :=
      { url := mqttConf.URL
        subscriptions := Dict.put [] mqttConf.Topic
          { url := mqttConf.URL, topic := mqttConf.Topic, qos := mqttConf.QoS, receivers := 1 } }
    if ok (.connect mqttConf.URL) then
      { state := { c with managers := c.managers.put mqttConf.URL manager }
        calls := .connect mqttConf.URL :: manager.onConnectHandler
        ret := .nil }
    else
      { state := c, calls := [.connect mqttConf.URL], ret := .error }
  | some manager =>
    match manager.subscriptions.find mqttConf.Topic with
    | none =>
      let subscription : Subscription :=
        { url := mqttConf.URL, topic := mqttConf.Topic, qos := mqttConf.QoS, receivers := 1 }
      let subscribed : Manager :=
        { manager with subscriptions := manager.subscriptions.put mqttConf.Topic subscription }
      if ok (.subscribe manager.url subscription.topic subscription.qos) then
        { state := { c with managers := c.managers.put mqttConf.URL subscribed }
          calls := [.subscribe manager.url subscription.topic subscription.qos]
          ret := .nil }
      else
        { state := c
          calls := [.subscribe manager.url subscription.topic subscription.qos]
          ret := .error }
    | some subscription =>
      let incremented : Subscription :=
        { subscription with receivers := subscription.receivers + 1 }
      let shared : Manager :=
        { manager with subscriptions := manager.subscriptions.put mqttConf.Topic incremented }
      { state := { c with managers := c.managers.put mqttConf.URL shared }
        calls := []
        ret := .nil }

/-- The tail of `unregister`: disconnect and drop a manager left without
subscriptions. -/
def MQTTConnector.dropIfEmpty (c : MQTTConnector) (url : String) (manager : Manager)
    (calls : List BrokerCall) : Step :=
  if manager.subscriptions.length = 0 then
    { state := { c with managers := c.managers.remove url }
      calls := calls ++ [.disconnect manager.url]
      ret := .nil }
  else
    { state := { c with managers := c.managers.put url manager }, calls := calls, ret := .nil }

/-- The method `MQTTConnector.unregister`. The decrement is done in place, through the
pointer held by the map, before anything else; with no subscription stored
under the topic the pointer is nil and the decrement panics. -/
def MQTTConnector.unregister (c : MQTTConnector) (ok : BrokerCall → Bool)
    (mqttConf : MQTTConf) : Step :=
  match c.managers.find mqttConf.URL with
  | none => { state := c, calls := [], ret := .nil }
  | some manager =>
    match manager.subscriptions.find mqttConf.Topic with
    | none => { state := c, calls := [], ret := .fault }
    | some subscription =>
      let lowered : Subscription :=
        { subscription with receivers := subscription.receivers - 1 }
      let decremented : Manager :=
        { manager with subscriptions := manager.subscriptions.put mqttConf.Topic lowered }
      let cleared : Manager :=
        { manager with subscriptions := decremented.subscriptions.remove mqttConf.Topic }
      if lowered.receivers = 0 then
        if ok (.unsubscribe manager.url mqttConf.Topic) then
          c.dropIfEmpty mqttConf.URL cleared [.unsubscribe manager.url mqttConf.Topic]
        else
          { state := { c with managers := c.managers.put mqttConf.URL decremented }
            calls := [.unsubscribe manager.url mqttConf.Topic]
            ret := .error }
      else
        c.dropIfEmpty mqttConf.URL decremented []

/-! ## Notification handlers -/

/-- A value sent on a notification's `Callback` channel. -/
inductive Ack where
  | nil
  | error
deriving DecidableEq, Repr

/-- The effect of one notification handler: the state it leaves, the broker
calls it issued, the values it sent on the callback channel, and whether it
panicked. -/
structure Handled where
  state : MQTTConnector
  calls : List BrokerCall
  sent : List Ack
  panicked : Bool
deriving DecidableEq

/-- The method `MQTTConnector.flushCache`. -/
def MQTTConnector.flushCache (c : MQTTConnector) : MQTTConnector :=
  { c with cache := [] }

/-- The statement `delete(c.failedRegistrations, id)`. -/
def MQTTConnector.dropFailed (c : MQTTConnector) (id : String) : MQTTConnector :=
  { c with failedRegistrations := c.failedRegistrations.remove id }

/-- The handler `MQTTConnector.NtfCreated`. -/
def MQTTConnector.NtfCreated (c : MQTTConnector) (ok : BrokerCall → Bool)
    (ds : DataSource) : Handled :=
  match ds.Connector.MQTT with
  | some conf =>
    let r := c.register ok conf.val
    match r.ret with
    | .nil => { state := r.state, calls := r.calls, sent := [.nil], panicked := false }
    | .error => { state := r.state, calls := r.calls, sent := [.error], panicked := false }
    | .fault => { state := r.state, calls := r.calls, sent := [], panicked := true }
  | none => { state := c, calls := [], sent := [.nil], panicked := false }

/-- The second half of `NtfUpdated`, after the old configuration is
unregistered: clear the failed registration of the id and register the new
configuration. -/
def MQTTConnector.addNew (c : MQTTConnector) (ok : BrokerCall → Bool)
    (oldDS newDS : DataSource) (calls : List BrokerCall) : Handled :=
  let c1 := c.dropFailed oldDS.ID
  match newDS.Connector.MQTT with
  | some conf =>
    let r := c1.register ok conf.val
    match r.ret with
    | .nil => { state := r.state, calls := calls ++ r.calls, sent := [.nil], panicked := false }
    | .error =>
      { state := r.state, calls := calls ++ r.calls, sent := [.error], panicked := false }
    | .fault => { state := r.state, calls := calls ++ r.calls, sent := [], panicked := true }
  | none => { state := c1, calls := calls, sent := [.nil], panicked := false }

/-- The handler `MQTTConnector.NtfUpdated`. The test `oldDS.Connector.MQTT !=
newDS.Connector.MQTT` compares two pointers. -/
def MQTTConnector.NtfUpdated (c : MQTTConnector) (ok : BrokerCall → Bool)
    (oldDS newDS : DataSource) : Handled :=
  let c0 := if oldDS.Retention ≠ newDS.Retention then c.flushCache else c
  if ptrSame oldDS.Connector.MQTT newDS.Connector.MQTT then
    { state := c0, calls := [], sent := [.nil], panicked := false }
  else
    match oldDS.Connector.MQTT with
    | some conf =>
      let r := c0.unregister ok conf.val
      match r.ret with
      | .nil => r.state.addNew ok oldDS newDS r.calls
      | .error => { state := r.state, calls := r.calls, sent := [.error], panicked := false }
      | .fault => { state := r.state, calls := r.calls, sent := [], panicked := true }
    | none => c0.addNew ok oldDS newDS []

/-- The handler `MQTTConnector.NtfDeleted`. -/
def MQTTConnector.NtfDeleted (c : MQTTConnector) (ok : BrokerCall → Bool)
    (oldDS : DataSource) : Handled :=
  let c0 := c.flushCache
  match oldDS.Connector.MQTT with
  | some conf =>
    let c1 : MQTTConnector := { c0 with cache := c0.cache.remove oldDS.Resource }
    let r := c1.unregister ok conf.val
    match r.ret with
    | .nil =>
      { state := r.state.dropFailed oldDS.ID, calls := r.calls, sent := [.nil]
        panicked := false }
    | .error => { state := r.state, calls := r.calls, sent := [.error], panicked := false }
    | .fault => { state := r.state, calls := r.calls, sent := [], panicked := true }
  | none => { state := c0, calls := [], sent := [.nil], panicked := false }

/-! ## The notification listener -/

/-- The type `common.NotificationType` (a `uint8`). -/
abbrev NotificationType := Nat

/-- The constant `common.CREATE`. -/
def CREATE : NotificationType := 0

/-- The constant `common.DELETE`. -/
def DELETE : NotificationType := 1

/-- The constant `common.UPDATE`. -/
def UPDATE : NotificationType := 2

/-- The dynamic type of a notification payload (a Go `interface{}`), as far as
the listener's type assertions tell payloads apart. -/
inductive Payload where
  | dataSource (ds : DataSource)
  | dataSources (dss : List DataSource)
  | other
deriving DecidableEq, Repr

/-- The struct `common.Notification`; the callback channel is named by a number. -/
structure Notification where
  Typ : NotificationType
  Payload : Payload
  Callback : Nat
deriving DecidableEq, Repr

/-- What the listener did with the notifications it received: the state, the
broker calls, the sends `(channel, value)` on callback channels in order, how
many notifications it took from the channel, and whether it has returned
before the channel was drained. -/
structure Listened where
  state : MQTTConnector
  calls : List BrokerCall
  acks : List (Nat × Ack)
  received : Nat
  returned : Bool
deriving DecidableEq

/-- The body of the listener's loop for one notification: the switch on the
notification type with its type assertions. `none` is a `continue` or the
default case, where no handler runs. -/
def dispatch (c : MQTTConnector) (ok : BrokerCall → Bool) (ntf : Notification) :
    Option Handled :=
  if ntf.Typ = CREATE then
    match ntf.Payload with
    | .dataSource ds => some (c.NtfCreated ok ds)
    | _ => none
  else if ntf.Typ = UPDATE then
    match ntf.Payload with
    | .dataSources (oldDS :: newDS :: _) => some (c.NtfUpdated ok oldDS newDS)
    | _ => none
  else if ntf.Typ = DELETE then
    match ntf.Payload with
    | .dataSource ds => some (c.NtfDeleted ok ds)
    | _ => none
  else none

/-- The function `NtfListenerMQTT` on the notifications that arrive on `ntChan`, each with
the broker oracle in force while it is handled. The `defer` with the `recover`
sits in the loop body, so it runs when the function returns: a panic unwinds
the loop, the most recent deferred closure recovers it and sends the error on
the current notification's callback, and the function returns. -/
def NtfListenerMQTT (c : MQTTConnector) :
    List (Notification × (BrokerCall → Bool)) → Listened
  | [] => { state := c, calls := [], acks := [], received := 0, returned := false }
  | (ntf, ok) :: rest =>
    match dispatch c ok ntf with
    | none =>
      let l := NtfListenerMQTT c rest
      { l with received := l.received + 1 }
    | some h =>
      if h.panicked then
        { state := h.state
          calls := h.calls
          acks := h.sent.map (fun a => (ntf.Callback, a)) ++ [(ntf.Callback, Ack.error)]
          received := 1
          returned := true }
      else
        let l := NtfListenerMQTT h.state rest
        { state := l.state
          calls := h.calls ++ l.calls
          acks := h.sent.map (fun a => (ntf.Callback, a)) ++ l.acks
          received := l.received + 1
          returned := l.returned }

/-! ## Message handling -/

/-- The fields of a SenML entry that the handler reads; the `float64` behind
`Value` is only tested for presence and is carried as an integer. -/
structure Entry where
  Name : String
  Value : Option Int
  StringValue : Option String
  BooleanValue : Option Bool
deriving DecidableEq, Repr

/-- The data point `NewDataPoint().FromEntry(e)`, named by its entry. -/
structure DataPoint where
  fromEntry : Entry
deriving DecidableEq, Repr

/-- What decoding a payload gives: `json.Unmarshal` fails, `Validate` fails, or
`Expand` yields the entries. -/
inductive Decoded where
  | badJSON
  | invalid
  | entries (es : List Entry)
deriving DecidableEq, Repr

/-- The result of `registryClient.FindDataSource`: an error, a nil data source,
or a data source. -/
inductive Lookup where
  | failed
  | missing
  | found (ds : DataSource)
deriving DecidableEq, Repr

/-- The diagnostics written by `logMQTTError`, one constructor per call site. -/
inductive Diag where
  | badJSON
  | invalidSenML
  | noName
  | lookupError (name : String)
  | notFound (name : String)
  | unwanted (name : String)
  | wrongBroker (name : String)
  | wrongTopic (name : String)
  | typeError (name : String)
  | submitError
deriving DecidableEq, Repr

/-- The constant `common.STRING`. -/
def STRING : String := "string"

/-- The constant `common.FLOAT`. -/
def FLOAT : String := "float"

/-- The constant `common.BOOL`. -/
def BOOL : String := "bool"

/-- The `switch ds.Type` of `onMessage`: whether the entry's value kinds clash
with the declared type. -/
def typeError (ds : DataSource) (e : Entry) : Bool :=
  if ds.Typ = FLOAT then
    e.BooleanValue.isSome || (e.StringValue.isSome && e.StringValue != some "")
  else if ds.Typ = STRING then
    e.Value.isSome || e.BooleanValue.isSome
  else if ds.Typ = BOOL then
    e.Value.isSome || (e.StringValue.isSome && e.StringValue != some "")
  else false

/-- The variables of the entry loop of `onMessage`: the connector's cache, the
two batch maps, the catalog lookups made and the diagnostics logged. -/
structure Batch where
  cache : Dict DataSource
  data : Dict (List DataPoint)
  sources : Dict DataSource
  lookups : List String
  log : List Diag
deriving DecidableEq

/-- The checks of the entry loop once the data source `ds` is resolved. -/
def Subscription.accept (s : Subscription) (b : Batch) (ds : DataSource) (e : Entry) : Batch :=
  match ds.Connector.MQTT with
  | none => { b with log := b.log ++ [.unwanted e.Name] }
  | some conf =>
    if conf.val.URL ≠ s.url then { b with log := b.log ++ [.wrongBroker e.Name] }
    else if conf.val.Topic ≠ s.topic then { b with log := b.log ++ [.wrongTopic e.Name] }
    else if typeError ds e then { b with log := b.log ++ [.typeError e.Name] }
    else
      match b.data.find ds.ID with
      | none =>
        { b with data := b.data.put ds.ID [DataPoint.mk e], sources := b.sources.put ds.ID ds }
      | some points => { b with data := b.data.put ds.ID (points ++ [DataPoint.mk e]) }

/-- One iteration of the entry loop of `onMessage`. -/
def Subscription.onEntry (s : Subscription) (registry : String → Lookup) (b : Batch)
    (e : Entry) : Batch :=
  if e.Name = "" then { b with log := b.log ++ [.noName] }
  else
    match b.cache.find e.Name with
    | some ds => s.accept b ds e
    | none =>
      let b1 := { b with lookups := b.lookups ++ [e.Name] }
      match registry e.Name with
      | .failed => { b1 with log := b1.log ++ [.lookupError e.Name] }
      | .missing => { b1 with log := b1.log ++ [.notFound e.Name] }
      | .found ds => s.accept { b1 with cache := b1.cache.put e.Name ds } ds e

/-- The effect of one `onMessage` call: the connector state, the catalog
lookups made, the diagnostics logged, and the arguments of the `Submit` call if
there was one. -/
structure Delivered where
  state : MQTTConnector
  lookups : List String
  log : List Diag
  submit : Option (Dict (List DataPoint) × Dict DataSource)
deriving DecidableEq

/-- The method `Subscription.onMessage`, for the connector `c` the subscription belongs
to, the catalog `registry`, whether `Submit` succeeds, and the decoded payload. -/
def Subscription.onMessage (s : Subscription) (c : MQTTConnector)
    (registry : String → Lookup) (submitOk : Bool) (msg : Decoded) : Delivered :=
  match msg with
  | .badJSON => { state := c, lookups := [], log := [.badJSON], submit := none }
  | .invalid => { state := c, lookups := [], log := [.invalidSenML], submit := none }
  | .entries es =>
    let b := es.foldl (s.onEntry registry)
      { cache := c.cache, data := [], sources := [], lookups := [], log := [] }
    let c1 : MQTTConnector := { c with cache := b.cache }
    if b.data.length > 0 then
      { state := c1
        lookups := b.lookups
        log := if submitOk then b.log else b.log ++ [.submitError]
        submit := some (b.data, b.sources) }
    else
      { state := c1, lookups := b.lookups, log := b.log, submit := none }

/-! ## Runs of register / unregister calls -/

/-- One call in a run: `register` or `unregister` of a configuration, with the
broker oracle in force during the call. -/
structure Op where
  isRegister : Bool
  conf : MQTTConf
  ok : BrokerCall → Bool

/-- The effect of one call of a run. A call that panics has changed nothing. -/
def Op.step (c : MQTTConnector) (o : Op) : Step :=
  if o.isRegister then c.register o.ok o.conf else c.unregister o.ok o.conf

/-- The connector state after a run of calls. -/
def MQTTConnector.run (c : MQTTConnector) : List Op → MQTTConnector
  | [] => c
  | o :: os => MQTTConnector.run (o.step c).state os

/-- The broker calls issued along a run, in order. -/
def MQTTConnector.trace (c : MQTTConnector) : List Op → List BrokerCall
  | [] => []
  | o :: os => (o.step c).calls ++ MQTTConnector.trace (o.step c).state os

/-- The connector after `n` calls `register(conf)` whose broker calls succeed. -/
def MQTTConnector.registerN (c : MQTTConnector) (conf : MQTTConf) : Nat → MQTTConnector
  | 0 => c
  | n + 1 => ((MQTTConnector.registerN c conf n).register allOk conf).state

/-- The connector after `n` calls `unregister(conf)` whose broker calls succeed. -/
def MQTTConnector.unregisterN (c : MQTTConnector) (conf : MQTTConf) : Nat → MQTTConnector
  | 0 => c
  | n + 1 => ((MQTTConnector.unregisterN c conf n).unregister allOk conf).state

/-- The subscription held for `(url, topic)`, if any. -/
def MQTTConnector.subscription (c : MQTTConnector) (url topic : String) : Option Subscription :=
  match c.managers.find url with
  | none => none
  | some manager => manager.subscriptions.find topic

/-- The receiver count of `(url, topic)`: the `receivers` field of the held
subscription, and 0 when no subscription is held. -/
def MQTTConnector.receiverCount (c : MQTTConnector) (url topic : String) : Int :=
  match c.subscription url topic with
  | none => 0
  | some s => s.receivers

/-! ## Notions used in the statements -/

/-- The manager that holds one subscription, for `conf`, with `n` receivers. -/
def sharedManager (conf : MQTTConf) (n : Int) : Manager :=
  { url := conf.URL
    subscriptions :=
      [(conf.Topic, { url := conf.URL, topic := conf.Topic, qos := conf.QoS, receivers := n })] }

/-- The connector `c` extended by the manager `sharedManager conf n`. -/
def MQTTConnector.withShared (c : MQTTConnector) (conf : MQTTConf) (n : Int) : MQTTConnector :=
  { c with managers := c.managers.put conf.URL (sharedManager conf n) }

/-- Every manager in the manager map tracks at least one subscription. -/
def MQTTConnector.NoIdleManager (c : MQTTConnector) : Prop :=
  ∀ p ∈ c.managers, 1 ≤ p.2.subscriptions.length

/-- Whether a broker call is a SUBSCRIBE. -/
def BrokerCall.isSubscribe : BrokerCall → Bool
  | .subscribe _ _ _ => true
  | _ => false

/-- Whether a broker call is an UNSUBSCRIBE. -/
def BrokerCall.isUnsubscribe : BrokerCall → Bool
  | .unsubscribe _ _ => true
  | _ => false

/-- A step takes the pair's receiver count from 0 to 1; the count is 0 when no
subscription is held, and also when a subscription is held with no receiver. -/
def MQTTConnector.rises (c c' : MQTTConnector) (url topic : String) : Bool :=
  c.receiverCount url topic == 0 && c'.receiverCount url topic == 1

/-- A step takes the pair's receiver count from 1 to 0. -/
def MQTTConnector.falls (c c' : MQTTConnector) (url topic : String) : Bool :=
  c.receiverCount url topic == 1 && c'.receiverCount url topic == 0

/-- The number of 0 → 1 transitions of the pair along a run. -/
def MQTTConnector.riseCount (c : MQTTConnector) (url topic : String) : List Op → Nat
  | [] => 0
  | o :: os =>
    (if c.rises (o.step c).state url topic then 1 else 0)
      + MQTTConnector.riseCount (o.step c).state url topic os

/-- The number of 1 → 0 transitions of the pair along a run. -/
def MQTTConnector.fallCount (c : MQTTConnector) (url topic : String) : List Op → Nat
  | [] => 0
  | o :: os =>
    (if c.falls (o.step c).state url topic then 1 else 0)
      + MQTTConnector.fallCount (o.step c).state url topic os

/-- The manager for `url`, if there is one, tracks the topic `topic` and nothing
else: the states a run of calls for the one pair moves through. -/
def MQTTConnector.OnlyPair (c : MQTTConnector) (url topic : String) : Prop :=
  c.managers.find url = none ∨
    ∃ mu sub, c.managers.find url = some { url := mu, subscriptions := [(topic, sub)] }

/-- Whether the data source carries a broker configuration naming `(url, topic)`. -/
def DataSource.names (ds : DataSource) (url topic : String) : Bool :=
  match ds.Connector.MQTT with
  | some conf => conf.val.URL == url && conf.val.Topic == topic
  | none => false

/-- Modelled from the spec: the catalog owner's set of live entries, whose code
is not part of the connector source. A Create notification announces a new live
entry, an Update replaces the entry of that id by the new snapshot, a Delete
removes the entry of that id. -/
def catalogAfter : List DataSource → List Notification → List DataSource
  | live, [] => live
  | live, ntf :: rest =>
    if ntf.Typ = CREATE then
      match ntf.Payload with
      | .dataSource ds => catalogAfter (live ++ [ds]) rest
      | _ => catalogAfter live rest
    else if ntf.Typ = UPDATE then
      match ntf.Payload with
      | .dataSources (oldDS :: newDS :: _) =>
        catalogAfter (live.map fun ds => if ds.ID = oldDS.ID then newDS else ds) rest
      | _ => catalogAfter live rest
    else if ntf.Typ = DELETE then
      match ntf.Payload with
      | .dataSource ds => catalogAfter (live.filter fun l => l.ID != ds.ID) rest
      | _ => catalogAfter live rest
    else catalogAfter live rest

/-! ## Scenarios -/

/-- The scenario configuration: url `U`, topic `T`. -/
def confT : MQTTConf :=
  { URL := "tcp://U:1883", Topic := "T", QoS := 1, Username := "", Password := "" }

/-- The run register, register, unregister, unregister, register of `confT`. -/
def pairRun : List Op :=
  [⟨true, confT, allOk⟩, ⟨true, confT, allOk⟩, ⟨false, confT, allOk⟩, ⟨false, confT, allOk⟩,
    ⟨true, confT, allOk⟩]

/-- A second topic on the broker of `confT`. -/
def confOther : MQTTConf :=
  { URL := "tcp://U:1883", Topic := "other", QoS := 1, Username := "", Password := "" }

/-- The broker oracle under which UNSUBSCRIBE fails and every other call succeeds. -/
def failUnsubscribe : BrokerCall → Bool := fun call => !call.isUnsubscribe

/-- The broker oracle under which SUBSCRIBE fails and every other call succeeds. -/
def failSubscribe : BrokerCall → Bool := fun call => !call.isSubscribe

/-- The broker oracle under which every call fails. -/
def allFail : BrokerCall → Bool := fun _ => false

/-- The run register, unregister with a failing UNSUBSCRIBE, register,
unregister of `confT`. -/
def keptRun : List Op :=
  [⟨true, confT, allOk⟩, ⟨false, confT, failUnsubscribe⟩, ⟨true, confT, allOk⟩,
    ⟨false, confT, allOk⟩]

/-- The receiver counts of the pair after each call of a run. -/
def MQTTConnector.counts (c : MQTTConnector) (url topic : String) : List Op → List Int
  | [] => []
  | o :: os =>
    (o.step c).state.receiverCount url topic
      :: MQTTConnector.counts (o.step c).state url topic os

/-- One `register` of `confT` whose SUBSCRIBE the broker rejects. -/
def rejectedRun : List Op := [⟨true, confT, failSubscribe⟩]

/-- A subscription held for the pair has at least one receiver. -/
def MQTTConnector.HeldPositive (c : MQTTConnector) (url topic : String) : Prop :=
  ∀ s, c.subscription url topic = some s → 1 ≤ s.receivers

/-- The run register, unregister with a failing UNSUBSCRIBE, unregister. -/
def underflowRun : List Op :=
  [⟨true, confT, allOk⟩, ⟨false, confT, failUnsubscribe⟩, ⟨false, confT, allOk⟩]

/-- The data source X, bound to `confT`. -/
def dsX : DataSource :=
  { ID := "x", Resource := "res/x", Retention := "", Typ := FLOAT
    Connector := { MQTT := some { addr := 1, val := confT } } }

/-- The data source Y, bound to `confT` as well. -/
def dsY : DataSource :=
  { ID := "y", Resource := "res/y", Retention := "", Typ := FLOAT
    Connector := { MQTT := some { addr := 2, val := confT } } }

/-- The data source Z, bound to `confT` as well. -/
def dsZ : DataSource :=
  { ID := "z", Resource := "res/z", Retention := "", Typ := FLOAT
    Connector := { MQTT := some { addr := 3, val := confT } } }

/-- The data source O, bound to `confOther`. -/
def dsO : DataSource :=
  { ID := "o", Resource := "res/o", Retention := "", Typ := FLOAT
    Connector := { MQTT := some { addr := 4, val := confOther } } }

/-- Four notifications: Create O; Create X, whose SUBSCRIBE fails; Delete X;
Create Z. -/
def faultingNotifications : List (Notification × (BrokerCall → Bool)) :=
  [({ Typ := CREATE, Payload := .dataSource dsO, Callback := 0 }, allOk),
   ({ Typ := CREATE, Payload := .dataSource dsX, Callback := 1 }, failSubscribe),
   ({ Typ := DELETE, Payload := .dataSource dsX, Callback := 2 }, allOk),
   ({ Typ := CREATE, Payload := .dataSource dsZ, Callback := 3 }, allOk)]

/-- Four notifications: Create X, whose connect fails; Create Y; Create Z;
Delete X. -/
def stolenReceiverNotifications : List (Notification × (BrokerCall → Bool)) :=
  [({ Typ := CREATE, Payload := .dataSource dsX, Callback := 0 }, allFail),
   ({ Typ := CREATE, Payload := .dataSource dsY, Callback := 1 }, allOk),
   ({ Typ := CREATE, Payload := .dataSource dsZ, Callback := 2 }, allOk),
   ({ Typ := DELETE, Payload := .dataSource dsX, Callback := 3 }, allOk)]

/-- The data source X after its broker configuration is changed to `confOther`. -/
def dsXMoved : DataSource :=
  { dsX with Connector := { MQTT := some { addr := 5, val := confOther } } }

/-- The catalog before the update of X. -/
def catalogBefore : String → Lookup := fun name =>
  if name = dsX.Resource then .found dsX
  else if name = dsY.Resource then .found dsY
  else .missing

/-- The catalog after the update of X. -/
def catalogMoved : String → Lookup := fun name =>
  if name = dsX.Resource then .found dsXMoved
  else if name = dsY.Resource then .found dsY
  else .missing

/-- The subscription object for `conf`, as `register` creates it. -/
def subscriptionOf (conf : MQTTConf) : Subscription :=
  { url := conf.URL, topic := conf.Topic, qos := conf.QoS, receivers := 1 }

/-- A message with one float entry for the resource of X. -/
def messageForX : Decoded :=
  .entries [{ Name := dsX.Resource, Value := some 21, StringValue := none, BooleanValue := none }]

/-- The connector after Create X, Create Y and a first message for X on the
topic of `confT`, which caches the resolution of X's resource name. -/
def cachedConnector : MQTTConnector :=
  ((subscriptionOf confT).onMessage
    ((MQTTConnector.empty.NtfCreated allOk dsX).state.NtfCreated allOk dsY).state
    catalogBefore true messageForX).state

/-- The connector after the Update notification that moves X from `confT` to
`confOther`, all broker calls succeeding. -/
def movedConnector : MQTTConnector :=
  (cachedConnector.NtfUpdated allOk dsX dsXMoved).state

/-! ## Notions and scenarios for the handlers -/

/-- Whether the listener's switch reaches a handler for the notification: the
type is Create or Delete and the payload is a data source, or the type is
Update and the payload is a list of at least two data sources. -/
def Notification.wellFormed (ntf : Notification) : Bool :=
  if ntf.Typ = CREATE ∨ ntf.Typ = DELETE then
    match ntf.Payload with
    | .dataSource _ => true
    | _ => false
  else if ntf.Typ = UPDATE then
    match ntf.Payload with
    | .dataSources (_ :: _ :: _) => true
    | _ => false
  else false

/-- The body of the enumeration loop of `NewMQTTConnector` for one listed data
source: register its configuration and record a failed registration under the
data source's id. -/
def MQTTConnector.registerListed (c : MQTTConnector) (ok : BrokerCall → Bool)
    (ds : DataSource) : Step :=
  match ds.Connector.MQTT with
  | some conf =>
    let r := c.register ok conf.val
    match r.ret with
    | .nil => r
    | _ =>
      { r with state :=
          { r.state with failedRegistrations := r.state.failedRegistrations.put ds.ID conf.val } }
  | none => { state := c, calls := [], ret := .nil }

/-- Two notifications: a Create whose payload is not a data source, then the
Create of X. -/
def malformedThenCreate : List (Notification × (BrokerCall → Bool)) :=
  [({ Typ := CREATE, Payload := .other, Callback := 7 }, allOk),
   ({ Typ := CREATE, Payload := .dataSource dsX, Callback := 8 }, allOk)]

/-- Two notifications: one of a type other than Create, Update and Delete, then
the Create of X. -/
def unknownThenCreate : List (Notification × (BrokerCall → Bool)) :=
  [({ Typ := 3, Payload := .dataSource dsY, Callback := 7 }, allOk),
   ({ Typ := CREATE, Payload := .dataSource dsX, Callback := 8 }, allOk)]

/-- The connector after a startup that lists X while the broker is unreachable
(X's registration is queued for a retry) and then Y, which registers `confT`. -/
def queuedConnector : MQTTConnector :=
  ((MQTTConnector.empty.registerListed allFail dsX).state.registerListed allOk dsY).state

/-- The connector after a startup that lists O, which registers `confOther`,
and then X, whose SUBSCRIBE fails (X's registration is queued for a retry). -/
def queuedBesideOther : MQTTConnector :=
  ((MQTTConnector.empty.registerListed allOk dsO).state.registerListed failSubscribe dsX).state

/-- The data source X after its broker configuration is removed. -/
def dsXBare : DataSource :=
  { dsX with Connector := { MQTT := none } }

/-- The data source Y with a changed retention. -/
def dsYKept : DataSource :=
  { dsY with Retention := "1w" }

/-- A float entry for the resource of X. -/
def entryForX : Entry :=
  { Name := dsX.Resource, Value := some 21, StringValue := none, BooleanValue := none }

/-- What a handler has sent when it ends: nothing if it panicked, exactly one
value otherwise. -/
def Handled.sentOnce (h : Handled) : Prop :=
  (h.panicked = true → h.sent = []) ∧ (h.panicked = false → h.sent.length = 1)

/-- The manager that tracks `confOther` and `confT`, one receiver each. -/
def twoTopicManager : Manager :=
  { url := confT.URL
    subscriptions :=
      [(confOther.Topic, subscriptionOf confOther), (confT.Topic, subscriptionOf confT)] }

/-- The connector after `register(confOther)` and `register(confT)`. -/
def twoTopicConnector : MQTTConnector :=
  ((MQTTConnector.empty.register allOk confOther).state.register allOk confT).state

/-- The subscription for `confT` with two receivers. -/
def subscriptionTwice : Subscription :=
  { subscriptionOf confT with receivers := 2 }

/-- Every name resolved in the cache was looked up in the catalog during the
message at hand: the state of the entry loop when the cache was empty at the
start of the message. -/
def Batch.Fresh (b : Batch) : Prop :=
  ∀ name, b.cache.find name ≠ none → name ∈ b.lookups

/-! ## Startup enumeration and the retry loop -/

/-- The result of `registryClient.GetDataSources(page, perPage)`: an error, or
the data sources of the page and the total reported with them. -/
inductive Page where
  | failed
  | listed (datasources : List DataSource) (total : Int)
deriving DecidableEq, Repr

/-- One call of `register` made on behalf of a data source id, and how it ended. -/
structure Attempt where
  id : String
  conf : MQTTConf
  ret : Ret
deriving DecidableEq, Repr

/-- The entry of the failed registrations an attempt was made for. -/
def Attempt.entry (a : Attempt) : String × MQTTConf := (a.id, a.conf)

/-- Whether the attempt ended with an error. -/
def Attempt.failed (a : Attempt) : Bool := a.ret != Ret.nil

/-- The effect of a loop that registers configurations one after the other. -/
structure Swept where
  state : MQTTConnector
  calls : List BrokerCall
  attempts : List Attempt
deriving DecidableEq

/-- The inner loop of `NewMQTTConnector` over the data sources of one page;
`ok n` is the broker oracle in force for the `n`-th data source listed. -/
def MQTTConnector.registerPage (c : MQTTConnector) (ok : Nat → BrokerCall → Bool) (n : Nat) :
    List DataSource → Swept
  | [] => { state := c, calls := [], attempts := [] }
  | ds :: rest =>
    let r := c.registerListed (ok n) ds
    let t := MQTTConnector.registerPage r.state ok (n + 1) rest
    { state := t.state
      calls := r.calls ++ t.calls
      attempts :=
        (match ds.Connector.MQTT with
          | some conf => [{ id := ds.ID, conf := conf.val, ret := r.ret }]
          | none => []) ++ t.attempts }

/-- The effect of `NewMQTTConnector`: the connector, the broker calls, the
register attempts, the `(page, perPage)` requests sent to the catalog, the data
sources they listed, and whether an error is returned. -/
structure Started where
  state : MQTTConnector
  calls : List BrokerCall
  attempts : List Attempt
  requests : List (Nat × Nat)
  visited : List DataSource
  ret : Ret
deriving DecidableEq

/-- The page loop of `NewMQTTConnector` from page `page` on, with `n` data
sources listed so far; `none` when the fuel runs out before the loop ends. -/
def MQTTConnector.enumerate (client : Nat → Nat → Page) (ok : Nat → BrokerCall → Bool) :
    Nat → Nat → Nat → MQTTConnector → Option Started
  | 0, _, _, _ => none
  | fuel + 1, page, n, c =>
    match client page 100 with
    | .failed =>
      some { state := c, calls := [], attempts := [], requests := [(page, 100)], visited := []
             ret := .error }
    | .listed datasources total =>
      let s := c.registerPage ok n datasources
      if (page : Int) * 100 ≥ total then
        some { state := s.state, calls := s.calls, attempts := s.attempts
               requests := [(page, 100)], visited := datasources, ret := .nil }
      else
        match MQTTConnector.enumerate client ok fuel (page + 1) (n + datasources.length)
            s.state with
        | none => none
        | some e =>
          some { state := e.state
                 calls := s.calls ++ e.calls
                 attempts := s.attempts ++ e.attempts
                 requests := (page, 100) :: e.requests
                 visited := datasources ++ e.visited
                 ret := e.ret }

/-- The function `NewMQTTConnector`: a fresh connector and the page loop from
page 1. -/
def NewMQTTConnector (client : Nat → Nat → Page) (ok : Nat → BrokerCall → Bool)
    (fuel : Nat) : Option Started :=
  MQTTConnector.empty.enumerate client ok fuel 1 0

/-- One sweep of `retryRegistrations` (the body of its outer loop between
`Lock` and `Unlock`): the `range` over the failed registrations visits them in
the order `order`, and `ok n` is the broker oracle in force for the `n`-th
entry visited. -/
def MQTTConnector.retrySweep (c : MQTTConnector) (ok : Nat → BrokerCall → Bool) (n : Nat) :
    List (String × MQTTConf) → Swept
  | [] => { state := c, calls := [], attempts := [] }
  | (id, mqttConf) :: rest =>
    let r := c.register (ok n) mqttConf
    let c1 :=
      match r.ret with
      | .nil => r.state.dropFailed id
      | _ => r.state
    let t := MQTTConnector.retrySweep c1 ok (n + 1) rest
    { state := t.state
      calls := r.calls ++ t.calls
      attempts := { id := id, conf := mqttConf, ret := r.ret } :: t.attempts }

/-- The failed registrations built from a list of attempts: each failed attempt
writes its configuration under its id. -/
def queueOf (attempts : List Attempt) (queue : Dict MQTTConf) : Dict MQTTConf :=
  attempts.foldl (fun m a => if a.failed then Dict.put m a.id a.conf else m) queue

/-- The ids of the attempts that returned nil. -/
def succeededIds (attempts : List Attempt) : List String :=
  (attempts.filter fun a => !a.failed).map Attempt.id

/-- The connector after a startup that lists X and O while the broker is
unreachable: both registrations wait for a retry. -/
def twoQueued : MQTTConnector :=
  (MQTTConnector.empty.registerPage (fun _ => allFail) 0 [dsX, dsO]).state

/-- The broker oracles of a sweep in which the first attempt meets a working
broker and every later call fails. -/
def firstOnly : Nat → BrokerCall → Bool := fun n => if n = 0 then allOk else allFail

/-- The queue entry a listed data source would occupy: its id and its broker
configuration, if it bears one. -/
def DataSource.binding (ds : DataSource) : Option (String × MQTTConf) :=
  ds.Connector.MQTT.map fun conf => (ds.ID, conf.val)

/-- Whether the page loop stops at `page` given the catalog's answer: the fetch
failed, or `page * perPage >= total`. -/
def Page.ends (p : Page) (page : Nat) : Bool :=
  match p with
  | .failed => true
  | .listed _ total => decide ((page : Int) * 100 ≥ total)

/-- The data sources of a catalog answer (none when the fetch failed). -/
def Page.datasources (p : Page) : List DataSource :=
  match p with
  | .failed => []
  | .listed dss _ => dss

/-- The configuration of the last failed attempt made for `id`, if any. -/
def lastFailed (attempts : List Attempt) (id : String) : Option MQTTConf :=
  ((attempts.filter fun a => a.failed && a.id == id).getLast?).map Attempt.conf

/-- A catalog of two pages: X and O on the first, Y and the data source without
a broker configuration on the second; every page reports a total of 150. -/
def twoPageCatalog : Nat → Nat → Page := fun page _ =>
  if page = 1 then .listed [dsX, dsO] 150
  else if page = 2 then .listed [dsY, dsXBare] 150
  else .listed [] 150

/-- The broker oracles of a startup in which the broker of the second data
source listed rejects the SUBSCRIBE and every other call succeeds. -/
def secondRejected : Nat → BrokerCall → Bool := fun n => if n = 1 then failSubscribe else allOk

/-! ## The aggregation API's enumeration -/

/-- The record `aggregation.Aggregation`. -/
structure Aggregation where
  ID : String
  Interval : String
  Aggregates : List String
  Retention : String
  Sources : List String
deriving DecidableEq, Repr

/-- The innermost loop of `API.Aggregations`: the aggregations carried by one
data source are written to the map, each with the data source's id appended to
the sources recorded so far under the aggregation id. -/
def aggregateSource (aggrs : Dict Aggregation) (ds : DataSource) : Dict Aggregation :=
  ds.Aggregation.foldl
    (fun m dsa =>
      let sources :=
        match Dict.find m dsa.ID with
        | some a => a.Sources
        | none => []
      Dict.put m dsa.ID
        { ID := dsa.ID, Interval := dsa.Interval, Aggregates := dsa.Aggregates
          Retention := dsa.Retention, Sources := sources ++ [ds.ID] })
    aggrs

/-- The effect of `API.Aggregations`: the map returned, the `(page, perPage)`
requests sent to the catalog, the data sources they listed, and whether an
error is returned with the map. -/
structure Aggregated where
  aggrs : Dict Aggregation
  requests : List (Nat × Nat)
  visited : List DataSource
  ret : Ret
deriving DecidableEq

/-- The page loop of `API.Aggregations` from page `page` on; `none` when the
fuel runs out before the loop ends. -/
def aggregateFrom (client : Nat → Nat → Page) :
    Nat → Nat → Dict Aggregation → Option Aggregated
  | 0, _, _ => none
  | fuel + 1, page, aggrs =>
    match client page 100 with
    | .failed =>
      some { aggrs := aggrs, requests := [(page, 100)], visited := [], ret := .error }
    | .listed datasources total =>
      let aggrs1 := datasources.foldl aggregateSource aggrs
      if (page : Int) * 100 ≥ total then
        some { aggrs := aggrs1, requests := [(page, 100)], visited := datasources, ret := .nil }
      else
        match aggregateFrom client fuel (page + 1) aggrs1 with
        | none => none
        | some a =>
          some { aggrs := a.aggrs
                 requests := (page, 100) :: a.requests
                 visited := datasources ++ a.visited
                 ret := a.ret }

/-- The method `API.Aggregations`: an empty map and the page loop from page 1. -/
def Aggregations (client : Nat → Nat → Page) (fuel : Nat) : Option Aggregated :=
  aggregateFrom client fuel 1 []

/-- A catalog that answers every page request with the data sources `contents
page` and the same total `n`. -/
def constantTotal (contents : Nat → List DataSource) (n : Nat) : Nat → Nat → Page :=
  fun page _ => .listed (contents page) n

/-- The number of pages of 100 that hold `n` entries, and one page when there
are none: `max(1, ceil(n / 100))`. -/
def pageCount (n : Nat) : Nat := max 1 ((n + 99) / 100)

/-- The window of the catalog `all` that page `page` of size 100 shows. -/
def pageWindow (all : List DataSource) (page : Nat) : List DataSource :=
  (all.drop ((page - 1) * 100)).take 100

/-- The data sources on each page of `twoPageCatalog`. -/
def twoPageContents : Nat → List DataSource := fun page =>
  (twoPageCatalog page 100).datasources

/-! ## Notions for message handling -/

/-- The catalog entry a name resolves to while a message is handled by the
connector `c` with the catalog `registry`: the cached resolution if there is
one, else what the catalog lookup finds; a failed lookup and a lookup that
finds nothing both resolve to nothing. -/
def MQTTConnector.resolve (c : MQTTConnector) (registry : String → Lookup) (name : String) :
    Option DataSource :=
  match c.cache.find name with
  | some ds => some ds
  | none =>
    match registry name with
    | .found ds => some ds
    | _ => none

/-- Whether the data source is wanted on the subscription: it has a broker
configuration whose url and topic are those of the subscription. -/
def Subscription.wants (s : Subscription) (ds : DataSource) : Bool :=
  match ds.Connector.MQTT with
  | some conf => conf.val.URL == s.url && conf.val.Topic == s.topic
  | none => false

/-- The catalog entry under which a message entry passes every check: the name
is not empty, it resolves to a data source wanted on the subscription, and the
type check raises no error. -/
def Subscription.passes (s : Subscription) (c : MQTTConnector) (registry : String → Lookup)
    (e : Entry) : Option DataSource :=
  if e.Name = "" then none
  else
    match c.resolve registry e.Name with
    | some ds => if s.wants ds && !typeError ds e then some ds else none
    | none => none

/-- The entries of a message that pass every check under a catalog entry with
id `id`, in message order. -/
def Subscription.accepted (s : Subscription) (c : MQTTConnector) (registry : String → Lookup)
    (es : List Entry) (id : String) : List Entry :=
  es.filter fun e =>
    match s.passes c registry e with
    | some ds => ds.ID == id
    | none => false

/-- The catalog entry of the first entry of a message that passes every check
under the id `id`. -/
def Subscription.firstSource (s : Subscription) (c : MQTTConnector)
    (registry : String → Lookup) (es : List Entry) (id : String) : Option DataSource :=
  (es.filterMap (s.passes c registry)).find? fun ds => ds.ID == id

/-- The batch value stored under an id once the data points `points` are
appended to what was stored before: unchanged when there is nothing to append. -/
def extend (stored : Option (List DataPoint)) (points : List DataPoint) :
    Option (List DataPoint) :=
  if points = [] then stored else some (stored.getD [] ++ points)

/-- The cache of the entry loop agrees with the resolution of names from the
connector `c` the message started on. -/
def Batch.Coherent (b : Batch) (c : MQTTConnector) (registry : String → Lookup) : Prop :=
  ∀ name,
    match b.cache.find name with
    | some ds => c.resolve registry name = some ds
    | none => c.cache.find name = none

/-- The two batch maps have the same keys. -/
def Batch.SameKeys (b : Batch) : Prop :=
  ∀ id, (b.data.find id).isSome = (b.sources.find id).isSome

/-- A catalog that knows X, Y and O, fails on the name `res/down` and finds
nothing for any other name. -/
def catalogAll : String → Lookup := fun name =>
  if name = dsX.Resource then .found dsX
  else if name = dsY.Resource then .found dsY
  else if name = dsO.Resource then .found dsO
  else if name = "res/down" then .failed
  else .missing

/-- An entry for the resource of X, a float source, that carries a string. -/
def entryMismatch : Entry :=
  { Name := dsX.Resource, Value := none, StringValue := some "on", BooleanValue := none }

/-- An entry without a name. -/
def entryNoName : Entry :=
  { Name := "", Value := some 1, StringValue := none, BooleanValue := none }

/-- An entry for a name the catalog does not know. -/
def entryUnknown : Entry :=
  { Name := "res/unknown", Value := some 1, StringValue := none, BooleanValue := none }

/-- An entry for a name whose catalog lookup fails. -/
def entryDown : Entry :=
  { Name := "res/down", Value := some 1, StringValue := none, BooleanValue := none }

/-- A float entry for the resource of O, which is bound to another topic. -/
def entryForO : Entry :=
  { Name := dsO.Resource, Value := some 2, StringValue := none, BooleanValue := none }

/-- Whether the entry carries a value of the kind the data source declares: a
number for a float source, a string for a string source, a boolean for a bool
source. -/
def carriesDeclared (ds : DataSource) (e : Entry) : Bool :=
  if ds.Typ = FLOAT then e.Value.isSome
  else if ds.Typ = STRING then e.StringValue.isSome
  else if ds.Typ = BOOL then e.BooleanValue.isSome
  else false

/-- An entry for the resource of X, a float source, that carries a number and
also a boolean. -/
def entryTwoKinds : Entry :=
  { Name := dsX.Resource, Value := some 21, StringValue := none, BooleanValue := some true }

/-- A message with five entries that are dropped and one, the last, that is valid. -/
def mixedMessage : List Entry :=
  [entryMismatch, entryNoName, entryUnknown, entryDown, entryForO, entryForX]

/-- The connector after the Create of X, all broker calls succeeding. -/
def connectorWithX : MQTTConnector :=
  (MQTTConnector.empty.NtfCreated allOk dsX).state

/-- The batch `Submit` receives for `mixedMessage`: one data point, for X. -/
def batchForX : Dict (List DataPoint) × Dict DataSource :=
  ([(dsX.ID, [DataPoint.mk entryForX])], [(dsX.ID, dsX)])

/-- The catalog lookups made so far in a message started on the connector `c`:
only for names `c` had not cached, at most once for a name the catalog finds,
and every name looked up and found is in the cache since. -/
def Batch.LookedUp (b : Batch) (c : MQTTConnector) (registry : String → Lookup) : Prop :=
  (∀ name, name ∈ b.lookups → c.cache.find name = none)
  ∧ (∀ name ds, registry name = Lookup.found ds → name ∈ b.lookups →
      b.cache.find name = some ds)
  ∧ (∀ name ds, registry name = Lookup.found ds → b.lookups.count name ≤ 1)

/-- The entry loop's variables at the start of a message on `connectorWithX`. -/
def startBatch : Batch :=
  { cache := connectorWithX.cache, data := [], sources := [], lookups := [], log := [] }

/-- A message that names X twice and then twice a name whose lookup fails. -/
def repeatedMessage : List Entry :=
  [entryForX, entryForX, entryDown, entryDown]

/-- An entry for the resource of X that carries only an empty string. -/
def entryEmptyString : Entry :=
  { Name := dsX.Resource, Value := none, StringValue := some "", BooleanValue := none }

/-! ## The on-connect handler and the mutex -/

/-- The effect of `Manager.onConnectHandler`: the manager it leaves, the broker
calls it issued and the number of subscribe errors it logged. -/
structure Reconnected where
  manager : Manager
  calls : List BrokerCall
  failures : Nat
deriving DecidableEq

/-- The method `Manager.onConnectHandler` as a loop over the manager's
subscriptions (a Go map, ranged over in an unspecified order): each iteration
issues SUBSCRIBE with the subscription's topic and qos and logs a failure. -/
def Manager.reconnect (m : Manager) (ok : BrokerCall → Bool) : Reconnected :=
  m.subscriptions.foldl
    (fun r p =>
      { manager := r.manager
        calls := r.calls ++ [BrokerCall.subscribe r.manager.url p.2.topic p.2.qos]
        failures :=
          if ok (BrokerCall.subscribe r.manager.url p.2.topic p.2.qos) then r.failures
          else r.failures + 1 })
    { manager := m, calls := [], failures := 0 }

/-- The connector after the client of the manager stored under `url` reports a
connection: the handler runs on that manager, through the pointer in the map. -/
def MQTTConnector.connected (c : MQTTConnector) (url : String) (ok : BrokerCall → Bool) : Step :=
  match c.managers.find url with
  | none => { state := c, calls := [], ret := .nil }
  | some m =>
    { state := { c with managers := c.managers.put url (m.reconnect ok).manager }
      calls := (m.reconnect ok).calls
      ret := .nil }

/-- The maps of the connector that its mutex is meant to guard. -/
inductive StateMap where
  | managers
  | cache
  | failedRegistrations
deriving DecidableEq, Repr

/-- What one goroutine does with the connector, as far as the mutex goes:
`c.Lock()`, `c.Unlock()`, or a read or write of one of the maps. -/
inductive MutexEvent where
  | lock
  | unlock
  | access (f : StateMap)
deriving DecidableEq, Repr

/-- Whether every access in the events of one goroutine happens while that
goroutine holds the mutex; `held` tells whether it holds it at the start. -/
def guarded : Bool → List MutexEvent → Bool
  | _, [] => true
  | _, .lock :: rest => guarded true rest
  | _, .unlock :: rest => guarded false rest
  | held, .access _ :: rest => held && guarded held rest

/-- The events of a code path that starts with `c.Lock()` and ends with
`c.Unlock()`: the three notification handlers (`defer c.Unlock()`) and one sweep
of `retryRegistrations`, whatever maps they access in between. -/
def lockedPath (accesses : List StateMap) : List MutexEvent :=
  MutexEvent.lock :: accesses.map MutexEvent.access ++ [MutexEvent.unlock]

/-- The maps `onMessage` accesses for one entry: the cache is read for an entry
with a name, and written when the name is not cached and the catalog finds it. -/
def Subscription.entryAccesses (registry : String → Lookup) (cache : Dict DataSource)
    (e : Entry) : List StateMap :=
  if e.Name = "" then []
  else
    match cache.find e.Name with
    | some _ => [StateMap.cache]
    | none =>
      match registry e.Name with
      | .found _ => [StateMap.cache, StateMap.cache]
      | _ => [StateMap.cache]

/-- The events of `onMessage` for one entry: its accesses; the function never
calls `Lock`. -/
def Subscription.entryEvents (registry : String → Lookup) (cache : Dict DataSource)
    (e : Entry) : List MutexEvent :=
  (Subscription.entryAccesses registry cache e).map MutexEvent.access

/-- The events of the startup loop of `NewMQTTConnector` for one listed data
source: `register` reads the manager map, and a failed registration is written
to the failed registrations; the function never calls `Lock`. -/
def MQTTConnector.listedEvents (c : MQTTConnector) (ok : BrokerCall → Bool) (ds : DataSource) :
    List MutexEvent :=
  match ds.Connector.MQTT with
  | none => []
  | some _ =>
    MutexEvent.access StateMap.managers ::
      (match (c.registerListed ok ds).ret with
        | .nil => []
        | _ => [MutexEvent.access StateMap.failedRegistrations])

/-! ## Keys of the manager map -/

/-- A manager stored under the url `u` carries `u`, and each of its
subscriptions carries `u` and the topic it is stored under. -/
def Manager.KeysAgree (m : Manager) (u : String) : Prop :=
  m.url = u ∧ ∀ q ∈ m.subscriptions, q.2.url = u ∧ q.2.topic = q.1

/-- Every manager of the manager map agrees with the url it is stored under. -/
def MQTTConnector.KeysAgree (c : MQTTConnector) : Prop :=
  ∀ p ∈ c.managers, p.2.KeysAgree p.1

/-- No url is stored twice in the manager map and no topic twice in a manager:
what a Go map guarantees, stated for the association lists. -/
def MQTTConnector.UniqueKeys (c : MQTTConnector) : Prop :=
  (c.managers.map Prod.fst).Nodup ∧ ∀ p ∈ c.managers, (p.2.subscriptions.map Prod.fst).Nodup

/-- A third configuration, on another broker. -/
def confElsewhere : MQTTConf :=
  { URL := "tcp://V:1883", Topic := "T", QoS := 0, Username := "", Password := "" }

/-- The connector that holds `confOther` and `confT` on one broker and
`confElsewhere` on another. -/
def twoBrokerConnector : MQTTConnector :=
  (twoTopicConnector.register allOk confElsewhere).state

/-- The run that builds `twoBrokerConnector` and then lets go of `confT`. -/
def twoBrokerRun : List Op :=
  [⟨true, confOther, allOk⟩, ⟨true, confT, allOk⟩, ⟨true, confElsewhere, allOk⟩,
    ⟨false, confT, allOk⟩]

/-! ## Paging in the registry's in-memory storage -/

/-- The function `validatePagingParams`: defaults for a page and a page size
that are not specified (zero), and the maximum for a page size above it. -/
def validatePagingParams (page perPage maxPerPage : Int) : Int × Int :=
  let page := if page = 0 then 1 else page
  let perPage := if perPage = 0 ∨ perPage > maxPerPage then maxPerPage else perPage
  (page, perPage)

/-- The Go slice expression `slice[l:r]`; `none` is the run-time panic "slice
bounds out of range". -/
def sliceRange (slice : List String) (l r : Int) : Option (List String) :=
  if 0 ≤ l ∧ l ≤ r ∧ r ≤ slice.length then some ((slice.take r.toNat).drop l.toNat) else none

/-- The function `getPageOfSlice`; `none` is a run-time panic (slice bounds out
of range, or the integer division by a zero page size). Go's `/` truncates
towards zero. The products are taken in `Int`: the code only multiplies after
it has compared the page with `len(slice)/perPage`, so they stay within the
length of the slice. -/
def getPageOfSlice (slice : List String) (page perPage maxPerPage : Int) :
    Option (List String) :=
  let keys : List String := []
  let validated := validatePagingParams page perPage maxPerPage
  let page := validated.1
  let perPage := validated.2
  let perPage := if perPage > maxPerPage ∨ perPage = 0 then maxPerPage else perPage
  if page < 2 then
    if perPage > slice.length then some slice else sliceRange slice 0 perPage
  else if perPage = 0 then none
  else if page = Int.tdiv slice.length perPage + 1 then
    sliceRange slice (perPage * (page - 1)) slice.length
  else if page ≤ Int.tdiv slice.length perPage ∧ page * perPage ≤ slice.length then
    let r := page * perPage
    let l := r - perPage
    sliceRange slice l r
  else some keys

/-- The page size in force for a request: the maximum when the requested size
is zero or above the maximum, the requested size otherwise. -/
def effectivePerPage (perPage maxPerPage : Int) : Nat :=
  (if perPage = 0 ∨ perPage > maxPerPage then maxPerPage else perPage).toNat

/-- The page in force for a request: `max(page, 1)`. -/
def effectivePage (page : Int) : Nat := (max page 1).toNat

/-- The window `slice[l:r]` for bounds within the slice. -/
def window (slice : List String) (l r : Nat) : List String := (slice.take r).drop l

/-- The pages `1..k` of a slice, concatenated; `none` if one of the requests
panics. -/
def pagesUpTo (slice : List String) (perPage maxPerPage : Int) : Nat → Option (List String)
  | 0 => some []
  | k + 1 =>
    match pagesUpTo slice perPage maxPerPage k,
      getPageOfSlice slice ((k : Int) + 1) perPage maxPerPage with
    | some front, some keys => some (front ++ keys)
    | _, _ => none

/-- Five keys, as `getMany` sorts them. -/
def fiveKeys : List String := ["k1", "k2", "k3", "k4", "k5"]

/-! ## The registry's in-memory storage -/

/-- The record `registry.DataSource` as `memstorage.go` uses it. The read-only
fields are `ID`, `URL` and `Data`; `Meta` is a Go `map[string]interface{}`,
embedded with string values. -/
structure registry.DataSource where
  ID : String
  URL : String
  Data : String
  Resource : String
  Meta : Dict String
  Retention : String
  Aggregation : List DataSourceAggregation
  Typ : String
  Format : String
deriving DecidableEq, Repr

/-- The struct `MemoryStorage`: the map `data` guarded by its mutex. -/
structure MemoryStorage where
  data : Dict registry.DataSource
deriving DecidableEq, Repr

/-- The constant `common.RegistryAPILoc`. -/
def RegistryAPILoc : String := "/registry"

/-- The constant `common.DataAPILoc`. -/
def DataAPILoc : String := "/data"

/-- The error value `ErrorNotFound`. -/
def ErrorNotFound : String := "Data source is not found!"

/-- The method `MemoryStorage.add`; `newUUID` is the identifier drawn by
`uuid.NewRandom`. It returns the storage and the error (always nil). -/
def MemoryStorage.add (ms : MemoryStorage) (newUUID : String) (ds : registry.DataSource) :
    MemoryStorage × Option String :=
  let ds1 := { ds with ID := newUUID }
  let ds2 := { ds1 with URL := RegistryAPILoc ++ "/" ++ ds1.ID }
  let ds3 := { ds2 with Data := DataAPILoc ++ "/" ++ ds2.ID }
  ({ data := ms.data.put newUUID ds3 }, none)

/-- The method `MemoryStorage.update`: the storage after the call and the error
returned (`none` is nil). -/
def MemoryStorage.update (ms : MemoryStorage) (id : String) (ds : registry.DataSource) :
    MemoryStorage × Option String :=
  match ms.data.find id with
  | none => (ms, some ErrorNotFound)
  | some tempDS =>
    ({ data := ms.data.put id
        { ID := tempDS.ID
          URL := tempDS.URL
          Data := tempDS.Data
          Resource := ds.Resource
          Meta := ds.Meta
          Retention := ds.Retention
          Aggregation := ds.Aggregation
          Typ := ds.Typ
          Format := ds.Format } }, none)

/-- A record as a client submits it, with its read-only fields unset. -/
def submittedA : registry.DataSource :=
  { ID := "", URL := "", Data := "", Resource := "res/a", Meta := [("unit", "C")]
    Retention := "1w", Aggregation := [], Typ := "float", Format := "application/senml+json" }

/-- A second submitted record; its read-only fields are set by the client. -/
def submittedB : registry.DataSource :=
  { ID := "forged", URL := "/elsewhere", Data := "/nowhere", Resource := "res/b", Meta := []
    Retention := "", Aggregation := [], Typ := "bool", Format := "text/plain" }

/-- The storage after `add` of `submittedA` under the id `a` and of `submittedB`
under the id `b`. -/
def storageAB : MemoryStorage :=
  (((MemoryStorage.mk []).add "a" submittedA).1.add "b" submittedB).1

/-! ## Period strings -/

/-- The variable `supportedPeriods`. -/
def supportedPeriods : List String := ["m", "h", "d", "w"]

/-- The character class `[lo-hi]`, as the alternation of its characters. -/
def charClass (lo hi : Char) : RegularExpression Char :=
  ((List.range (hi.toNat + 1 - lo.toNat)).map
    (fun i => RegularExpression.char (Char.ofNat (lo.toNat + i)))).foldr
    RegularExpression.plus RegularExpression.zero

/-- The regular expression that matches the literal text `w`. -/
def literal (w : String) : RegularExpression Char :=
  (w.toList.map RegularExpression.char).foldr RegularExpression.comp RegularExpression.epsilon

/-- The group `(w1|w2|...)` built by `strings.Join(words, "|")`. -/
def alternatives (words : List String) : RegularExpression Char :=
  (words.map literal).foldr RegularExpression.plus RegularExpression.zero

/-- The pattern compiled by `SupportedPeriod`: `[0-9]*(m|h|d|w)`; the anchors `^`
and `$` make `MatchString` a match of the whole text. -/
def periodPattern : RegularExpression Char :=
  RegularExpression.comp (RegularExpression.star (charClass '0' '9'))
    (alternatives supportedPeriods)

/-- The function `SupportedPeriod`. -/
def SupportedPeriod (p : String) : Bool :=
  if p = "" then true else periodPattern.rmatch p.toList

/-! ## Queries against the senml datastore -/

/-- The fields of `data.Query` read by `LightdbStorage.Query`; times are
embedded as integers, and the field `Sort` is called `SortOrder`. -/
structure Query where
  Start : Int
  End : Int
  SortOrder : String
  Limit : Int
  perPage : Int
deriving DecidableEq, Repr

/-- The query handed to the senml datastore. -/
structure datastore.Query where
  Start : Int
  End : Int
  MaxEntries : Int
  Series : String
  SortOrder : String
deriving DecidableEq, Repr

/-- The record `registry.DataStream`, as far as `Query` reads it. -/
structure DataStream where
  Name : String
deriving DecidableEq, Repr

/-- The struct `LightdbStorage`: the senml datastore behind it answers a query
with a pack and an optional next link, or with an error (`none`); the time
conversions are those of the datastore package. -/
structure LightdbStorage where
  storage : datastore.Query → Option (List Entry × Option Int)
  ToSenmlTime : Int → Int
  FromSenmlTime : Int → Int

/-- What `LightdbStorage.Query` returns, together with the query it passed to
the datastore. -/
structure Queried where
  passed : datastore.Query
  pack : List Entry
  count : Int
  nextLinkTime : Option Int
  err : Bool
deriving DecidableEq, Repr

/-- The method `LightdbStorage.Query`; `none` is the panic of `sources[0]` on a
call without sources. -/
def LightdbStorage.Query (s : LightdbStorage) (q : Query) (sources : List DataStream) :
    Option Queried :=
  let maxEntries := if q.Limit > 0 ∧ q.perPage > q.Limit then q.Limit else q.perPage
  match sources with
  | [] => none
  | first :: _ =>
    let senmlQuery : datastore.Query :=
      { Start := s.ToSenmlTime q.Start
        End := s.ToSenmlTime q.End
        MaxEntries := maxEntries
        Series := first.Name
        SortOrder := q.SortOrder }
    match s.storage senmlQuery with
    | none => some { passed := senmlQuery, pack := [], count := 0, nextLinkTime := none, err := true }
    | some (retPack, nextlink) =>
      some { passed := senmlQuery
             pack := retPack
             count := retPack.length
             nextLinkTime := nextlink.map s.FromSenmlTime
             err := false }

/-- A datastore that answers every query with its first `MaxEntries` entries of
three stored ones, and no next link. -/
def threeEntries : LightdbStorage :=
  { storage := fun query =>
      some ([entryForX, entryForX, entryForX].take query.MaxEntries.toNat, none)
    ToSenmlTime := id
    FromSenmlTime := id }

/-- A datastore whose queries fail. -/
def brokenStore : LightdbStorage :=
  { storage := fun _ => none, ToSenmlTime := id, FromSenmlTime := id }

/-! ## Notions for the aggregation map -/

/-- The ids of the data sources among `visited` that carry an aggregation with
the id `id`, in order of visit, once per carried aggregation with that id. -/
def carriers (visited : List DataSource) (id : String) : List String :=
  visited.flatMap fun ds =>
    (ds.Aggregation.filter (fun dsa => decide (dsa.ID = id))).map (fun _ => ds.ID)

/-- The sources recorded under an aggregation id once the ids `more` have been
appended to what was recorded (`none`: no entry under the id). -/
def extendSources (stored : Option (List String)) (more : List String) :
    Option (List String) :=
  if more = [] then stored else some (stored.getD [] ++ more)

/-- The sources recorded in the map under an aggregation id. -/
def sourcesOf (aggrs : Dict Aggregation) (id : String) : Option (List String) :=
  (aggrs.find id).map Aggregation.Sources

/-- Every aggregation of the map carries the id it is stored under, and no id
is stored twice. -/
def KeyedById (aggrs : Dict Aggregation) : Prop :=
  (∀ p ∈ aggrs, p.2.ID = p.1) ∧ (aggrs.map Prod.fst).Nodup

/-- An hourly mean, carried by the data sources `dsHourly` and `dsBoth`. -/
def hourlyMean : DataSourceAggregation :=
  { ID := "h1", Interval := "1h", Aggregates := ["mean"], Retention := "" }

/-- A daily maximum, carried by `dsBoth`. -/
def dailyMax : DataSourceAggregation :=
  { ID := "d1", Interval := "1d", Aggregates := ["max"], Retention := "1w" }

/-- A data source that carries `hourlyMean`. -/
def dsHourly : DataSource :=
  { dsX with ID := "hourly", Aggregation := [hourlyMean] }

/-- A data source that carries `dailyMax` and `hourlyMean`. -/
def dsBoth : DataSource :=
  { dsY with ID := "both", Aggregation := [dailyMax, hourlyMean] }

/-- A catalog of 150 entries on two pages; `dsHourly` is on the first and `dsBoth`
on the second. -/
def aggregatedCatalog : Nat → Nat → Page := fun page _ =>
  if page = 1 then .listed [dsHourly, dsO] 150
  else .listed [dsBoth] 150

/-- The catalog `aggregatedCatalog` when the fetch of its second page fails. -/
def brokenCatalog : Nat → Nat → Page := fun page _ =>
  if page = 1 then .listed [dsHourly, dsO] 150
  else .failed

/-! ## Lemmas on maps -/

namespace Dict

theorem find_put_same {V : Type} (m : Dict V) (k : String) (v : V) :
    find (put m k v) k = some v := by
  induction m with
  | nil => simp [put, find]
  | cons p m ih =>
    obtain ⟨a, b⟩ := p
    by_cases h : k = a
    · simp [put, find, h]
    · simp [put, find, h, ih]

theorem find_put_other {V : Type} (m : Dict V) (k x : String) (v : V) (h : x ≠ k) :
    find (put m k v) x = find m x := by
  induction m with
  | nil => simp [put, find, h]
  | cons p m ih =>
    obtain ⟨a, b⟩ := p
    by_cases hk : k = a
    · subst hk
      simp [put, find, h]
    · by_cases hx : x = a
      · simp [put, find, hk, hx]
      · simp [put, find, hk, hx, ih]

theorem put_put {V : Type} (m : Dict V) (k : String) (v w : V) :
    put (put m k v) k w = put m k w := by
  induction m with
  | nil => simp [put]
  | cons p m ih =>
    obtain ⟨a, b⟩ := p
    by_cases h : k = a
    · simp [put, h]
    · simp [put, h, ih]

theorem find_remove_same {V : Type} (m : Dict V) (k : String) :
    find (remove m k) k = none := by
  induction m with
  | nil => simp [remove, find]
  | cons p m ih =>
    obtain ⟨a, b⟩ := p
    by_cases h : k = a
    · subst h
      simpa [remove] using ih
    · simp [remove, find, h, ih]

theorem find_remove_other {V : Type} (m : Dict V) (k x : String) (h : x ≠ k) :
    find (remove m k) x = find m x := by
  induction m with
  | nil => simp [remove, find]
  | cons p m ih =>
    obtain ⟨a, b⟩ := p
    by_cases hk : k = a
    · subst hk
      simp [remove, find, h, ih]
    · by_cases hx : x = a
      · simp [remove, find, hk, hx]
      · simp [remove, find, hk, hx, ih]

theorem remove_put_of_find_none {V : Type} (m : Dict V) (k : String) (v : V)
    (h : find m k = none) : remove (put m k v) k = m := by
  induction m with
  | nil => simp [put, remove]
  | cons p m ih =>
    obtain ⟨a, b⟩ := p
    by_cases hk : k = a
    · simp [find, hk] at h
    · simp only [find, hk, if_false] at h
      simp [put, remove, hk, ih h]

theorem filter_key_of_find_none {V : Type} (m : Dict V) (k : String)
    (h : find m k = none) : m.filter (fun p => decide (p.1 = k)) = [] := by
  induction m with
  | nil => rfl
  | cons p m ih =>
    obtain ⟨a, b⟩ := p
    by_cases hk : k = a
    · simp [find, hk] at h
    · simp only [find, hk, if_false] at h
      have : ¬ a = k := fun e => hk e.symm
      simp [List.filter_cons, this, ih h]

theorem filter_key_put_of_find_none {V : Type} (m : Dict V) (k : String) (v : V)
    (h : find m k = none) : (put m k v).filter (fun p => decide (p.1 = k)) = [(k, v)] := by
  induction m with
  | nil => simp [put]
  | cons p m ih =>
    obtain ⟨a, b⟩ := p
    by_cases hk : k = a
    · simp [find, hk] at h
    · simp only [find, hk, if_false] at h
      have : ¬ a = k := fun e => hk e.symm
      simp [put, hk, List.filter_cons, this, ih h]

theorem mem_put {V : Type} (m : Dict V) (k : String) (v : V) (p : String × V)
    (h : p ∈ put m k v) : p ∈ m ∨ p = (k, v) := by
  induction m with
  | nil => simpa [put] using h
  | cons q m ih =>
    obtain ⟨a, b⟩ := q
    by_cases hk : k = a
    · subst hk
      simp only [put, if_true, List.mem_cons] at h
      rcases h with h | h
      · exact Or.inr h
      · exact Or.inl (List.mem_cons_of_mem _ h)
    · simp only [put, hk, if_false, List.mem_cons] at h
      rcases h with h | h
      · exact Or.inl (h ▸ List.mem_cons_self _ _)
      · rcases ih h with h1 | h1
        · exact Or.inl (List.mem_cons_of_mem _ h1)
        · exact Or.inr h1

theorem mem_remove {V : Type} (m : Dict V) (k : String) (p : String × V)
    (h : p ∈ remove m k) : p ∈ m := by
  induction m with
  | nil => simp [remove] at h
  | cons q m ih =>
    obtain ⟨a, b⟩ := q
    by_cases hk : k = a
    · subst hk
      simp only [remove, if_true] at h
      exact List.mem_cons_of_mem _ (ih h)
    · simp only [remove, hk, if_false, List.mem_cons] at h
      rcases h with h | h
      · exact h ▸ List.mem_cons_self _ _
      · exact List.mem_cons_of_mem _ (ih h)

theorem put_ne_nil {V : Type} (m : Dict V) (k : String) (v : V) : put m k v ≠ [] := by
  cases m with
  | nil => simp [put]
  | cons q m =>
    obtain ⟨a, b⟩ := q
    by_cases hk : k = a <;> simp [put, hk]

end Dict

/-! ## A subscription shared by `n` data sources -/

theorem register_fresh (c : MQTTConnector) (conf : MQTTConf)
    (h : c.managers.find conf.URL = none) :
    c.register allOk conf =
      { state := c.withShared conf 1
        calls := [.connect conf.URL, .subscribe conf.URL conf.Topic conf.QoS]
        ret := .nil } := by
  simp [MQTTConnector.register, h, allOk, MQTTConnector.withShared, sharedManager,
    Manager.onConnectHandler, Dict.put]

theorem register_shared (c : MQTTConnector) (conf : MQTTConf) (n : Int) :
    (c.withShared conf n).register allOk conf =
      { state := c.withShared conf (n + 1), calls := [], ret := .nil } := by
  simp [MQTTConnector.register, MQTTConnector.withShared, sharedManager, Dict.find_put_same,
    Dict.find, Dict.put, Dict.put_put]

theorem unregister_shared (c : MQTTConnector) (conf : MQTTConf) (n : Int) (h : n ≠ 1) :
    (c.withShared conf n).unregister allOk conf =
      { state := c.withShared conf (n - 1), calls := [], ret := .nil } := by
  have h0 : ¬ n - 1 = 0 := fun e => h (by omega)
  simp [MQTTConnector.unregister, MQTTConnector.withShared, sharedManager, Dict.find_put_same,
    Dict.find, Dict.put, Dict.put_put, h0, MQTTConnector.dropIfEmpty]

theorem unregister_last (c : MQTTConnector) (conf : MQTTConf)
    (h : c.managers.find conf.URL = none) :
    (c.withShared conf 1).unregister allOk conf =
      { state := c
        calls := [.unsubscribe conf.URL conf.Topic, .disconnect conf.URL]
        ret := .nil } := by
  simp [MQTTConnector.unregister, MQTTConnector.withShared, sharedManager, Dict.find_put_same,
    Dict.find, Dict.put, Dict.remove, allOk, MQTTConnector.dropIfEmpty,
    Dict.remove_put_of_find_none _ _ _ h]

theorem registerN_succ (c : MQTTConnector) (conf : MQTTConf)
    (h : c.managers.find conf.URL = none) (n : Nat) :
    c.registerN conf (n + 1) = c.withShared conf ((n : Int) + 1) := by
  induction n with
  | zero => simp [MQTTConnector.registerN, register_fresh c conf h]
  | succ n ih =>
    rw [MQTTConnector.registerN, ih, register_shared]
    simp

theorem unregisterN_shared (c : MQTTConnector) (conf : MQTTConf) (n : Nat) (j : Nat)
    (hj : j < n) :
    (c.withShared conf n).unregisterN conf j = c.withShared conf ((n : Int) - j) := by
  induction j with
  | zero => simp [MQTTConnector.unregisterN]
  | succ j ih =>
    rw [MQTTConnector.unregisterN, ih (by omega), unregister_shared _ _ _ (by omega)]
    simp only [Nat.cast_add, Nat.cast_one]
    congr 1
    omega

theorem receiverCount_withShared (c : MQTTConnector) (conf : MQTTConf) (n : Int) :
    (c.withShared conf n).receiverCount conf.URL conf.Topic = n := by
  simp [MQTTConnector.receiverCount, MQTTConnector.subscription, MQTTConnector.withShared,
    sharedManager, Dict.find_put_same, Dict.find]

/-- C1: if no manager exists for `conf.URL`, then after `n ≥ 1` calls
`register(conf)` whose broker calls succeed the connector holds exactly one
manager for `conf.URL`, with exactly one subscription, for `conf.Topic`, of
receiver count `n`; each of the first `n - 1` following `unregister(conf)` calls
lowers the receiver count by one, issues no broker call and returns nil; the
`n`-th issues exactly one UNSUBSCRIBE (followed by the disconnect), returns nil
and removes the manager for `conf.URL`, which gives back the initial connector. -/
theorem C1_shared_subscription_lifecycle (c : MQTTConnector) (conf : MQTTConf) (n : Nat)
    (hn : 1 ≤ n) (hfresh : c.managers.find conf.URL = none) :
    ((c.registerN conf n).managers.filter (fun p => decide (p.1 = conf.URL))
        = [(conf.URL, sharedManager conf n)]
      ∧ (c.registerN conf n).managers.find conf.URL = some (sharedManager conf n))
    ∧ (∀ j : Nat, j + 1 < n →
        ((c.registerN conf n).unregisterN conf j).receiverCount conf.URL conf.Topic
            = (n : Int) - j
        ∧ (((c.registerN conf n).unregisterN conf j).unregister allOk conf).state.receiverCount
            conf.URL conf.Topic = (n : Int) - j - 1
        ∧ (((c.registerN conf n).unregisterN conf j).unregister allOk conf).calls = []
        ∧ (((c.registerN conf n).unregisterN conf j).unregister allOk conf).ret = Ret.nil)
    ∧ ((((c.registerN conf n).unregisterN conf (n - 1)).unregister allOk conf).calls
          = [.unsubscribe conf.URL conf.Topic, .disconnect conf.URL]
      ∧ (((c.registerN conf n).unregisterN conf (n - 1)).unregister allOk conf).ret = Ret.nil
      ∧ (((c.registerN conf n).unregisterN conf (n - 1)).unregister allOk conf).state.managers.find
          conf.URL = none
      ∧ (((c.registerN conf n).unregisterN conf (n - 1)).unregister allOk conf).state = c) := by
  obtain ⟨m, rfl⟩ : ∃ m, n = m + 1 := ⟨n - 1, by omega⟩
  have hreg : c.registerN conf (m + 1) = c.withShared conf ((m + 1 : Nat) : Int) := by
    rw [registerN_succ c conf hfresh]
    simp
  rw [hreg]
  refine ⟨⟨?_, ?_⟩, ?_, ?_⟩
  · exact Dict.filter_key_put_of_find_none _ _ _ hfresh
  · exact Dict.find_put_same _ _ _
  · intro j hj
    rw [unregisterN_shared c conf (m + 1) j (by omega),
      unregister_shared _ _ _ (by omega), receiverCount_withShared, receiverCount_withShared]
    exact ⟨rfl, rfl, rfl, rfl⟩
  · have hlast : (c.withShared conf ((m + 1 : Nat) : Int)).unregisterN conf (m + 1 - 1)
        = c.withShared conf 1 := by
      rw [unregisterN_shared c conf (m + 1) (m + 1 - 1) (by omega)]
      congr 1
      simp
    rw [hlast, unregister_last c conf hfresh]
    exact ⟨rfl, rfl, hfresh, rfl⟩

/-- C1 at the spec scenario: two data sources share `confT` on an empty connector. -/
theorem C1_shared_subscription_lifecycle_witness :
    ((MQTTConnector.empty.registerN confT 2).managers.filter
          (fun p => decide (p.1 = confT.URL)) = [(confT.URL, sharedManager confT (2 : Nat))]
      ∧ (MQTTConnector.empty.registerN confT 2).managers.find confT.URL
          = some (sharedManager confT (2 : Nat)))
    ∧ (∀ j : Nat, j + 1 < 2 →
        ((MQTTConnector.empty.registerN confT 2).unregisterN confT j).receiverCount
            confT.URL confT.Topic = ((2 : Nat) : Int) - j
        ∧ (((MQTTConnector.empty.registerN confT 2).unregisterN confT j).unregister
            allOk confT).state.receiverCount confT.URL confT.Topic = ((2 : Nat) : Int) - j - 1
        ∧ (((MQTTConnector.empty.registerN confT 2).unregisterN confT j).unregister
            allOk confT).calls = []
        ∧ (((MQTTConnector.empty.registerN confT 2).unregisterN confT j).unregister
            allOk confT).ret = Ret.nil)
    ∧ ((((MQTTConnector.empty.registerN confT 2).unregisterN confT (2 - 1)).unregister
          allOk confT).calls = [.unsubscribe confT.URL confT.Topic, .disconnect confT.URL]
      ∧ (((MQTTConnector.empty.registerN confT 2).unregisterN confT (2 - 1)).unregister
          allOk confT).ret = Ret.nil
      ∧ (((MQTTConnector.empty.registerN confT 2).unregisterN confT (2 - 1)).unregister
          allOk confT).state.managers.find confT.URL = none
      ∧ (((MQTTConnector.empty.registerN confT 2).unregisterN confT (2 - 1)).unregister
          allOk confT).state = MQTTConnector.empty) :=
  C1_shared_subscription_lifecycle MQTTConnector.empty confT 2 (by decide) (by decide)

/-! ## Broker calls and receiver-count transitions of one pair -/

theorem pair_step (c : MQTTConnector) (o : Op) (hc : c.OnlyPair o.conf.URL o.conf.Topic)
    (hpos : c.HeldPositive o.conf.URL o.conf.Topic)
    (hok : ∀ u t, o.ok (.unsubscribe u t) = true) :
    (o.step c).state.OnlyPair o.conf.URL o.conf.Topic
    ∧ (o.step c).state.HeldPositive o.conf.URL o.conf.Topic
    ∧ ((o.step c).calls.filter BrokerCall.isSubscribe).length
        = (if c.rises (o.step c).state o.conf.URL o.conf.Topic then 1 else 0)
    ∧ ((o.step c).calls.filter BrokerCall.isUnsubscribe).length
        = (if c.falls (o.step c).state o.conf.URL o.conf.Topic then 1 else 0) := by
  obtain ⟨isReg, conf, ok⟩ := o
  rcases hc with h | ⟨mu, sub, h⟩
  · cases isReg
    · refine ⟨?_, ?_, ?_, ?_⟩
      · simp [Op.step, MQTTConnector.unregister, h, MQTTConnector.OnlyPair]
      · simpa [Op.step, MQTTConnector.unregister, h] using hpos
      · simp [Op.step, MQTTConnector.unregister, h, MQTTConnector.rises,
          MQTTConnector.receiverCount, MQTTConnector.subscription]
      · simp [Op.step, MQTTConnector.unregister, h, MQTTConnector.falls,
          MQTTConnector.receiverCount, MQTTConnector.subscription]
    · by_cases hcon : ok (.connect conf.URL) = true
      · refine ⟨?_, ?_, ?_, ?_⟩
        · simp [Op.step, MQTTConnector.register, h, hcon, MQTTConnector.OnlyPair,
            Dict.find_put_same, Dict.put]
        · intro s hs
          simp [Op.step, MQTTConnector.register, h, hcon, MQTTConnector.subscription,
            Dict.find_put_same, Dict.put, Dict.find] at hs
          subst hs
          exact le_refl _
        · simp [Op.step, MQTTConnector.register, h, hcon, MQTTConnector.rises,
            MQTTConnector.receiverCount, MQTTConnector.subscription, Dict.find_put_same,
            Dict.put, Dict.find, Manager.onConnectHandler, BrokerCall.isSubscribe]
        · simp [Op.step, MQTTConnector.register, h, hcon, MQTTConnector.falls,
            MQTTConnector.receiverCount, MQTTConnector.subscription, Dict.find_put_same,
            Dict.put, Dict.find, Manager.onConnectHandler, BrokerCall.isUnsubscribe]
      · refine ⟨?_, ?_, ?_, ?_⟩
        · simp [Op.step, MQTTConnector.register, h, hcon, MQTTConnector.OnlyPair]
        · simpa [Op.step, MQTTConnector.register, h, hcon] using hpos
        · simp [Op.step, MQTTConnector.register, h, hcon, MQTTConnector.rises,
            MQTTConnector.receiverCount, MQTTConnector.subscription, BrokerCall.isSubscribe]
        · simp [Op.step, MQTTConnector.register, h, hcon, MQTTConnector.falls,
            MQTTConnector.receiverCount, MQTTConnector.subscription, BrokerCall.isUnsubscribe]
  · have hk : 1 ≤ sub.receivers :=
      hpos sub (by simp [MQTTConnector.subscription, h, Dict.find])
    have hun : ok (.unsubscribe mu conf.Topic) = true := hok mu conf.Topic
    cases isReg
    · by_cases h1 : sub.receivers - 1 = 0
      · have h1' : sub.receivers = 1 := by omega
        refine ⟨?_, ?_, ?_, ?_⟩
        · simp [Op.step, MQTTConnector.unregister, h, h1, hun, MQTTConnector.OnlyPair,
            Dict.find_put_same, Dict.put, Dict.find, Dict.remove, MQTTConnector.dropIfEmpty,
            Dict.find_remove_same]
        · intro s hs
          simp [Op.step, MQTTConnector.unregister, h, h1, hun, MQTTConnector.subscription,
            Dict.find_put_same, Dict.put, Dict.find, Dict.remove, MQTTConnector.dropIfEmpty,
            Dict.find_remove_same] at hs
        · simp [Op.step, MQTTConnector.unregister, h, h1, h1', hun, MQTTConnector.rises,
            MQTTConnector.receiverCount, MQTTConnector.subscription, Dict.find_put_same,
            Dict.put, Dict.find, Dict.remove, MQTTConnector.dropIfEmpty,
            Dict.find_remove_same, BrokerCall.isSubscribe]
        · simp [Op.step, MQTTConnector.unregister, h, h1, h1', hun, MQTTConnector.falls,
            MQTTConnector.receiverCount, MQTTConnector.subscription, Dict.find_put_same,
            Dict.put, Dict.find, Dict.remove, MQTTConnector.dropIfEmpty,
            Dict.find_remove_same, BrokerCall.isUnsubscribe]
      · have h1' : ¬ sub.receivers = 1 := fun e => h1 (by omega)
        have h0 : ¬ sub.receivers = 0 := by omega
        refine ⟨?_, ?_, ?_, ?_⟩
        · simp [Op.step, MQTTConnector.unregister, h, h1, MQTTConnector.OnlyPair,
            Dict.find_put_same, Dict.put, Dict.find, MQTTConnector.dropIfEmpty]
        · intro s hs
          simp [Op.step, MQTTConnector.unregister, h, h1, MQTTConnector.subscription,
            Dict.find_put_same, Dict.put, Dict.find, MQTTConnector.dropIfEmpty] at hs
          subst hs
          simp only
          omega
        · simp [Op.step, MQTTConnector.unregister, h, h1, h0, MQTTConnector.rises,
            MQTTConnector.receiverCount, MQTTConnector.subscription, Dict.find_put_same,
            Dict.put, Dict.find, MQTTConnector.dropIfEmpty]
        · simp [Op.step, MQTTConnector.unregister, h, h1, h1', MQTTConnector.falls,
            MQTTConnector.receiverCount, MQTTConnector.subscription, Dict.find_put_same,
            Dict.put, Dict.find, MQTTConnector.dropIfEmpty]
    · have h0 : ¬ sub.receivers = 0 := by omega
      have h2 : ¬ sub.receivers + 1 = 0 := by omega
      refine ⟨?_, ?_, ?_, ?_⟩
      · simp [Op.step, MQTTConnector.register, h, MQTTConnector.OnlyPair,
          Dict.find_put_same, Dict.put, Dict.find]
      · intro s hs
        simp [Op.step, MQTTConnector.register, h, MQTTConnector.subscription,
          Dict.find_put_same, Dict.put, Dict.find] at hs
        subst hs
        simp only
        omega
      · simp [Op.step, MQTTConnector.register, h, h0, MQTTConnector.rises,
          MQTTConnector.receiverCount, MQTTConnector.subscription, Dict.find_put_same,
          Dict.put, Dict.find]
      · simp [Op.step, MQTTConnector.register, h, h2, MQTTConnector.falls,
          MQTTConnector.receiverCount, MQTTConnector.subscription, Dict.find_put_same,
          Dict.put, Dict.find]

theorem pair_run (ops : List Op) (url topic : String) (c : MQTTConnector)
    (hops : ∀ o ∈ ops, o.conf.URL = url ∧ o.conf.Topic = topic)
    (hok : ∀ o ∈ ops, ∀ u t, o.ok (.unsubscribe u t) = true)
    (hc : c.OnlyPair url topic) (hpos : c.HeldPositive url topic) :
    ((c.trace ops).filter BrokerCall.isSubscribe).length = c.riseCount url topic ops
    ∧ ((c.trace ops).filter BrokerCall.isUnsubscribe).length = c.fallCount url topic ops := by
  induction ops generalizing c with
  | nil => exact ⟨rfl, rfl⟩
  | cons o os ih =>
    obtain ⟨hu, ht⟩ := hops o (List.mem_cons_self _ _)
    subst hu ht
    obtain ⟨hs, hp, h1, h2⟩ := pair_step c o hc hpos (hok o (List.mem_cons_self _ _))
    obtain ⟨i1, i2⟩ := ih (o.step c).state (fun x hx => hops x (List.mem_cons_of_mem _ hx))
      (fun x hx => hok x (List.mem_cons_of_mem _ hx)) hs hp
    simp only [MQTTConnector.trace, MQTTConnector.riseCount, MQTTConnector.fallCount,
      List.filter_append, List.length_append]
    omega

/-- C2: the run register, unregister with a failing UNSUBSCRIBE, register,
unregister of one pair from the empty connector takes the pair's receiver
count through 1, 0, 1, 0: two steps from 0 to 1 and two from 1 to 0. The broker
sees two UNSUBSCRIBE calls but one SUBSCRIBE call: the failed UNSUBSCRIBE leaves
the subscription stored with no receiver, and the next `register` increments it
without a SUBSCRIBE. A SUBSCRIBE that fails is a call without a step: on a
manager that tracks another topic it is issued and the count stays 0. On the
run `pairRun`, in which no broker call fails, the numbers agree. -/
theorem C2_kept_subscription_rises_without_subscribe :
    MQTTConnector.empty.counts confT.URL confT.Topic keptRun = [1, 0, 1, 0]
    ∧ MQTTConnector.empty.riseCount confT.URL confT.Topic keptRun = 2
    ∧ ((MQTTConnector.empty.trace keptRun).filter BrokerCall.isSubscribe).length = 1
    ∧ MQTTConnector.empty.fallCount confT.URL confT.Topic keptRun = 2
    ∧ ((MQTTConnector.empty.trace keptRun).filter BrokerCall.isUnsubscribe).length = 2
    ∧ MQTTConnector.empty.trace keptRun
        = [.connect confT.URL, .subscribe confT.URL confT.Topic confT.QoS,
            .unsubscribe confT.URL confT.Topic, .unsubscribe confT.URL confT.Topic,
            .disconnect confT.URL]
    ∧ (MQTTConnector.empty.withShared confOther 1).counts confT.URL confT.Topic rejectedRun
        = [0]
    ∧ (MQTTConnector.empty.withShared confOther 1).riseCount confT.URL confT.Topic
        rejectedRun = 0
    ∧ (((MQTTConnector.empty.withShared confOther 1).trace rejectedRun).filter
        BrokerCall.isSubscribe).length = 1
    ∧ MQTTConnector.empty.riseCount confT.URL confT.Topic pairRun = 2
    ∧ ((MQTTConnector.empty.trace pairRun).filter BrokerCall.isSubscribe).length = 2
    ∧ MQTTConnector.empty.fallCount confT.URL confT.Topic pairRun = 1
    ∧ ((MQTTConnector.empty.trace pairRun).filter BrokerCall.isUnsubscribe).length = 1 :=
  ⟨by decide, by decide, by decide, by decide, by decide, by decide, by decide, by decide,
    by decide, by decide, by decide, by decide, by decide⟩

/-! ## Unregistering what was never registered -/

/-- C3: with a manager for the url that tracks another topic only (here after
`register(confOther)`), no subscription is held for `confT`, and
`unregister(confT)` dereferences the nil subscription: it panics instead of
returning nil. -/
theorem C3_unregister_untracked_topic_panics :
    (MQTTConnector.empty.register allOk confOther).state.subscription confT.URL confT.Topic
        = none
    ∧ ((MQTTConnector.empty.register allOk confOther).state.unregister allOk confT).ret
        = Ret.fault := by
  decide

/-- C4: X is created while the broker is unreachable (its registration fails),
Y and Z are created and registered, then X is deleted. The live entries are Y
and Z, both registered for the pair of `confT` and none waiting for a retry, but
the Delete of X has decremented the shared subscription: its receiver count is
1, not 2. -/
theorem C4_delete_of_unregistered_entry_lowers_count :
    (NtfListenerMQTT MQTTConnector.empty stolenReceiverNotifications).acks
        = [(0, Ack.error), (1, Ack.nil), (2, Ack.nil), (3, Ack.nil)]
    ∧ catalogAfter [] (stolenReceiverNotifications.map Prod.fst) = [dsY, dsZ]
    ∧ ((catalogAfter [] (stolenReceiverNotifications.map Prod.fst)).filter
        fun ds => ds.names confT.URL confT.Topic).length = 2
    ∧ (NtfListenerMQTT MQTTConnector.empty stolenReceiverNotifications).state.failedRegistrations
        = []
    ∧ (NtfListenerMQTT MQTTConnector.empty stolenReceiverNotifications).state.subscription
        confT.URL confT.Topic
        = some { url := confT.URL, topic := confT.Topic, qos := confT.QoS, receivers := 1 } := by
  decide

/-! ## A failing UNSUBSCRIBE -/

/-- C5: `unregister(confT)` on a subscription with one receiver, when the broker
UNSUBSCRIBE fails, returns the error after the in-place decrement and before the
removal: the subscription stays in the manager's map with receiver count 0. -/
theorem C5_failed_unsubscribe_leaves_zero_count :
    ((MQTTConnector.empty.register allOk confT).state.unregister failUnsubscribe confT).ret
        = Ret.error
    ∧ ((MQTTConnector.empty.register allOk confT).state.unregister
          failUnsubscribe confT).state.subscription confT.URL confT.Topic
        = some { url := confT.URL, topic := confT.Topic, qos := confT.QoS, receivers := 0 } := by
  decide

/-- C6: after register, an unregister whose UNSUBSCRIBE fails and one more
unregister, the subscription is still held and its receiver count is -1. -/
theorem C6_receiver_count_goes_negative :
    (MQTTConnector.empty.run underflowRun).subscription confT.URL confT.Topic
        = some { url := confT.URL, topic := confT.Topic, qos := confT.QoS, receivers := -1 }
    ∧ (MQTTConnector.empty.run underflowRun).receiverCount confT.URL confT.Topic < 0 := by
  decide

/-! ## No manager without subscriptions -/

theorem length_put_pos {V : Type} (m : Dict V) (k : String) (v : V) :
    1 ≤ (Dict.put m k v).length :=
  List.length_pos.mpr (Dict.put_ne_nil m k v)

theorem noIdle_put (c : MQTTConnector) (url : String) (m : Manager)
    (hc : c.NoIdleManager) (hm : 1 ≤ m.subscriptions.length) :
    MQTTConnector.NoIdleManager { c with managers := c.managers.put url m } := by
  intro p hp
  rcases Dict.mem_put _ _ _ _ hp with h | h
  · exact hc p h
  · subst h
    exact hm

theorem noIdle_remove (c : MQTTConnector) (url : String) (hc : c.NoIdleManager) :
    MQTTConnector.NoIdleManager { c with managers := c.managers.remove url } :=
  fun p hp => hc p (Dict.mem_remove _ _ _ hp)

theorem noIdle_register (c : MQTTConnector) (ok : BrokerCall → Bool) (conf : MQTTConf)
    (hc : c.NoIdleManager) : (c.register ok conf).state.NoIdleManager := by
  unfold MQTTConnector.register
  split
  · dsimp only
    split
    · exact noIdle_put c _ _ hc (length_put_pos _ _ _)
    · exact hc
  · split
    · dsimp only
      split
      · exact noIdle_put c _ _ hc (length_put_pos _ _ _)
      · exact hc
    · exact noIdle_put c _ _ hc (length_put_pos _ _ _)

theorem noIdle_dropIfEmpty (c : MQTTConnector) (url : String) (m : Manager)
    (calls : List BrokerCall) (hc : c.NoIdleManager) :
    (c.dropIfEmpty url m calls).state.NoIdleManager := by
  unfold MQTTConnector.dropIfEmpty
  split
  · exact noIdle_remove c url hc
  · exact noIdle_put c url m hc (by omega)

theorem noIdle_unregister (c : MQTTConnector) (ok : BrokerCall → Bool) (conf : MQTTConf)
    (hc : c.NoIdleManager) : (c.unregister ok conf).state.NoIdleManager := by
  unfold MQTTConnector.unregister
  split
  · exact hc
  · split
    · exact hc
    · dsimp only
      split
      · split
        · exact noIdle_dropIfEmpty c _ _ _ hc
        · exact noIdle_put c _ _ hc (length_put_pos _ _ _)
      · exact noIdle_dropIfEmpty c _ _ _ hc

theorem noIdle_run (ops : List Op) (c : MQTTConnector) (hc : c.NoIdleManager) :
    (c.run ops).NoIdleManager := by
  induction ops generalizing c with
  | nil => exact hc
  | cons o os ih =>
    apply ih
    unfold Op.step
    split
    · exact noIdle_register c _ _ hc
    · exact noIdle_unregister c _ _ hc

/-- C7: in every state reached from the empty connector by a run of `register`
and `unregister` calls, whatever the broker answers (and also past calls that
panic), every manager in the manager map has at least one subscription. -/
theorem C7_no_manager_without_subscription (ops : List Op) :
    ∀ p ∈ (MQTTConnector.empty.run ops).managers, 1 ≤ p.2.subscriptions.length :=
  noIdle_run ops MQTTConnector.empty (fun _ hp => by simp [MQTTConnector.empty] at hp)

/-- C7 on the run `underflowRun`: the manager left in the map by the failed
UNSUBSCRIBE still tracks its subscription. -/
theorem C7_no_manager_without_subscription_witness :
    (confT.URL, sharedManager confT (-1)) ∈ (MQTTConnector.empty.run underflowRun).managers
    ∧ 1 ≤ (sharedManager confT (-1)).subscriptions.length :=
  ⟨by decide,
    C7_no_manager_without_subscription underflowRun (confT.URL, sharedManager confT (-1))
      (by decide)⟩

/-! ## Notifications -/

/-- C8: X's name is in the cache when the Update moves X from `confT` to
`confOther` (retention unchanged, so the cache is kept). Afterwards both
subscriptions are held; a message entry for X arriving on the new subscription
is resolved from the cache to the old snapshot and dropped as wrong topic,
without a catalog lookup and without a `Submit`; the same entry arriving on the
old subscription is forwarded to `Submit`. -/
theorem C8_stale_cache_after_config_update :
    cachedConnector.cache.find dsX.Resource = some dsX
    ∧ (cachedConnector.NtfUpdated allOk dsX dsXMoved).sent = [Ack.nil]
    ∧ movedConnector.cache.find dsX.Resource = some dsX
    ∧ movedConnector.subscription confOther.URL confOther.Topic = some (subscriptionOf confOther)
    ∧ movedConnector.subscription confT.URL confT.Topic = some (subscriptionOf confT)
    ∧ ((subscriptionOf confOther).onMessage movedConnector catalogMoved true messageForX).submit
        = none
    ∧ ((subscriptionOf confOther).onMessage movedConnector catalogMoved true messageForX).log
        = [Diag.wrongTopic dsX.Resource]
    ∧ ((subscriptionOf confOther).onMessage movedConnector catalogMoved true messageForX).lookups
        = []
    ∧ ((subscriptionOf confT).onMessage movedConnector catalogMoved true messageForX).submit
        = some ([(dsX.ID, [DataPoint.mk
            { Name := dsX.Resource, Value := some 21, StringValue := none,
              BooleanValue := none }])], [(dsX.ID, dsX)]) :=
  ⟨by decide, by decide, by decide, by decide, by decide, by decide, by decide, by decide,
    by decide⟩

/-- C9: a Create notification for X whose `register` fails (the connect fails)
sends an error on the callback and leaves the failed registrations empty: the
id of X is not queued for a retry. -/
theorem C9_create_failure_is_not_queued :
    (MQTTConnector.empty.NtfCreated allFail dsX).sent = [Ack.error]
    ∧ (MQTTConnector.empty.NtfCreated allFail dsX).state.failedRegistrations.find dsX.ID = none
    ∧ (MQTTConnector.empty.NtfCreated allFail dsX).state = MQTTConnector.empty := by
  decide

/-- C10: the Delete of X panics in `unregister` (the manager tracks another
topic only); the panic is recovered and an error is sent on that notification's
callback, but the listener then returns: it has taken three of the four
notifications, nothing is ever sent on the callback of the Create of Z, and Z's
configuration is not registered. -/
theorem C10_listener_returns_after_recovered_panic :
    (NtfListenerMQTT MQTTConnector.empty faultingNotifications).acks
        = [(0, Ack.nil), (1, Ack.error), (2, Ack.error)]
    ∧ (NtfListenerMQTT MQTTConnector.empty faultingNotifications).returned = true
    ∧ (NtfListenerMQTT MQTTConnector.empty faultingNotifications).received = 3
    ∧ (NtfListenerMQTT MQTTConnector.empty faultingNotifications).state.subscription
        confT.URL confT.Topic = none := by
  decide

/-! ## One acknowledgment per handled notification -/

theorem sentOnce_NtfCreated (c : MQTTConnector) (ok : BrokerCall → Bool) (ds : DataSource) :
    (c.NtfCreated ok ds).sentOnce := by
  unfold MQTTConnector.NtfCreated
  split
  · dsimp only
    split <;> simp [Handled.sentOnce]
  · simp [Handled.sentOnce]

theorem sentOnce_addNew (c : MQTTConnector) (ok : BrokerCall → Bool) (oldDS newDS : DataSource)
    (calls : List BrokerCall) : (c.addNew ok oldDS newDS calls).sentOnce := by
  unfold MQTTConnector.addNew
  dsimp only
  split
  · split <;> simp [Handled.sentOnce]
  · simp [Handled.sentOnce]

theorem sentOnce_NtfUpdated (c : MQTTConnector) (ok : BrokerCall → Bool)
    (oldDS newDS : DataSource) : (c.NtfUpdated ok oldDS newDS).sentOnce := by
  unfold MQTTConnector.NtfUpdated
  dsimp only
  split
  · simp [Handled.sentOnce]
  · split
    · split
      · exact sentOnce_addNew _ _ _ _ _
      · simp [Handled.sentOnce]
      · simp [Handled.sentOnce]
    · exact sentOnce_addNew _ _ _ _ _

theorem sentOnce_NtfDeleted (c : MQTTConnector) (ok : BrokerCall → Bool) (ds : DataSource) :
    (c.NtfDeleted ok ds).sentOnce := by
  unfold MQTTConnector.NtfDeleted
  dsimp only
  split
  · split <;> simp [Handled.sentOnce]
  · simp [Handled.sentOnce]

theorem dispatch_wellFormed (c : MQTTConnector) (ok : BrokerCall → Bool) (ntf : Notification) :
    (ntf.wellFormed = false → dispatch c ok ntf = none)
    ∧ (ntf.wellFormed = true → ∃ h, dispatch c ok ntf = some h ∧ h.sentOnce) := by
  obtain ⟨typ, payload, cb⟩ := ntf
  unfold dispatch Notification.wellFormed
  by_cases h0 : typ = CREATE
  · subst h0
    cases payload <;> simp [sentOnce_NtfCreated]
  · by_cases h1 : typ = UPDATE
    · subst h1
      cases payload with
      | dataSource ds => simp [UPDATE, CREATE, DELETE]
      | other => simp [UPDATE, CREATE, DELETE]
      | dataSources dss =>
        match dss with
        | [] => simp [UPDATE, CREATE, DELETE]
        | [_] => simp [UPDATE, CREATE, DELETE]
        | a :: b :: rest =>
          have := sentOnce_NtfUpdated c ok a b
          simp [UPDATE, CREATE, DELETE, this]
    · by_cases h2 : typ = DELETE
      · subst h2
        cases payload <;> simp [sentOnce_NtfDeleted, DELETE, CREATE, UPDATE]
      · simp [h0, h1, h2]

/-- C11, as the claim states it, fails: a Create whose payload is not a data
source, and a notification of an unknown type, are taken from the channel and
skipped; nothing is sent on their callback (channel 7) before the next
notification, the Create of X, is handled and acknowledged on channel 8. -/
theorem C11_skipped_notification_gets_no_ack :
    (NtfListenerMQTT MQTTConnector.empty malformedThenCreate).received = 2
    ∧ (NtfListenerMQTT MQTTConnector.empty malformedThenCreate).acks = [(8, Ack.nil)]
    ∧ ((NtfListenerMQTT MQTTConnector.empty malformedThenCreate).acks.filter
        fun a => a.1 == 7).length = 0
    ∧ (NtfListenerMQTT MQTTConnector.empty unknownThenCreate).received = 2
    ∧ (NtfListenerMQTT MQTTConnector.empty unknownThenCreate).acks = [(8, Ack.nil)] :=
  ⟨by decide, by decide, by decide, by decide, by decide⟩

/-- C11, amended: the callback channels on which the listener sends, in the
order of the sends, are exactly the callbacks of the notifications it took from
the channel that are well formed (type Create or Delete with a data source,
type Update with at least two data sources), in the order received: each of
them gets exactly one value, sent before the next notification is handled, and
a notification of another type or with another payload gets none. -/
theorem C11_one_ack_per_well_formed_notification (c : MQTTConnector)
    (ntfs : List (Notification × (BrokerCall → Bool))) :
    (NtfListenerMQTT c ntfs).acks.map Prod.fst
        = (((ntfs.take (NtfListenerMQTT c ntfs).received).filter
            fun p => p.1.wellFormed).map fun p => p.1.Callback)
    ∧ (NtfListenerMQTT c ntfs).received ≤ ntfs.length := by
  induction ntfs generalizing c with
  | nil => simp [NtfListenerMQTT]
  | cons x rest ih =>
    obtain ⟨ntf, ok⟩ := x
    obtain ⟨hbad, hgood⟩ := dispatch_wellFormed c ok ntf
    cases hw : ntf.wellFormed with
    | false =>
      obtain ⟨i1, i2⟩ := ih c
      simp [NtfListenerMQTT, hbad hw, hw, i1]
      omega
    | true =>
      obtain ⟨h, hd, hp, hn⟩ := hgood hw
      cases hpan : h.panicked with
      | true =>
        simp [NtfListenerMQTT, hd, hpan, hp hpan, hw]
      | false =>
        obtain ⟨i1, i2⟩ := ih h.state
        obtain ⟨a, ha⟩ : ∃ a, h.sent = [a] := by
          have := hn hpan
          match hs : h.sent, this with
          | [a], _ => exact ⟨a, rfl⟩
        simp [NtfListenerMQTT, hd, hpan, ha, hw, i1]
        omega

/-! ## The branches of register and unregister -/

theorem put_of_find_none {V : Type} (m : Dict V) (k : String) (v : V)
    (h : Dict.find m k = none) : Dict.put m k v = m ++ [(k, v)] := by
  induction m with
  | nil => rfl
  | cons p m ih =>
    obtain ⟨a, b⟩ := p
    by_cases hk : k = a
    · simp [Dict.find, hk] at h
    · simp only [Dict.find, hk, if_false] at h
      simp [Dict.put, hk, ih h]

theorem remove_put_same {V : Type} (m : Dict V) (k : String) (v : V) :
    Dict.remove (Dict.put m k v) k = Dict.remove m k := by
  induction m with
  | nil => simp [Dict.put, Dict.remove]
  | cons p m ih =>
    obtain ⟨a, b⟩ := p
    by_cases hk : k = a
    · simp [Dict.put, Dict.remove, hk]
    · simp [Dict.put, Dict.remove, hk, ih]

theorem remove_eq_nil_iff {V : Type} (m : Dict V) (k : String) :
    Dict.remove m k = [] ↔ ∀ t, t ≠ k → Dict.find m t = none := by
  induction m with
  | nil => simp [Dict.remove, Dict.find]
  | cons p m ih =>
    obtain ⟨a, b⟩ := p
    by_cases hk : k = a
    · subst hk
      simp only [Dict.remove, if_true, ih]
      constructor
      · intro h t ht
        simp [Dict.find, ht, h t ht]
      · intro h t ht
        have := h t ht
        simpa [Dict.find, ht] using this
    · simp only [Dict.remove, hk, if_false]
      constructor
      · intro h
        exact absurd h (List.cons_ne_nil _ _)
      · intro h
        have := h a (fun e => hk e.symm)
        simp [Dict.find] at this

/-- C12: `register(conf)` on a connector that holds a subscription `s` for
`(conf.URL, conf.Topic)` returns nil, issues no broker call whatever the broker
would answer, and leaves that subscription with its receiver count raised by
exactly one (url, topic and qos as before). -/
theorem C12_register_held_subscription_increments (c : MQTTConnector) (ok : BrokerCall → Bool)
    (conf : MQTTConf) (s : Subscription)
    (hs : c.subscription conf.URL conf.Topic = some s) :
    (c.register ok conf).ret = Ret.nil
    ∧ (c.register ok conf).calls = []
    ∧ (c.register ok conf).state.subscription conf.URL conf.Topic
        = some { s with receivers := s.receivers + 1 }
    ∧ (c.register ok conf).state.receiverCount conf.URL conf.Topic
        = c.receiverCount conf.URL conf.Topic + 1 := by
  unfold MQTTConnector.subscription at hs
  cases hm : c.managers.find conf.URL with
  | none => simp [hm] at hs
  | some m =>
    simp only [hm] at hs
    simp [MQTTConnector.register, MQTTConnector.receiverCount, MQTTConnector.subscription, hm, hs,
      Dict.find_put_same]

/-- C12 on the connector that holds `confT` once: the second `register(confT)`. -/
theorem C12_register_held_subscription_increments_witness :
    (MQTTConnector.empty.withShared confT 1).subscription confT.URL confT.Topic
        = some (subscriptionOf confT)
    ∧ ((MQTTConnector.empty.withShared confT 1).register allFail confT).ret = Ret.nil
    ∧ ((MQTTConnector.empty.withShared confT 1).register allFail confT).calls = []
    ∧ ((MQTTConnector.empty.withShared confT 1).register allFail confT).state.subscription
        confT.URL confT.Topic
        = some { subscriptionOf confT with receivers := (subscriptionOf confT).receivers + 1 }
    ∧ ((MQTTConnector.empty.withShared confT 1).register allFail confT).state.receiverCount
        confT.URL confT.Topic
        = (MQTTConnector.empty.withShared confT 1).receiverCount confT.URL confT.Topic + 1 :=
  ⟨by decide,
    C12_register_held_subscription_increments (MQTTConnector.empty.withShared confT 1) allFail
      confT (subscriptionOf confT) (by decide)⟩

/-- C13: `register(conf)` when no manager exists for `conf.URL` and the broker
connect fails returns an error after the one connect attempt and leaves the
connector as it was: no manager and no subscription is created. -/
theorem C13_register_connect_failure_changes_nothing (c : MQTTConnector)
    (ok : BrokerCall → Bool) (conf : MQTTConf)
    (hm : c.managers.find conf.URL = none) (hfail : ok (.connect conf.URL) = false) :
    (c.register ok conf).ret = Ret.error
    ∧ (c.register ok conf).calls = [.connect conf.URL]
    ∧ (c.register ok conf).state = c
    ∧ (c.register ok conf).state.managers.find conf.URL = none
    ∧ (c.register ok conf).state.subscription conf.URL conf.Topic = none := by
  simp [MQTTConnector.register, MQTTConnector.subscription, hm, hfail]

/-- C13 on the empty connector with an unreachable broker. -/
theorem C13_register_connect_failure_changes_nothing_witness :
    (MQTTConnector.empty.register allFail confT).ret = Ret.error
    ∧ (MQTTConnector.empty.register allFail confT).calls = [.connect confT.URL]
    ∧ (MQTTConnector.empty.register allFail confT).state = MQTTConnector.empty
    ∧ (MQTTConnector.empty.register allFail confT).state.managers.find confT.URL = none
    ∧ (MQTTConnector.empty.register allFail confT).state.subscription confT.URL confT.Topic
        = none :=
  C13_register_connect_failure_changes_nothing MQTTConnector.empty allFail confT
    (by decide) (by decide)

/-- C14: `register(conf)` when the manager `m` for `conf.URL` has no
subscription for `conf.Topic` issues one SUBSCRIBE on that manager's connection.
If it succeeds, register returns nil, the manager gains the subscription for
`conf.Topic` with receiver count 1 (appended to its map) and every other topic
of the manager is as before; if it fails, register returns an error and the
connector, hence the manager's subscription map, is unchanged. -/
theorem C14_register_new_topic_on_existing_manager (c : MQTTConnector) (ok : BrokerCall → Bool)
    (conf : MQTTConf) (m : Manager)
    (hm : c.managers.find conf.URL = some m)
    (ht : m.subscriptions.find conf.Topic = none) :
    (ok (.subscribe m.url conf.Topic conf.QoS) = true →
      (c.register ok conf).ret = Ret.nil
      ∧ (c.register ok conf).calls = [.subscribe m.url conf.Topic conf.QoS]
      ∧ (c.register ok conf).state.managers.find conf.URL
          = some { m with subscriptions := m.subscriptions ++ [(conf.Topic, subscriptionOf conf)] }
      ∧ (c.register ok conf).state.subscription conf.URL conf.Topic = some (subscriptionOf conf)
      ∧ ∀ t, t ≠ conf.Topic →
          (c.register ok conf).state.subscription conf.URL t = c.subscription conf.URL t)
    ∧ (ok (.subscribe m.url conf.Topic conf.QoS) = false →
      (c.register ok conf).ret = Ret.error
      ∧ (c.register ok conf).calls = [.subscribe m.url conf.Topic conf.QoS]
      ∧ (c.register ok conf).state = c) := by
  constructor
  · intro hok
    refine ⟨?_, ?_, ?_, ?_, ?_⟩
    · simp [MQTTConnector.register, hm, ht, hok]
    · simp [MQTTConnector.register, hm, ht, hok]
    · simp [MQTTConnector.register, hm, ht, hok, Dict.find_put_same, subscriptionOf,
        put_of_find_none _ _ _ ht]
    · simp [MQTTConnector.register, MQTTConnector.subscription, hm, ht, hok, Dict.find_put_same,
        subscriptionOf]
    · intro t htne
      simp [MQTTConnector.register, MQTTConnector.subscription, hm, ht, hok, Dict.find_put_same,
        Dict.find_put_other _ _ _ _ htne]
  · intro hok
    simp [MQTTConnector.register, hm, ht, hok]

/-- C14 on the connector that holds `confOther`: `register(confT)` on the same
broker, once with a successful and once with a failing SUBSCRIBE. -/
theorem C14_register_new_topic_on_existing_manager_witness :
    (MQTTConnector.empty.withShared confOther 1).managers.find confT.URL
        = some (sharedManager confOther 1)
    ∧ (sharedManager confOther 1).subscriptions.find confT.Topic = none
    ∧ (((MQTTConnector.empty.withShared confOther 1).register allOk confT).ret = Ret.nil
      ∧ ((MQTTConnector.empty.withShared confOther 1).register allOk confT).calls
          = [.subscribe (sharedManager confOther 1).url confT.Topic confT.QoS]
      ∧ ((MQTTConnector.empty.withShared confOther 1).register allOk confT).state.managers.find
          confT.URL
          = some { sharedManager confOther 1 with
              subscriptions :=
                (sharedManager confOther 1).subscriptions ++ [(confT.Topic, subscriptionOf confT)] }
      ∧ ((MQTTConnector.empty.withShared confOther 1).register allOk confT).state.subscription
          confT.URL confT.Topic = some (subscriptionOf confT)
      ∧ ∀ t, t ≠ confT.Topic →
          ((MQTTConnector.empty.withShared confOther 1).register allOk confT).state.subscription
            confT.URL t = (MQTTConnector.empty.withShared confOther 1).subscription confT.URL t)
    ∧ (((MQTTConnector.empty.withShared confOther 1).register failSubscribe confT).ret = Ret.error
      ∧ ((MQTTConnector.empty.withShared confOther 1).register failSubscribe confT).calls
          = [.subscribe (sharedManager confOther 1).url confT.Topic confT.QoS]
      ∧ ((MQTTConnector.empty.withShared confOther 1).register failSubscribe confT).state
          = MQTTConnector.empty.withShared confOther 1) :=
  ⟨by decide, by decide,
    (C14_register_new_topic_on_existing_manager (MQTTConnector.empty.withShared confOther 1)
      allOk confT (sharedManager confOther 1) (by decide) (by decide)).1 (by decide),
    (C14_register_new_topic_on_existing_manager (MQTTConnector.empty.withShared confOther 1)
      failSubscribe confT (sharedManager confOther 1) (by decide) (by decide)).2 (by decide)⟩

theorem unregister_many_receivers (c : MQTTConnector) (ok : BrokerCall → Bool)
    (conf : MQTTConf) (m : Manager) (s : Subscription)
    (hm : c.managers.find conf.URL = some m)
    (hs : m.subscriptions.find conf.Topic = some s) (hk : s.receivers ≠ 1) :
    c.unregister ok conf =
      Step.mk
        (MQTTConnector.mk
          (c.managers.put conf.URL
            (Manager.mk m.url
              (m.subscriptions.put conf.Topic
                (Subscription.mk s.url s.topic s.qos (s.receivers - 1)))))
          c.cache c.failedRegistrations)
        [] Ret.nil := by
  have h0 : ¬ s.receivers - 1 = 0 := fun e => hk (by omega)
  have hlen : ¬ (Dict.put m.subscriptions conf.Topic
      { s with receivers := s.receivers - 1 }).length = 0 := by
    have := length_put_pos m.subscriptions conf.Topic { s with receivers := s.receivers - 1 }
    omega
  simp [MQTTConnector.unregister, hm, hs, h0, MQTTConnector.dropIfEmpty, hlen]

theorem unregister_last_receiver (c : MQTTConnector) (ok : BrokerCall → Bool)
    (conf : MQTTConf) (m : Manager) (s : Subscription)
    (hm : c.managers.find conf.URL = some m)
    (hs : m.subscriptions.find conf.Topic = some s) (hk : s.receivers = 1)
    (hok : ok (.unsubscribe m.url conf.Topic) = true) :
    c.unregister ok conf =
      c.dropIfEmpty conf.URL { m with subscriptions := m.subscriptions.remove conf.Topic }
        [.unsubscribe m.url conf.Topic] := by
  simp [MQTTConnector.unregister, hm, hs, hk, hok, remove_put_same]

/-- C15: `unregister(conf)` on a held subscription `s` of the manager `m`. With
more than one receiver it returns nil, issues no broker call, lowers the
receiver count by one and keeps the manager. With one receiver and a successful
UNSUBSCRIBE it returns nil and removes the subscription; if the manager tracks
no other topic it is disconnected and removed from the manager map, and if it
tracks another topic it stays, without the subscription and without a
disconnect. -/
theorem C15_unregister_held_subscription (c : MQTTConnector) (ok : BrokerCall → Bool)
    (conf : MQTTConf) (m : Manager) (s : Subscription)
    (hm : c.managers.find conf.URL = some m)
    (hs : m.subscriptions.find conf.Topic = some s) :
    (1 < s.receivers →
      (c.unregister ok conf).ret = Ret.nil
      ∧ (c.unregister ok conf).calls = []
      ∧ (c.unregister ok conf).state.subscription conf.URL conf.Topic
          = some { s with receivers := s.receivers - 1 }
      ∧ (c.unregister ok conf).state.managers.find conf.URL
          = some (Manager.mk m.url
              (m.subscriptions.put conf.Topic { s with receivers := s.receivers - 1 })))
    ∧ (s.receivers = 1 → ok (.unsubscribe m.url conf.Topic) = true →
      (c.unregister ok conf).ret = Ret.nil
      ∧ (c.unregister ok conf).state.subscription conf.URL conf.Topic = none
      ∧ ((∀ t, t ≠ conf.Topic → m.subscriptions.find t = none) →
          (c.unregister ok conf).calls
              = [.unsubscribe m.url conf.Topic, .disconnect m.url]
          ∧ (c.unregister ok conf).state.managers.find conf.URL = none)
      ∧ ((∃ t, t ≠ conf.Topic ∧ m.subscriptions.find t ≠ none) →
          (c.unregister ok conf).calls = [.unsubscribe m.url conf.Topic]
          ∧ (c.unregister ok conf).state.managers.find conf.URL
              = some { m with subscriptions := m.subscriptions.remove conf.Topic })) := by
  constructor
  · intro hk
    rw [unregister_many_receivers c ok conf m s hm hs (by omega)]
    simp [MQTTConnector.subscription, Dict.find_put_same]
  · intro hk hok
    rw [unregister_last_receiver c ok conf m s hm hs hk hok]
    by_cases hlast : Dict.remove m.subscriptions conf.Topic = []
    · have hall := (remove_eq_nil_iff _ _).mp hlast
      refine ⟨?_, ?_, ?_, ?_⟩
      · simp [MQTTConnector.dropIfEmpty, hlast]
      · simp [MQTTConnector.dropIfEmpty, hlast, MQTTConnector.subscription,
          Dict.find_remove_same]
      · intro _
        simp [MQTTConnector.dropIfEmpty, hlast, Dict.find_remove_same]
      · rintro ⟨t, ht, hne⟩
        exact absurd (hall t ht) hne
    · have hlen : ¬ (Dict.remove m.subscriptions conf.Topic).length = 0 := by
        intro e
        exact hlast (List.length_eq_zero.mp e)
      refine ⟨?_, ?_, ?_, ?_⟩
      · simp [MQTTConnector.dropIfEmpty, hlen]
      · simp [MQTTConnector.dropIfEmpty, hlen, MQTTConnector.subscription,
          Dict.find_put_same, Dict.find_remove_same]
      · intro hall
        exact absurd ((remove_eq_nil_iff _ _).mpr hall) hlast
      · intro _
        simp [MQTTConnector.dropIfEmpty, hlen, Dict.find_put_same]

/-- C15 on three connectors: `confT` held twice; `confT` held once as the only
topic of its manager; `confT` held once beside `confOther`. -/
theorem C15_unregister_held_subscription_witness :
    (((MQTTConnector.empty.withShared confT 2).unregister allOk confT).ret = Ret.nil
      ∧ ((MQTTConnector.empty.withShared confT 2).unregister allOk confT).calls = []
      ∧ ((MQTTConnector.empty.withShared confT 2).unregister allOk confT).state.subscription
          confT.URL confT.Topic
          = some { subscriptionTwice with receivers := subscriptionTwice.receivers - 1 }
      ∧ ((MQTTConnector.empty.withShared confT 2).unregister allOk confT).state.managers.find
          confT.URL = some (sharedManager confT 1))
    ∧ (((MQTTConnector.empty.withShared confT 1).unregister allOk confT).calls
          = [.unsubscribe confT.URL confT.Topic, .disconnect confT.URL]
      ∧ ((MQTTConnector.empty.withShared confT 1).unregister allOk confT).state.managers.find
          confT.URL = none)
    ∧ ((twoTopicConnector.unregister allOk confT).calls = [.unsubscribe confT.URL confT.Topic]
      ∧ (twoTopicConnector.unregister allOk confT).state.managers.find confT.URL
          = some (sharedManager confOther 1)) :=
  ⟨(C15_unregister_held_subscription (MQTTConnector.empty.withShared confT 2) allOk confT
      (sharedManager confT 2) subscriptionTwice
      (by decide) (by decide)).1 (by decide),
    ((C15_unregister_held_subscription (MQTTConnector.empty.withShared confT 1) allOk confT
      (sharedManager confT 1) (subscriptionOf confT)
      (by decide) (by decide)).2 (by decide) (by decide)).2.2.1
      (by intro t ht; simp [sharedManager, Dict.find, ht]),
    ((C15_unregister_held_subscription twoTopicConnector allOk confT
      twoTopicManager (subscriptionOf confT)
      (by decide) (by decide)).2 (by decide) (by decide)).2.2.2
      ⟨confOther.Topic, by decide, by decide⟩⟩

/-- C16: `unregister(conf)` when no manager exists for `conf.URL` returns nil,
issues no broker call and leaves the manager map, the resolution cache and the
failed registrations unchanged. -/
theorem C16_unregister_without_manager_is_noop (c : MQTTConnector) (ok : BrokerCall → Bool)
    (conf : MQTTConf) (hm : c.managers.find conf.URL = none) :
    (c.unregister ok conf).ret = Ret.nil
    ∧ (c.unregister ok conf).calls = []
    ∧ (c.unregister ok conf).state.managers = c.managers
    ∧ (c.unregister ok conf).state.cache = c.cache
    ∧ (c.unregister ok conf).state.failedRegistrations = c.failedRegistrations := by
  simp [MQTTConnector.unregister, hm]

/-- C16 on the connector left by a startup whose only data source could not be
registered: the manager is absent, the failed registration is kept. -/
theorem C16_unregister_without_manager_is_noop_witness :
    ((MQTTConnector.empty.registerListed allFail dsX).state.unregister allFail confT).ret
        = Ret.nil
    ∧ ((MQTTConnector.empty.registerListed allFail dsX).state.unregister allFail confT).calls
        = []
    ∧ ((MQTTConnector.empty.registerListed allFail dsX).state.unregister
          allFail confT).state.managers
        = (MQTTConnector.empty.registerListed allFail dsX).state.managers
    ∧ ((MQTTConnector.empty.registerListed allFail dsX).state.unregister
          allFail confT).state.cache
        = (MQTTConnector.empty.registerListed allFail dsX).state.cache
    ∧ ((MQTTConnector.empty.registerListed allFail dsX).state.unregister
          allFail confT).state.failedRegistrations
        = (MQTTConnector.empty.registerListed allFail dsX).state.failedRegistrations :=
  C16_unregister_without_manager_is_noop (MQTTConnector.empty.registerListed allFail dsX).state
    allFail confT (by decide)

/-! ## Failed registrations across Update and Delete -/

/-- C17: X waits for a retry with `confT` when an Update moves it to
`confOther`. If unregistering `confT` returns an error (the UNSUBSCRIBE fails),
or panics (the manager tracks another topic only), the handler ends before the
statement that clears the failed registration: X's id is still queued with the
superseded configuration. -/
theorem C17_superseded_registration_stays_queued :
    queuedConnector.failedRegistrations.find dsX.ID = some confT
    ∧ (queuedConnector.NtfUpdated failUnsubscribe dsX dsXMoved).sent = [Ack.error]
    ∧ (queuedConnector.NtfUpdated failUnsubscribe dsX dsXMoved).state.failedRegistrations.find
        dsX.ID = some confT
    ∧ queuedBesideOther.failedRegistrations.find dsX.ID = some confT
    ∧ (queuedBesideOther.NtfUpdated allOk dsX dsXMoved).panicked = true
    ∧ (queuedBesideOther.NtfUpdated allOk dsX dsXMoved).state.failedRegistrations.find
        dsX.ID = some confT :=
  ⟨by decide, by decide, by decide, by decide, by decide, by decide⟩

/-- C18: X waits for a retry with `confT` when it is deleted. If unregistering
`confT` returns an error (the UNSUBSCRIBE fails), or panics (the manager tracks
another topic only), the handler ends before the statement that clears the
failed registration: the deleted X's id is still queued. -/
theorem C18_deleted_entry_stays_queued :
    queuedConnector.failedRegistrations.find dsX.ID = some confT
    ∧ (queuedConnector.NtfDeleted failUnsubscribe dsX).sent = [Ack.error]
    ∧ (queuedConnector.NtfDeleted failUnsubscribe dsX).state.failedRegistrations.find dsX.ID
        = some confT
    ∧ queuedBesideOther.failedRegistrations.find dsX.ID = some confT
    ∧ (queuedBesideOther.NtfDeleted allOk dsX).panicked = true
    ∧ (queuedBesideOther.NtfDeleted allOk dsX).state.failedRegistrations.find dsX.ID
        = some confT :=
  ⟨by decide, by decide, by decide, by decide, by decide, by decide⟩

/-! ## Cache invalidation -/

theorem register_cache (c : MQTTConnector) (ok : BrokerCall → Bool) (conf : MQTTConf) :
    (c.register ok conf).state.cache = c.cache := by
  unfold MQTTConnector.register
  split
  · dsimp only
    split <;> rfl
  · split
    · dsimp only
      split <;> rfl
    · rfl

theorem dropIfEmpty_cache (c : MQTTConnector) (url : String) (m : Manager)
    (calls : List BrokerCall) : (c.dropIfEmpty url m calls).state.cache = c.cache := by
  unfold MQTTConnector.dropIfEmpty
  split <;> rfl

theorem unregister_cache (c : MQTTConnector) (ok : BrokerCall → Bool) (conf : MQTTConf) :
    (c.unregister ok conf).state.cache = c.cache := by
  unfold MQTTConnector.unregister
  split
  · rfl
  · split
    · rfl
    · dsimp only
      split
      · split
        · exact dropIfEmpty_cache _ _ _ _
        · rfl
      · exact dropIfEmpty_cache _ _ _ _

theorem addNew_cache (c : MQTTConnector) (ok : BrokerCall → Bool) (oldDS newDS : DataSource)
    (calls : List BrokerCall) : (c.addNew ok oldDS newDS calls).state.cache = c.cache := by
  unfold MQTTConnector.addNew
  dsimp only
  split
  · split <;> simp [register_cache, MQTTConnector.dropFailed]
  · rfl

theorem NtfUpdated_cache (c : MQTTConnector) (ok : BrokerCall → Bool) (oldDS newDS : DataSource)
    (h : oldDS.Retention ≠ newDS.Retention) :
    (c.NtfUpdated ok oldDS newDS).state.cache = [] := by
  unfold MQTTConnector.NtfUpdated
  simp only [h, ne_eq, not_false_eq_true, if_true]
  split
  · rfl
  · split
    · split
      · rw [addNew_cache, unregister_cache]
        rfl
      · rw [unregister_cache]
        rfl
      · rw [unregister_cache]
        rfl
    · rw [addNew_cache]
      rfl

theorem NtfDeleted_cache (c : MQTTConnector) (ok : BrokerCall → Bool) (ds : DataSource) :
    (c.NtfDeleted ok ds).state.cache = [] := by
  unfold MQTTConnector.NtfDeleted
  dsimp only
  split
  · split
    · simp [MQTTConnector.dropFailed, unregister_cache, MQTTConnector.flushCache, Dict.remove]
    · simp [unregister_cache, MQTTConnector.flushCache, Dict.remove]
    · simp [unregister_cache, MQTTConnector.flushCache, Dict.remove]
  · rfl

theorem accept_cache (s : Subscription) (b : Batch) (ds : DataSource) (e : Entry) :
    (s.accept b ds e).cache = b.cache ∧ (s.accept b ds e).lookups = b.lookups := by
  unfold Subscription.accept
  split
  · exact ⟨rfl, rfl⟩
  · split
    · exact ⟨rfl, rfl⟩
    · split
      · exact ⟨rfl, rfl⟩
      · split
        · exact ⟨rfl, rfl⟩
        · split <;> exact ⟨rfl, rfl⟩

theorem onEntry_lookups_mono (s : Subscription) (registry : String → Lookup) (b : Batch)
    (e : Entry) (name : String) (h : name ∈ b.lookups) :
    name ∈ (s.onEntry registry b e).lookups := by
  unfold Subscription.onEntry
  split
  · exact h
  · split
    · rw [(accept_cache s b _ e).2]
      exact h
    · dsimp only
      split
      · exact List.mem_append_left _ h
      · exact List.mem_append_left _ h
      · rw [(accept_cache s _ _ e).2]
        exact List.mem_append_left _ h

theorem onEntry_fresh (s : Subscription) (registry : String → Lookup) (b : Batch)
    (e : Entry) (hb : b.Fresh) : (s.onEntry registry b e).Fresh := by
  unfold Subscription.onEntry
  split
  · exact hb
  · split
    · intro name hn
      rw [(accept_cache s b _ e).1] at hn
      rw [(accept_cache s b _ e).2]
      exact hb name hn
    · dsimp only
      split
      · intro name hn
        exact List.mem_append_left _ (hb name hn)
      · intro name hn
        exact List.mem_append_left _ (hb name hn)
      · intro name hn
        rw [(accept_cache s _ _ e).1] at hn
        rw [(accept_cache s _ _ e).2]
        by_cases hne : name = e.Name
        · subst hne
          exact List.mem_append_right _ (List.mem_singleton_self _)
        · rw [Dict.find_put_other _ _ _ _ hne] at hn
          exact List.mem_append_left _ (hb name hn)

theorem onEntry_looked_up (s : Subscription) (registry : String → Lookup) (b : Batch)
    (e : Entry) (hb : b.Fresh) (hname : e.Name ≠ "") :
    e.Name ∈ (s.onEntry registry b e).lookups := by
  unfold Subscription.onEntry
  simp only [hname, if_false]
  split
  · rename_i ds hfind
    rw [(accept_cache s b _ e).2]
    exact hb e.Name (by simp [hfind])
  · split
    · exact List.mem_append_right _ (List.mem_singleton_self _)
    · exact List.mem_append_right _ (List.mem_singleton_self _)
    · rw [(accept_cache s _ _ e).2]
      exact List.mem_append_right _ (List.mem_singleton_self _)

theorem foldl_lookups_mono (s : Subscription) (registry : String → Lookup) (es : List Entry)
    (b : Batch) (name : String) (h : name ∈ b.lookups) :
    name ∈ (es.foldl (s.onEntry registry) b).lookups := by
  induction es generalizing b with
  | nil => exact h
  | cons e es ih => exact ih _ (onEntry_lookups_mono s registry b e name h)

theorem foldl_looked_up (s : Subscription) (registry : String → Lookup) (es : List Entry)
    (b : Batch) (hb : b.Fresh) (e : Entry) (he : e ∈ es) (hname : e.Name ≠ "") :
    e.Name ∈ (es.foldl (s.onEntry registry) b).lookups := by
  induction es generalizing b with
  | nil => simp at he
  | cons x es ih =>
    rcases List.mem_cons.mp he with h | h
    · subst h
      exact foldl_lookups_mono s registry es _ _ (onEntry_looked_up s registry b e hb hname)
    · exact ih (s.onEntry registry b x) (onEntry_fresh s registry b x hb) h

theorem onMessage_looks_up_on_empty_cache (s : Subscription) (c : MQTTConnector)
    (registry : String → Lookup) (submitOk : Bool) (es : List Entry) (hc : c.cache = [])
    (e : Entry) (he : e ∈ es) (hname : e.Name ≠ "") :
    e.Name ∈ (s.onMessage c registry submitOk (.entries es)).lookups := by
  have hfresh : Batch.Fresh
      { cache := c.cache, data := [], sources := [], lookups := [], log := [] } := by
    intro name hn
    simp [hc, Dict.find] at hn
  have := foldl_looked_up s registry es _ hfresh e he hname
  unfold Subscription.onMessage
  dsimp only
  split <;> exact this

/-- C19: an Update notification whose old and new retention differ leaves the
resolution cache empty, whatever the broker answers and whatever else the
handler does; so in the next message every entry with a non-empty name, also
the name of an entry unrelated to the updated one, has its name looked up in the
catalog during that message instead of being resolved from an earlier
resolution. -/
theorem C19_retention_change_invalidates_cache (c : MQTTConnector) (ok : BrokerCall → Bool)
    (oldDS newDS : DataSource) (h : oldDS.Retention ≠ newDS.Retention) :
    (c.NtfUpdated ok oldDS newDS).state.cache = []
    ∧ ∀ (s : Subscription) (registry : String → Lookup) (submitOk : Bool) (es : List Entry)
        (e : Entry), e ∈ es → e.Name ≠ "" →
        e.Name ∈ (s.onMessage (c.NtfUpdated ok oldDS newDS).state registry submitOk
          (.entries es)).lookups :=
  ⟨NtfUpdated_cache c ok oldDS newDS h, fun s registry submitOk es e he hname =>
    onMessage_looks_up_on_empty_cache s _ registry submitOk es
      (NtfUpdated_cache c ok oldDS newDS h) e he hname⟩

/-- C19 on the connector that has X's name cached: the retention of Y changes,
the cache is emptied, and the next message for X looks X's name up again. -/
theorem C19_retention_change_invalidates_cache_witness :
    cachedConnector.cache.find dsX.Resource = some dsX
    ∧ dsY.Retention ≠ dsYKept.Retention
    ∧ (cachedConnector.NtfUpdated allOk dsY dsYKept).state.cache = []
    ∧ entryForX.Name ∈ ((subscriptionOf confT).onMessage
        (cachedConnector.NtfUpdated allOk dsY dsYKept).state catalogBefore true
        (.entries [entryForX])).lookups :=
  ⟨by decide, by decide,
    (C19_retention_change_invalidates_cache cachedConnector allOk dsY dsYKept (by decide)).1,
    (C19_retention_change_invalidates_cache cachedConnector allOk dsY dsYKept (by decide)).2
      (subscriptionOf confT) catalogBefore true [entryForX] entryForX
      (List.mem_singleton_self _) (by decide)⟩

/-- C20: after a Delete notification the resolution cache is empty, so it holds
no resolution for the deleted entry's resource name, whether or not the entry
carries a broker configuration and whether `unregister` returns nil, returns an
error or panics. -/
theorem C20_delete_invalidates_cache (c : MQTTConnector) (ok : BrokerCall → Bool)
    (ds : DataSource) :
    (c.NtfDeleted ok ds).state.cache = []
    ∧ (c.NtfDeleted ok ds).state.cache.find ds.Resource = none := by
  rw [NtfDeleted_cache]
  exact ⟨rfl, rfl⟩

/-! ## The retry sweep -/

theorem register_failedRegistrations (c : MQTTConnector) (ok : BrokerCall → Bool)
    (conf : MQTTConf) :
    (c.register ok conf).state.failedRegistrations = c.failedRegistrations := by
  unfold MQTTConnector.register
  split
  · dsimp only
    split <;> rfl
  · split
    · dsimp only
      split <;> rfl
    · rfl

theorem remove_eq_filter {V : Type} (m : Dict V) (k : String) :
    Dict.remove m k = m.filter (fun p => decide (p.1 ≠ k)) := by
  induction m with
  | nil => rfl
  | cons p m ih =>
    obtain ⟨a, b⟩ := p
    by_cases hk : k = a
    · subst hk
      simp [Dict.remove, ih]
    · have : ¬ a = k := fun e => hk e.symm
      simp [Dict.remove, hk, this, ih]

theorem retrySweep_attempts (order : List (String × MQTTConf)) (c : MQTTConnector)
    (ok : Nat → BrokerCall → Bool) (n : Nat) :
    (c.retrySweep ok n order).attempts.map Attempt.entry = order := by
  induction order generalizing c n with
  | nil => rfl
  | cons p rest ih =>
    obtain ⟨id, conf⟩ := p
    simp [MQTTConnector.retrySweep, Attempt.entry, ih]

theorem retrySweep_failedRegistrations (order : List (String × MQTTConf)) (c : MQTTConnector)
    (ok : Nat → BrokerCall → Bool) (n : Nat) :
    (c.retrySweep ok n order).state.failedRegistrations
      = c.failedRegistrations.filter
          (fun p => decide (p.1 ∉ succeededIds (c.retrySweep ok n order).attempts)) := by
  induction order generalizing c n with
  | nil => simp [MQTTConnector.retrySweep, succeededIds]
  | cons p rest ih =>
    obtain ⟨id, conf⟩ := p
    cases hr : (c.register (ok n) conf).ret with
    | nil =>
      simp only [MQTTConnector.retrySweep, hr]
      rw [ih]
      simp only [MQTTConnector.dropFailed, register_failedRegistrations, remove_eq_filter,
        List.filter_filter]
      apply List.filter_congr
      intro p _
      simp [succeededIds, Attempt.failed, List.filter_cons]
      exact Bool.and_comm _ _
    | error =>
      simp only [MQTTConnector.retrySweep, hr]
      rw [ih]
      simp only [register_failedRegistrations]
      apply List.filter_congr
      intro p _
      simp [succeededIds, Attempt.failed, List.filter_cons]
    | fault =>
      simp only [MQTTConnector.retrySweep, hr]
      rw [ih]
      simp only [register_failedRegistrations]
      apply List.filter_congr
      intro p _
      simp [succeededIds, Attempt.failed, List.filter_cons]

theorem find_eq_none_of_forall_ne {V : Type} (m : Dict V) (k : String)
    (h : ∀ p ∈ m, p.1 ≠ k) : Dict.find m k = none := by
  induction m with
  | nil => rfl
  | cons p m ih =>
    obtain ⟨a, b⟩ := p
    have ha : ¬ k = a := fun e => h (a, b) (List.mem_cons_self _ _) e.symm
    simp only [Dict.find, ha, if_false]
    exact ih fun q hq => h q (List.mem_cons_of_mem _ hq)

/-- C21: one retry sweep, visiting the failed registrations in any order and
whatever the broker answers, calls `register` once for every entry of the
queue; afterwards the queue holds exactly the prior entries whose attempt
failed, with the same configuration, and nothing else; an entry whose attempt
succeeded is no longer queued. -/
theorem C21_retry_sweep_keeps_exactly_the_failed (c : MQTTConnector)
    (ok : Nat → BrokerCall → Bool) (order : List (String × MQTTConf))
    (hperm : order.Perm c.failedRegistrations)
    (hkeys : (c.failedRegistrations.map Prod.fst).Nodup) :
    (c.retrySweep ok 0 order).attempts.map Attempt.entry = order
    ∧ (∀ p, p ∈ (c.retrySweep ok 0 order).state.failedRegistrations ↔
        ∃ a ∈ (c.retrySweep ok 0 order).attempts, a.failed = true ∧ p = a.entry)
    ∧ (∀ a ∈ (c.retrySweep ok 0 order).attempts, a.failed = false →
        (c.retrySweep ok 0 order).state.failedRegistrations.find a.id = none) := by
  have hatt := retrySweep_attempts order c ok 0
  have hfr := retrySweep_failedRegistrations order c ok 0
  have hids : ((c.retrySweep ok 0 order).attempts.map Attempt.id).Nodup := by
    have h1 : (c.retrySweep ok 0 order).attempts.map Attempt.id = order.map Prod.fst := by
      have h2 := congrArg (List.map Prod.fst) hatt
      rw [List.map_map] at h2
      exact h2
    rw [h1]
    exact (hperm.map Prod.fst).nodup_iff.mpr hkeys
  refine ⟨hatt, ?_, ?_⟩
  · intro p
    rw [hfr, List.mem_filter]
    constructor
    · rintro ⟨hp, hnot⟩
      have hp' : p ∈ (c.retrySweep ok 0 order).attempts.map Attempt.entry := by
        rw [hatt]
        exact hperm.mem_iff.mpr hp
      obtain ⟨a, ha, rfl⟩ := List.mem_map.mp hp'
      refine ⟨a, ha, ?_, rfl⟩
      cases hf : a.failed with
      | true => rfl
      | false =>
        exfalso
        have : a.id ∈ succeededIds (c.retrySweep ok 0 order).attempts :=
          List.mem_map.mpr ⟨a, List.mem_filter.mpr ⟨ha, by simp [hf]⟩, rfl⟩
        simp [Attempt.entry, this] at hnot
    · rintro ⟨a, ha, hf, rfl⟩
      constructor
      · have : a.entry ∈ (c.retrySweep ok 0 order).attempts.map Attempt.entry :=
          List.mem_map.mpr ⟨a, ha, rfl⟩
        rw [hatt] at this
        exact hperm.mem_iff.mp this
      · simp only [decide_eq_true_eq]
        intro hmem
        obtain ⟨b, hb, hbid⟩ := List.mem_map.mp hmem
        obtain ⟨hb1, hb2⟩ := List.mem_filter.mp hb
        have hba : b = a := List.inj_on_of_nodup_map hids hb1 ha hbid
        subst hba
        simp [hf] at hb2
  · intro a ha hf
    rw [hfr]
    apply find_eq_none_of_forall_ne
    intro p hp hpa
    obtain ⟨_, hnot⟩ := List.mem_filter.mp hp
    have : a.id ∈ succeededIds (c.retrySweep ok 0 order).attempts :=
      List.mem_map.mpr ⟨a, List.mem_filter.mpr ⟨ha, by simp [hf]⟩, rfl⟩
    simp [hpa, this] at hnot

/-- C21 on the queue that holds X and O: the sweep registers X, fails to
register O, and leaves O alone in the queue. -/
theorem C21_retry_sweep_keeps_exactly_the_failed_witness :
    twoQueued.failedRegistrations = [(dsX.ID, confT), (dsO.ID, confOther)]
    ∧ (twoQueued.retrySweep firstOnly 0 twoQueued.failedRegistrations).state.failedRegistrations
        = [(dsO.ID, confOther)]
    ∧ ((twoQueued.retrySweep firstOnly 0 twoQueued.failedRegistrations).attempts.map
          Attempt.entry = twoQueued.failedRegistrations
      ∧ (∀ p, p ∈ (twoQueued.retrySweep firstOnly 0
              twoQueued.failedRegistrations).state.failedRegistrations ↔
          ∃ a ∈ (twoQueued.retrySweep firstOnly 0 twoQueued.failedRegistrations).attempts,
            a.failed = true ∧ p = a.entry)
      ∧ (∀ a ∈ (twoQueued.retrySweep firstOnly 0 twoQueued.failedRegistrations).attempts,
          a.failed = false →
          (twoQueued.retrySweep firstOnly 0
            twoQueued.failedRegistrations).state.failedRegistrations.find a.id = none)) :=
  ⟨by decide, by decide,
    C21_retry_sweep_keeps_exactly_the_failed twoQueued firstOnly twoQueued.failedRegistrations
      (List.Perm.refl _) (by decide)⟩

/-! ## Startup enumeration -/

theorem registerListed_failedRegistrations (c : MQTTConnector) (ok : BrokerCall → Bool)
    (ds : DataSource) :
    (c.registerListed ok ds).state.failedRegistrations
      = queueOf
          (match ds.Connector.MQTT with
            | some conf =>
              [{ id := ds.ID, conf := conf.val, ret := (c.registerListed ok ds).ret }]
            | none => [])
          c.failedRegistrations := by
  unfold MQTTConnector.registerListed
  cases hm : ds.Connector.MQTT with
  | none => simp [queueOf]
  | some conf =>
    cases hr : (c.register ok conf.val).ret <;>
      simp [queueOf, Attempt.failed, hr, register_failedRegistrations]

theorem queueOf_append (as bs : List Attempt) (m : Dict MQTTConf) :
    queueOf (as ++ bs) m = queueOf bs (queueOf as m) := by
  simp [queueOf, List.foldl_append]

theorem registerPage_spec (dss : List DataSource) (c : MQTTConnector)
    (ok : Nat → BrokerCall → Bool) (n : Nat) :
    (c.registerPage ok n dss).attempts.map Attempt.entry = dss.filterMap DataSource.binding
    ∧ (c.registerPage ok n dss).state.failedRegistrations
        = queueOf (c.registerPage ok n dss).attempts c.failedRegistrations := by
  induction dss generalizing c n with
  | nil => simp [MQTTConnector.registerPage, queueOf]
  | cons ds rest ih =>
    obtain ⟨i1, i2⟩ := ih (c.registerListed (ok n) ds).state (n + 1)
    constructor
    · cases hm : ds.Connector.MQTT <;>
        simp [MQTTConnector.registerPage, hm, i1, DataSource.binding, Attempt.entry,
          List.filterMap_cons]
    · simp only [MQTTConnector.registerPage]
      rw [i2, queueOf_append, registerListed_failedRegistrations]

theorem enumerate_spec (client : Nat → Nat → Page) (ok : Nat → BrokerCall → Bool) (fuel : Nat)
    (page n : Nat) (c : MQTTConnector) (e : Started)
    (h : c.enumerate client ok fuel page n = some e) :
    (e.ret = Ret.error ↔ ∃ r ∈ e.requests, client r.1 r.2 = Page.failed)
    ∧ (e.ret = Ret.nil ∨ e.ret = Ret.error)
    ∧ e.visited = e.requests.flatMap (fun r => (client r.1 r.2).datasources)
    ∧ e.attempts.map Attempt.entry = e.visited.filterMap DataSource.binding
    ∧ e.state.failedRegistrations = queueOf e.attempts c.failedRegistrations := by
  induction fuel generalizing page n c e with
  | zero => simp [MQTTConnector.enumerate] at h
  | succ fuel ih =>
    unfold MQTTConnector.enumerate at h
    cases hp : client page 100 with
    | failed =>
      simp only [hp] at h
      cases h
      simp [hp, Page.datasources, queueOf]
    | listed dss total =>
      simp only [hp] at h
      obtain ⟨p1, p2⟩ := registerPage_spec dss c ok n
      by_cases hstop : (page : Int) * 100 ≥ total
      · simp only [hstop, if_true] at h
        cases h
        simp [hp, Page.datasources, p1, p2]
      · simp only [hstop, if_false] at h
        cases hrec : (c.registerPage ok n dss).state.enumerate client ok fuel (page + 1)
            (n + dss.length) with
        | none => simp [hrec] at h
        | some e' =>
          simp only [hrec] at h
          cases h
          obtain ⟨q1, q2, q3, q4, q5⟩ := ih _ _ _ _ hrec
          refine ⟨?_, q2, ?_, ?_, ?_⟩
          · simp [q1, hp]
          · simp [q3, hp, Page.datasources]
          · simp [q4, p1, List.filterMap_append]
          · simp only
            rw [queueOf_append, ← p2, q5]

theorem enumerate_returns (client : Nat → Nat → Page) (ok : Nat → BrokerCall → Bool)
    (k : Nat) (hk : (client k 100).ends k = true) (fuel page n : Nat) (c : MQTTConnector)
    (hpage : page ≤ k) (hfuel : k < page + fuel) :
    (c.enumerate client ok fuel page n).isSome = true := by
  induction fuel generalizing page n c with
  | zero => omega
  | succ fuel ih =>
    unfold MQTTConnector.enumerate
    cases hp : client page 100 with
    | failed => simp
    | listed dss total =>
      by_cases hstop : (page : Int) * 100 ≥ total
      · simp [hstop]
      · have hne : page ≠ k := by
          intro e
          subst e
          simp [hp, Page.ends, hstop] at hk
        have := ih (page + 1) (n + dss.length) (c.registerPage ok n dss).state
          (by omega) (by omega)
        simp only [hstop, if_false]
        cases hrec : (c.registerPage ok n dss).state.enumerate client ok fuel (page + 1)
            (n + dss.length) with
        | none => simp [hrec] at this
        | some e' => simp

theorem find_queueOf (attempts : List Attempt) (m : Dict MQTTConf) (id : String) :
    (queueOf attempts m).find id = (lastFailed attempts id).or (m.find id) := by
  induction attempts using List.reverseRecOn with
  | nil => simp [queueOf, lastFailed]
  | append_singleton as a ih =>
    have hq : queueOf (as ++ [a]) m
        = if a.failed then Dict.put (queueOf as m) a.id a.conf else queueOf as m := by
      simp [queueOf, List.foldl_append]
    rw [hq]
    cases hf : a.failed with
    | false => simpa [lastFailed, List.filter_append, hf] using ih
    | true =>
      by_cases hid : a.id = id
      · subst hid
        simp [lastFailed, List.filter_append, hf, Dict.find_put_same]
      · have hne : id ≠ a.id := fun e => hid e.symm
        simp only [if_true]
        rw [Dict.find_put_other _ _ _ _ hne, ih]
        simp [lastFailed, List.filter_append, hf, hid]

/-- C22: the page loop of `NewMQTTConnector` returns as soon as a page fetch
fails or a page satisfies `page * 100 >= total` (given enough fuel for that
page). Whenever it returns, whatever the register outcomes: it returns an error
exactly when one of its page requests failed, and nil otherwise; `register` was
called once for every listed data source bearing a broker configuration, in the
order listed; and the failed registrations map each id for which an attempt
failed to the configuration of that attempt (the last one, should an id be
listed twice), and map no other id. -/
theorem C22_startup_queues_failed_registrations (client : Nat → Nat → Page)
    (ok : Nat → BrokerCall → Bool) :
    (∀ k fuel, 1 ≤ k → (client k 100).ends k = true → k ≤ fuel →
        (NewMQTTConnector client ok fuel).isSome = true)
    ∧ (∀ fuel e, NewMQTTConnector client ok fuel = some e →
        (e.ret = Ret.error ↔ ∃ r ∈ e.requests, client r.1 r.2 = Page.failed)
        ∧ (e.ret = Ret.nil ∨ e.ret = Ret.error)
        ∧ e.visited = e.requests.flatMap (fun r => (client r.1 r.2).datasources)
        ∧ e.attempts.map Attempt.entry = e.visited.filterMap DataSource.binding
        ∧ (∀ id, e.state.failedRegistrations.find id = lastFailed e.attempts id)) := by
  constructor
  · intro k fuel hk hends hfuel
    exact enumerate_returns client ok k hends fuel 1 0 MQTTConnector.empty hk (by omega)
  · intro fuel e h
    obtain ⟨h1, h2, h3, h4, h5⟩ := enumerate_spec client ok fuel 1 0 MQTTConnector.empty e h
    refine ⟨h1, h2, h3, h4, ?_⟩
    intro id
    rw [h5, find_queueOf]
    simp [MQTTConnector.empty, Dict.find]

/-- C22 on the two-page catalog, where the registration of O is rejected: the
startup returns nil after requesting pages 1 and 2 and leaves O alone in the
failed registrations. -/
theorem C22_startup_queues_failed_registrations_witness :
    (NewMQTTConnector twoPageCatalog secondRejected 5).isSome = true
    ∧ (NewMQTTConnector twoPageCatalog secondRejected 5).map Started.ret = some Ret.nil
    ∧ (NewMQTTConnector twoPageCatalog secondRejected 5).map Started.requests
        = some [(1, 100), (2, 100)]
    ∧ (NewMQTTConnector twoPageCatalog secondRejected 5).map
        (fun e => e.state.failedRegistrations) = some [(dsO.ID, confOther)]
    ∧ (∀ e, NewMQTTConnector twoPageCatalog secondRejected 5 = some e →
        (e.ret = Ret.error ↔ ∃ r ∈ e.requests, twoPageCatalog r.1 r.2 = Page.failed)
        ∧ (e.ret = Ret.nil ∨ e.ret = Ret.error)
        ∧ e.visited = e.requests.flatMap (fun r => (twoPageCatalog r.1 r.2).datasources)
        ∧ e.attempts.map Attempt.entry = e.visited.filterMap DataSource.binding
        ∧ (∀ id, e.state.failedRegistrations.find id = lastFailed e.attempts id)) :=
  ⟨(C22_startup_queues_failed_registrations twoPageCatalog secondRejected).1 2 5
      (by decide) (by decide) (by decide),
    by decide, by decide, by decide,
    (C22_startup_queues_failed_registrations twoPageCatalog secondRejected).2 5⟩

/-! ## Pages requested by the enumeration loops -/

theorem enumerate_constantTotal (contents : Nat → List DataSource) (total : Nat)
    (ok : Nat → BrokerCall → Bool) (fuel page n : Nat) (c : MQTTConnector)
    (h1 : 1 ≤ page) (hpage : page ≤ pageCount total) (hfuel : pageCount total < page + fuel) :
    ∃ e, c.enumerate (constantTotal contents total) ok fuel page n = some e
      ∧ e.ret = Ret.nil
      ∧ e.requests = (List.range' page (pageCount total + 1 - page)).map (fun p => (p, 100))
      ∧ e.visited = (List.range' page (pageCount total + 1 - page)).flatMap contents := by
  induction fuel generalizing page n c with
  | zero => omega
  | succ fuel ih =>
    unfold MQTTConnector.enumerate
    have hc : constantTotal contents total page 100 = Page.listed (contents page) total := rfl
    simp only [hc]
    by_cases hstop : (page : Int) * 100 ≥ (total : Int)
    · have hk : page = pageCount total := by
        unfold pageCount at hpage ⊢
        omega
      have hlen : pageCount total + 1 - page = 1 := by omega
      simp [hstop, hlen]
    · have hk : page < pageCount total := by
        unfold pageCount at hpage ⊢
        omega
      obtain ⟨e, he, r1, r2, r3⟩ := ih (page + 1) (n + (contents page).length)
        (c.registerPage ok n (contents page)).state (by omega) (by omega) (by omega)
      have hlen : pageCount total + 1 - page = (pageCount total + 1 - (page + 1)) + 1 := by
        omega
      simp only [hstop, if_false, he]
      refine ⟨_, rfl, r1, ?_, ?_⟩
      · rw [hlen, List.range'_succ]
        simp [r2]
      · rw [hlen, List.range'_succ]
        simp [r3]

theorem aggregateFrom_constantTotal (contents : Nat → List DataSource) (total : Nat)
    (fuel page : Nat) (aggrs : Dict Aggregation)
    (h1 : 1 ≤ page) (hpage : page ≤ pageCount total) (hfuel : pageCount total < page + fuel) :
    ∃ a, aggregateFrom (constantTotal contents total) fuel page aggrs = some a
      ∧ a.ret = Ret.nil
      ∧ a.requests = (List.range' page (pageCount total + 1 - page)).map (fun p => (p, 100))
      ∧ a.visited = (List.range' page (pageCount total + 1 - page)).flatMap contents := by
  induction fuel generalizing page aggrs with
  | zero => omega
  | succ fuel ih =>
    unfold aggregateFrom
    have hc : constantTotal contents total page 100 = Page.listed (contents page) total := rfl
    simp only [hc]
    by_cases hstop : (page : Int) * 100 ≥ (total : Int)
    · have hk : page = pageCount total := by
        unfold pageCount at hpage ⊢
        omega
      have hlen : pageCount total + 1 - page = 1 := by omega
      simp [hstop, hlen]
    · have hk : page < pageCount total := by
        unfold pageCount at hpage ⊢
        omega
      obtain ⟨a, ha, r1, r2, r3⟩ := ih (page + 1)
        ((contents page).foldl aggregateSource aggrs) (by omega) (by omega) (by omega)
      have hlen : pageCount total + 1 - page = (pageCount total + 1 - (page + 1)) + 1 := by
        omega
      simp only [hstop, if_false, ha]
      refine ⟨_, rfl, r1, ?_, ?_⟩
      · rw [hlen, List.range'_succ]
        simp [r2]
      · rw [hlen, List.range'_succ]
        simp [r3]

theorem pageWindows_take (all : List DataSource) (j : Nat) :
    (List.range' 1 j).flatMap (pageWindow all) = all.take (j * 100) := by
  induction j with
  | zero => simp
  | succ j ih =>
    rw [List.range'_concat, List.flatMap_append, ih]
    simp only [List.flatMap_singleton, pageWindow, Nat.one_mul]
    have : 1 + j - 1 = j := by omega
    rw [this, Nat.succ_mul, List.take_add]

/-- C29: for a catalog that reports the same total `n` on every page, the page
loop of `NewMQTTConnector` and the page loop of `API.Aggregations` both end,
without error, after requesting exactly the pages 1, 2, ..., `max(1,
ceil(n/100))` in that order with page size 100 (any fuel of at least that many
iterations suffices), and the data sources they visit are those pages'
contents in order; when the pages are the consecutive windows of 100 of a
catalog of `n` entries, that is every entry exactly once, in catalog order. -/
theorem C29_enumeration_requests_each_page_once (contents : Nat → List DataSource) (n : Nat)
    (ok : Nat → BrokerCall → Bool) (fuel : Nat) (hfuel : pageCount n ≤ fuel) :
    (∃ e, NewMQTTConnector (constantTotal contents n) ok fuel = some e
        ∧ e.ret = Ret.nil
        ∧ e.requests = (List.range' 1 (pageCount n)).map (fun p => (p, 100))
        ∧ e.visited = (List.range' 1 (pageCount n)).flatMap contents)
    ∧ (∃ a, Aggregations (constantTotal contents n) fuel = some a
        ∧ a.ret = Ret.nil
        ∧ a.requests = (List.range' 1 (pageCount n)).map (fun p => (p, 100))
        ∧ a.visited = (List.range' 1 (pageCount n)).flatMap contents)
    ∧ (∀ all : List DataSource, all.length = n → (∀ p, contents p = pageWindow all p) →
        (List.range' 1 (pageCount n)).flatMap contents = all) := by
  have hpos : 1 ≤ pageCount n := by
    unfold pageCount
    omega
  refine ⟨?_, ?_, ?_⟩
  · have := enumerate_constantTotal contents n ok fuel 1 0 MQTTConnector.empty
      (le_refl 1) hpos (by omega)
    simpa [NewMQTTConnector] using this
  · have := aggregateFrom_constantTotal contents n fuel 1 [] (le_refl 1) hpos (by omega)
    simpa [Aggregations] using this
  · intro all hlen hwin
    have hfun : contents = pageWindow all := funext hwin
    rw [hfun, pageWindows_take]
    apply List.take_of_length_le
    unfold pageCount
    omega

/-- C29 on a catalog of 150 entries whose pages are those of `twoPageCatalog`:
both loops request pages 1 and 2. -/
theorem C29_enumeration_requests_each_page_once_witness :
    pageCount 150 = 2
    ∧ (∃ e, NewMQTTConnector (constantTotal twoPageContents 150) secondRejected 2 = some e
        ∧ e.ret = Ret.nil
        ∧ e.requests = (List.range' 1 (pageCount 150)).map (fun p => (p, 100))
        ∧ e.visited = (List.range' 1 (pageCount 150)).flatMap twoPageContents)
    ∧ (∃ a, Aggregations (constantTotal twoPageContents 150) 2 = some a
        ∧ a.ret = Ret.nil
        ∧ a.requests = (List.range' 1 (pageCount 150)).map (fun p => (p, 100))
        ∧ a.visited = (List.range' 1 (pageCount 150)).flatMap twoPageContents)
    ∧ (∀ all : List DataSource, all.length = 150 → (∀ p, twoPageContents p = pageWindow all p) →
        (List.range' 1 (pageCount 150)).flatMap twoPageContents = all) :=
  ⟨by decide,
    C29_enumeration_requests_each_page_once twoPageContents 150 secondRejected 2 (by decide)⟩

/-! ## The batch built by the message handler -/

theorem accept_batch (s : Subscription) (b : Batch) (ds : DataSource) (e : Entry) :
    (s.accept b ds e).data
        = (if s.wants ds && !typeError ds e then
            Dict.put b.data ds.ID ((b.data.find ds.ID).getD [] ++ [DataPoint.mk e])
          else b.data)
    ∧ (s.accept b ds e).sources
        = (if s.wants ds && !typeError ds e then
            (if (b.data.find ds.ID).isSome then b.sources else Dict.put b.sources ds.ID ds)
          else b.sources) := by
  unfold Subscription.accept Subscription.wants
  cases hm : ds.Connector.MQTT with
  | none => simp
  | some conf =>
    by_cases hu : conf.val.URL = s.url
    · by_cases ht : conf.val.Topic = s.topic
      · cases hty : typeError ds e with
        | true => simp [hu, ht]
        | false =>
          cases hf : Dict.find b.data ds.ID <;> simp [hu, ht, hf]
      · simp [hu, ht]
    · simp [hu]

theorem accept_step (s : Subscription) (b : Batch) (ds : DataSource) (e : Entry)
    (hk : b.SameKeys) :
    (s.accept b ds e).SameKeys
    ∧ (∀ id, (s.accept b ds e).data.find id
        = extend (b.data.find id)
            (if (s.wants ds && !typeError ds e) && ds.ID == id then [DataPoint.mk e] else []))
    ∧ (∀ id, (s.accept b ds e).sources.find id
        = (b.sources.find id).or
            (if (s.wants ds && !typeError ds e) && ds.ID == id then some ds else none)) := by
  obtain ⟨hd, hs⟩ := accept_batch s b ds e
  cases hp : (s.wants ds && !typeError ds e) with
  | false =>
    rw [hp] at hd hs
    simp only [Bool.false_eq_true, if_false] at hd hs
    refine ⟨?_, ?_, ?_⟩
    · intro id
      rw [hd, hs]
      exact hk id
    · intro id
      simp [hd, extend]
    · intro id
      simp [hs]
  | true =>
    rw [hp] at hd hs
    simp only [if_true] at hd hs
    have key : ∀ id, (s.accept b ds e).data.find id
          = extend (b.data.find id) (if ds.ID = id then [DataPoint.mk e] else [])
        ∧ (s.accept b ds e).sources.find id
          = (b.sources.find id).or (if ds.ID = id then some ds else none) := by
      intro id
      by_cases hid : ds.ID = id
      · subst hid
        rw [hd, hs]
        refine ⟨by simp [Dict.find_put_same, extend], ?_⟩
        have hkd := hk ds.ID
        cases hfd : Dict.find b.data ds.ID with
        | none =>
          rw [hfd] at hkd
          have hfs : Dict.find b.sources ds.ID = none := by
            cases hx : Dict.find b.sources ds.ID with
            | none => rfl
            | some x => simp [hx] at hkd
          simp [hfs, Dict.find_put_same]
        | some pts =>
          rw [hfd] at hkd
          cases hx : Dict.find b.sources ds.ID with
          | none => simp [hx] at hkd
          | some x => simp [hx]
      · have hne : id ≠ ds.ID := fun h => hid h.symm
        rw [hd, hs]
        refine ⟨by simp [Dict.find_put_other _ _ _ _ hne, hid, extend], ?_⟩
        by_cases hsome : (Dict.find b.data ds.ID).isSome = true
        · simp [hsome, hid]
        · simp [hsome, hid, Dict.find_put_other _ _ _ _ hne]
    refine ⟨?_, ?_, ?_⟩
    · intro id
      rw [(key id).1, (key id).2]
      have hkd := hk id
      by_cases hid : ds.ID = id
      · cases hx : Dict.find b.sources id <;> simp [hid, extend]
      · simpa [hid, extend] using hkd
    · intro id
      simpa using (key id).1
    · intro id
      simpa using (key id).2

theorem passes_of_resolve (s : Subscription) (c : MQTTConnector) (registry : String → Lookup)
    (e : Entry) (ds : DataSource) (hname : e.Name ≠ "")
    (hr : c.resolve registry e.Name = some ds) :
    s.passes c registry e = if s.wants ds && !typeError ds e then some ds else none := by
  simp [Subscription.passes, hname, hr]

theorem single_of_passes (s : Subscription) (c : MQTTConnector) (registry : String → Lookup)
    (e : Entry) (ds : DataSource) (id : String) (p : Bool)
    (hp : s.passes c registry e = if p then some ds else none) :
    (s.accepted c registry [e] id).map DataPoint.mk
        = (if p && ds.ID == id then [DataPoint.mk e] else [])
    ∧ s.firstSource c registry [e] id = (if p && ds.ID == id then some ds else none) := by
  cases p with
  | false =>
    simp only [Bool.false_eq_true, if_false] at hp
    simp [Subscription.accepted, Subscription.firstSource, hp]
  | true =>
    simp only [if_true] at hp
    by_cases hid : ds.ID = id <;>
      simp [Subscription.accepted, Subscription.firstSource, hp, hid]

theorem none_of_not_passes (s : Subscription) (c : MQTTConnector) (registry : String → Lookup)
    (e : Entry) (id : String) (hp : s.passes c registry e = none) :
    (s.accepted c registry [e] id).map DataPoint.mk = []
    ∧ s.firstSource c registry [e] id = none := by
  simp [Subscription.accepted, Subscription.firstSource, hp]

theorem onEntry_batch (s : Subscription) (registry : String → Lookup) (c : MQTTConnector)
    (b : Batch) (e : Entry) (hc : b.Coherent c registry) (hk : b.SameKeys) :
    (s.onEntry registry b e).Coherent c registry
    ∧ (s.onEntry registry b e).SameKeys
    ∧ (∀ id, (s.onEntry registry b e).data.find id
        = extend (b.data.find id) ((s.accepted c registry [e] id).map DataPoint.mk))
    ∧ (∀ id, (s.onEntry registry b e).sources.find id
        = (b.sources.find id).or (s.firstSource c registry [e] id)) := by
  unfold Subscription.onEntry
  by_cases hname : e.Name = ""
  · have hp : s.passes c registry e = none := by simp [Subscription.passes, hname]
    simp only [hname, if_true]
    refine ⟨hc, hk, ?_, ?_⟩
    · intro id
      simp [(none_of_not_passes s c registry e id hp).1, extend]
    · intro id
      simp [(none_of_not_passes s c registry e id hp).2]
  · simp only [hname, if_false]
    have hcn := hc e.Name
    cases hfind : Dict.find b.cache e.Name with
    | some ds =>
      rw [hfind] at hcn
      simp only at hcn
      have hp := passes_of_resolve s c registry e ds hname hcn
      obtain ⟨a1, a2, a3⟩ := accept_step s b ds e hk
      refine ⟨?_, a1, ?_, ?_⟩
      · intro name
        rw [(accept_cache s b ds e).1]
        exact hc name
      · intro id
        rw [a2 id, (single_of_passes s c registry e ds id _ hp).1]
      · intro id
        rw [a3 id, (single_of_passes s c registry e ds id _ hp).2]
    | none =>
      rw [hfind] at hcn
      simp only at hcn
      cases hreg : registry e.Name with
      | failed =>
        have hp : s.passes c registry e = none := by
          simp [Subscription.passes, hname, MQTTConnector.resolve, hcn, hreg]
        refine ⟨hc, hk, ?_, ?_⟩
        · intro id
          simp [(none_of_not_passes s c registry e id hp).1, extend]
        · intro id
          simp [(none_of_not_passes s c registry e id hp).2]
      | missing =>
        have hp : s.passes c registry e = none := by
          simp [Subscription.passes, hname, MQTTConnector.resolve, hcn, hreg]
        refine ⟨hc, hk, ?_, ?_⟩
        · intro id
          simp [(none_of_not_passes s c registry e id hp).1, extend]
        · intro id
          simp [(none_of_not_passes s c registry e id hp).2]
      | found ds =>
        have hres : c.resolve registry e.Name = some ds := by
          simp [MQTTConnector.resolve, hcn, hreg]
        have hp := passes_of_resolve s c registry e ds hname hres
        obtain ⟨a1, a2, a3⟩ := accept_step s
          { b with lookups := b.lookups ++ [e.Name], cache := Dict.put b.cache e.Name ds }
          ds e hk
        refine ⟨?_, a1, ?_, ?_⟩
        · intro name
          rw [(accept_cache s _ ds e).1]
          by_cases hn : name = e.Name
          · subst hn
            simp [Dict.find_put_same, hres]
          · simp only [Dict.find_put_other _ _ _ _ hn]
            exact hc name
        · intro id
          rw [a2 id, (single_of_passes s c registry e ds id _ hp).1]
        · intro id
          rw [a3 id, (single_of_passes s c registry e ds id _ hp).2]

theorem extend_extend (stored : Option (List DataPoint)) (l1 l2 : List DataPoint) :
    extend (extend stored l1) l2 = extend stored (l1 ++ l2) := by
  unfold extend
  by_cases h1 : l1 = []
  · subst h1
    simp
  · by_cases h2 : l2 = []
    · subst h2
      simp [h1]
    · simp [h1, h2]

theorem accepted_cons (s : Subscription) (c : MQTTConnector) (registry : String → Lookup)
    (e : Entry) (es : List Entry) (id : String) :
    s.accepted c registry (e :: es) id
        = s.accepted c registry [e] id ++ s.accepted c registry es id
    ∧ s.firstSource c registry (e :: es) id
        = (s.firstSource c registry [e] id).or (s.firstSource c registry es id) := by
  constructor
  · unfold Subscription.accepted
    rw [← List.filter_append]
    rfl
  · unfold Subscription.firstSource
    cases hp : s.passes c registry e with
    | none => simp [List.filterMap_cons, hp]
    | some ds =>
      by_cases hid : ds.ID = id <;> simp [List.filterMap_cons, hp, List.find?_cons, hid]

theorem foldl_batch (s : Subscription) (registry : String → Lookup) (c : MQTTConnector)
    (es : List Entry) (b : Batch) (hc : b.Coherent c registry) (hk : b.SameKeys) :
    (es.foldl (s.onEntry registry) b).Coherent c registry
    ∧ (es.foldl (s.onEntry registry) b).SameKeys
    ∧ (∀ id, (es.foldl (s.onEntry registry) b).data.find id
        = extend (b.data.find id) ((s.accepted c registry es id).map DataPoint.mk))
    ∧ (∀ id, (es.foldl (s.onEntry registry) b).sources.find id
        = (b.sources.find id).or (s.firstSource c registry es id)) := by
  induction es generalizing b with
  | nil =>
    refine ⟨hc, hk, ?_, ?_⟩
    · intro id
      simp [Subscription.accepted, extend]
    · intro id
      simp [Subscription.firstSource]
  | cons e es ih =>
    obtain ⟨s1, s2, s3, s4⟩ := onEntry_batch s registry c b e hc hk
    obtain ⟨i1, i2, i3, i4⟩ := ih (s.onEntry registry b e) s1 s2
    refine ⟨i1, i2, ?_, ?_⟩
    · intro id
      rw [List.foldl_cons, i3 id, s3 id, extend_extend, (accepted_cons s c registry e es id).1,
        List.map_append]
    · intro id
      rw [List.foldl_cons, i4 id, s4 id, (accepted_cons s c registry e es id).2,
        Option.or_assoc]

theorem length_pos_iff_find {V : Type} (m : Dict V) :
    m.length > 0 ↔ ∃ k, Dict.find m k ≠ none := by
  cases m with
  | nil => simp [Dict.find]
  | cons p m =>
    obtain ⟨a, b⟩ := p
    constructor
    · intro _
      exact ⟨a, by simp [Dict.find]⟩
    · intro _
      simp

theorem initial_coherent (c : MQTTConnector) (registry : String → Lookup) :
    Batch.Coherent { cache := c.cache, data := [], sources := [], lookups := [], log := [] }
      c registry := by
  intro name
  cases h : Dict.find c.cache name with
  | none => simp [h]
  | some ds => simp [h, MQTTConnector.resolve]

theorem accepted_ne_nil_iff (s : Subscription) (c : MQTTConnector) (registry : String → Lookup)
    (es : List Entry) :
    (∃ id, s.accepted c registry es id ≠ []) ↔
      ∃ e ∈ es, (s.passes c registry e).isSome = true := by
  constructor
  · rintro ⟨id, hne⟩
    obtain ⟨e, he⟩ := List.exists_mem_of_ne_nil _ hne
    obtain ⟨hmem, hp⟩ := List.mem_filter.mp he
    refine ⟨e, hmem, ?_⟩
    cases hpass : s.passes c registry e with
    | none => simp [hpass] at hp
    | some ds => rfl
  · rintro ⟨e, hmem, hp⟩
    cases hpass : s.passes c registry e with
    | none => simp [hpass] at hp
    | some ds =>
      refine ⟨ds.ID, List.ne_nil_of_mem (a := e) ?_⟩
      exact List.mem_filter.mpr ⟨hmem, by simp [hpass]⟩

theorem onMessage_batch (s : Subscription) (c : MQTTConnector) (registry : String → Lookup)
    (submitOk : Bool) (es : List Entry) :
    ((s.onMessage c registry submitOk (.entries es)).submit.isSome = true ↔
        ∃ e ∈ es, (s.passes c registry e).isSome = true)
    ∧ (∀ data sources, (s.onMessage c registry submitOk (.entries es)).submit
          = some (data, sources) →
        (∀ id, Dict.find data id
            = extend none ((s.accepted c registry es id).map DataPoint.mk))
        ∧ (∀ id, Dict.find sources id = s.firstSource c registry es id)
        ∧ (∀ id, (Dict.find data id).isSome = (Dict.find sources id).isSome)) := by
  obtain ⟨_, f2, f3, f4⟩ := foldl_batch s registry c es
    { cache := c.cache, data := [], sources := [], lookups := [], log := [] }
    (initial_coherent c registry) (fun id => by simp [Dict.find])
  have hpos : (es.foldl (s.onEntry registry)
      { cache := c.cache, data := [], sources := [], lookups := [], log := [] }).data.length > 0
      ↔ ∃ e ∈ es, (s.passes c registry e).isSome = true := by
    rw [length_pos_iff_find, ← accepted_ne_nil_iff]
    constructor
    · rintro ⟨id, hne⟩
      refine ⟨id, fun hnil => hne ?_⟩
      rw [f3 id, hnil]
      simp [extend, Dict.find]
    · rintro ⟨id, hne⟩
      refine ⟨id, ?_⟩
      rw [f3 id]
      simp [extend, hne]
  unfold Subscription.onMessage
  dsimp only
  split
  · rename_i hlen
    refine ⟨?_, ?_⟩
    · simp only [Option.isSome_some, true_iff]
      exact hpos.mp hlen
    · intro data sources heq
      simp only [Option.some.injEq, Prod.mk.injEq] at heq
      obtain ⟨rfl, rfl⟩ := heq
      refine ⟨?_, ?_, f2⟩
      · intro id
        rw [f3 id]
        simp [Dict.find]
      · intro id
        rw [f4 id]
        simp [Dict.find]
  · rename_i hlen
    refine ⟨?_, ?_⟩
    · simp only [Option.isSome_none, Bool.false_eq_true, false_iff]
      exact fun h => hlen (hpos.mpr h)
    · intro data sources heq
      simp at heq

theorem passes_eq_some_iff (s : Subscription) (c : MQTTConnector) (registry : String → Lookup)
    (e : Entry) (ds : DataSource) :
    s.passes c registry e = some ds ↔
      e.Name ≠ "" ∧ c.resolve registry e.Name = some ds ∧ s.wants ds = true
        ∧ typeError ds e = false := by
  unfold Subscription.passes
  by_cases hname : e.Name = ""
  · simp [hname]
  · cases hr : c.resolve registry e.Name with
    | none => simp [hname]
    | some d =>
      by_cases hp : (s.wants d && !typeError d e) = true
      · simp only [hname, if_false, hp, if_true, Option.some.injEq, ne_eq, not_false_eq_true,
          true_and]
        constructor
        · rintro rfl
          simpa using hp
        · rintro ⟨rfl, _, _⟩
          rfl
      · simp only [hname, if_false, hp, ne_eq, not_false_eq_true, Option.some.injEq, true_and]
        constructor
        · intro h
          simp at h
        · rintro ⟨rfl, hw, ht⟩
          simp [hw, ht] at hp

theorem wants_iff (s : Subscription) (ds : DataSource) :
    s.wants ds = true ↔
      ∃ conf, ds.Connector.MQTT = some conf ∧ conf.val.URL = s.url ∧ conf.val.Topic = s.topic := by
  unfold Subscription.wants
  cases ds.Connector.MQTT <;> simp

theorem resolve_eq_none_iff (c : MQTTConnector) (registry : String → Lookup) (name : String) :
    c.resolve registry name = none ↔
      c.cache.find name = none ∧ (registry name = Lookup.failed ∨ registry name = Lookup.missing) := by
  unfold MQTTConnector.resolve
  cases hc : c.cache.find name with
  | some ds => simp
  | none => cases hr : registry name <;> simp

theorem mem_accepted (s : Subscription) (c : MQTTConnector) (registry : String → Lookup)
    (es : List Entry) (id : String) (e : Entry) :
    e ∈ s.accepted c registry es id ↔
      e ∈ es ∧ ∃ ds, s.passes c registry e = some ds ∧ ds.ID = id := by
  unfold Subscription.accepted
  rw [List.mem_filter]
  cases hp : s.passes c registry e <;> simp

/-- C23: whatever `onMessage` hands to `Submit`, every data point in it comes
from an entry of the message whose name is not empty and resolves (from the
cache, else by a successful catalog lookup) to a catalog entry with that id
that has a broker configuration with the url and the topic of the receiving
subscription; a name resolves to nothing exactly when it is not cached and the
lookup fails or finds nothing, and in both of these cases the entry leaves the
cache and the batch untouched. -/
theorem C23_only_wanted_resolved_entries_reach_submit (s : Subscription) (c : MQTTConnector)
    (registry : String → Lookup) (submitOk : Bool) (es : List Entry)
    (data : Dict (List DataPoint)) (sources : Dict DataSource)
    (h : (s.onMessage c registry submitOk (.entries es)).submit = some (data, sources)) :
    (∀ id pts, Dict.find data id = some pts → ∀ p ∈ pts,
        p.fromEntry ∈ es ∧ p.fromEntry.Name ≠ ""
        ∧ ∃ ds conf, c.resolve registry p.fromEntry.Name = some ds ∧ ds.ID = id
            ∧ ds.Connector.MQTT = some conf ∧ conf.val.URL = s.url
            ∧ conf.val.Topic = s.topic)
    ∧ (∀ name, c.resolve registry name = none ↔
        c.cache.find name = none
          ∧ (registry name = Lookup.failed ∨ registry name = Lookup.missing))
    ∧ (∀ (b : Batch) (e : Entry), e.Name ≠ "" → b.cache.find e.Name = none →
        (registry e.Name = Lookup.failed ∨ registry e.Name = Lookup.missing) →
        (s.onEntry registry b e).cache = b.cache ∧ (s.onEntry registry b e).data = b.data
          ∧ (s.onEntry registry b e).sources = b.sources) := by
  refine ⟨?_, resolve_eq_none_iff c registry, ?_⟩
  · obtain ⟨hd, _, _⟩ := (onMessage_batch s c registry submitOk es).2 data sources h
    intro id pts hfind p hp
    rw [hd id] at hfind
    unfold extend at hfind
    split at hfind
    · simp at hfind
    · simp only [Option.getD_none, List.nil_append, Option.some.injEq] at hfind
      subst hfind
      obtain ⟨e, he, rfl⟩ := List.mem_map.mp hp
      obtain ⟨hmem, ds, hpass, hid⟩ := (mem_accepted s c registry es id e).mp he
      obtain ⟨hname, hres, hw, _⟩ := (passes_eq_some_iff s c registry e ds).mp hpass
      obtain ⟨conf, hm, hu, ht⟩ := (wants_iff s ds).mp hw
      exact ⟨hmem, hname, ds, conf, hres, hid, hm, hu, ht⟩
  · intro b e hname hfind hreg
    unfold Subscription.onEntry
    rcases hreg with hreg | hreg <;> simp [hname, hfind, hreg]

/-- C23 on `mixedMessage`, received on the subscription for `confT`: five
entries are dropped, each with its diagnostic, and the one data point submitted
is the valid entry for X. -/
theorem C23_only_wanted_resolved_entries_reach_submit_witness :
    ((subscriptionOf confT).onMessage connectorWithX catalogAll true
        (.entries mixedMessage)).submit = some batchForX
    ∧ ((subscriptionOf confT).onMessage connectorWithX catalogAll true
        (.entries mixedMessage)).log
        = [Diag.typeError dsX.Resource, Diag.noName, Diag.notFound "res/unknown",
            Diag.lookupError "res/down", Diag.wrongTopic dsO.Resource]
    ∧ ((∀ id pts, Dict.find batchForX.1 id = some pts → ∀ p ∈ pts,
        p.fromEntry ∈ mixedMessage ∧ p.fromEntry.Name ≠ ""
        ∧ ∃ ds conf, connectorWithX.resolve catalogAll p.fromEntry.Name = some ds ∧ ds.ID = id
            ∧ ds.Connector.MQTT = some conf ∧ conf.val.URL = (subscriptionOf confT).url
            ∧ conf.val.Topic = (subscriptionOf confT).topic)
      ∧ (∀ name, connectorWithX.resolve catalogAll name = none ↔
          connectorWithX.cache.find name = none
            ∧ (catalogAll name = Lookup.failed ∨ catalogAll name = Lookup.missing))
      ∧ (∀ (b : Batch) (e : Entry), e.Name ≠ "" → b.cache.find e.Name = none →
          (catalogAll e.Name = Lookup.failed ∨ catalogAll e.Name = Lookup.missing) →
          ((subscriptionOf confT).onEntry catalogAll b e).cache = b.cache
            ∧ ((subscriptionOf confT).onEntry catalogAll b e).data = b.data
            ∧ ((subscriptionOf confT).onEntry catalogAll b e).sources = b.sources)) :=
  ⟨by decide, by decide,
    C23_only_wanted_resolved_entries_reach_submit (subscriptionOf confT) connectorWithX
      catalogAll true mixedMessage batchForX.1 batchForX.2 (by decide)⟩

/-- C24, as the claim states it, fails: the entry `entryTwoKinds` has a name,
resolves to the float source X, which is wanted on the subscription, and
carries a value of the declared type, a number; it also carries a boolean, so
the type check drops it. Alone in a message it leads to no `Submit` call, and
beside the valid entry for X only the valid one reaches `Submit`. -/
theorem C24_entry_with_second_value_kind_is_dropped :
    entryTwoKinds.Name ≠ ""
    ∧ connectorWithX.resolve catalogAll entryTwoKinds.Name = some dsX
    ∧ (subscriptionOf confT).wants dsX = true
    ∧ carriesDeclared dsX entryTwoKinds = true
    ∧ typeError dsX entryTwoKinds = true
    ∧ ((subscriptionOf confT).onMessage connectorWithX catalogAll true
        (.entries [entryTwoKinds])).submit = none
    ∧ ((subscriptionOf confT).onMessage connectorWithX catalogAll true
        (.entries [entryTwoKinds, entryForX])).submit
        = some ([(dsX.ID, [DataPoint.mk entryForX])], [(dsX.ID, dsX)]) :=
  ⟨by decide, by decide, by decide, by decide, by decide, by decide, by decide⟩

/-- C24, amended: an entry of a message that has a name, resolves to a catalog
entry wanted on the receiving subscription and raises no type error (it carries
no value of a kind that clashes with the declared type) reaches `Submit`,
whatever happens to the other entries of the message: `Submit` is called, and
the data points under the catalog entry's id are the entries of the message
that pass under that id, this one among them. -/
theorem C24_valid_entry_reaches_submit_despite_drops (s : Subscription) (c : MQTTConnector)
    (registry : String → Lookup) (submitOk : Bool) (es : List Entry) (e : Entry)
    (ds : DataSource) (he : e ∈ es) (hname : e.Name ≠ "")
    (hres : c.resolve registry e.Name = some ds) (hw : s.wants ds = true)
    (ht : typeError ds e = false) :
    ∃ data sources pts,
      (s.onMessage c registry submitOk (.entries es)).submit = some (data, sources)
      ∧ Dict.find data ds.ID = some pts
      ∧ DataPoint.mk e ∈ pts
      ∧ pts = (s.accepted c registry es ds.ID).map DataPoint.mk := by
  have hpass : s.passes c registry e = some ds :=
    (passes_eq_some_iff s c registry e ds).mpr ⟨hname, hres, hw, ht⟩
  obtain ⟨hiff, hall⟩ := onMessage_batch s c registry submitOk es
  have hsome := hiff.mpr ⟨e, he, by simp [hpass]⟩
  obtain ⟨⟨data, sources⟩, hsub⟩ := Option.isSome_iff_exists.mp hsome
  obtain ⟨hd, _, _⟩ := hall data sources hsub
  have hacc : e ∈ s.accepted c registry es ds.ID :=
    (mem_accepted s c registry es ds.ID e).mpr ⟨he, ds, hpass, rfl⟩
  have hne : (s.accepted c registry es ds.ID).map DataPoint.mk ≠ [] := by
    intro hnil
    rw [List.map_eq_nil_iff] at hnil
    rw [hnil] at hacc
    simp at hacc
  refine ⟨data, sources, _, hsub, ?_, List.mem_map.mpr ⟨e, hacc, rfl⟩, rfl⟩
  rw [hd ds.ID]
  simp [extend, hne]

/-- C24 on `mixedMessage`: the entry with the type mismatch and four others are
dropped, the valid entry for X reaches `Submit`, as the only data point. -/
theorem C24_valid_entry_reaches_submit_despite_drops_witness :
    typeError dsX entryMismatch = true
    ∧ ((subscriptionOf confT).onMessage connectorWithX catalogAll true
        (.entries mixedMessage)).submit
        = some ([(dsX.ID, [DataPoint.mk entryForX])], [(dsX.ID, dsX)])
    ∧ ∃ data sources pts,
        ((subscriptionOf confT).onMessage connectorWithX catalogAll true
          (.entries mixedMessage)).submit = some (data, sources)
        ∧ Dict.find data dsX.ID = some pts
        ∧ DataPoint.mk entryForX ∈ pts
        ∧ pts = ((subscriptionOf confT).accepted connectorWithX catalogAll mixedMessage
            dsX.ID).map DataPoint.mk :=
  ⟨by decide, by decide,
    C24_valid_entry_reaches_submit_despite_drops (subscriptionOf confT) connectorWithX
      catalogAll true mixedMessage entryForX dsX (by decide) (by decide) (by decide)
      (by decide) (by decide)⟩

/-- C25: `onMessage` makes no `Submit` call for a payload that fails to parse
or to validate; for a decoded message it makes one call exactly when at least
one entry passes every check, and none otherwise. In that call, for every id:
`data[id]` is absent if no entry passes under that id and else lists the
entries that pass under it in message order; `sources[id]` is the resolved
catalog entry of the first of them, a data source with that id; so `data` and
`sources` have the same keys, the ids of the catalog entries of the entries
that pass. -/
theorem C25_one_submit_with_grouped_batch (s : Subscription) (c : MQTTConnector)
    (registry : String → Lookup) (submitOk : Bool) :
    (s.onMessage c registry submitOk .badJSON).submit = none
    ∧ (s.onMessage c registry submitOk .invalid).submit = none
    ∧ ∀ es : List Entry,
        ((s.onMessage c registry submitOk (.entries es)).submit.isSome = true ↔
          ∃ e ∈ es, (s.passes c registry e).isSome = true)
        ∧ ∀ data sources,
            (s.onMessage c registry submitOk (.entries es)).submit = some (data, sources) →
            ∀ id,
              Dict.find data id
                  = (if s.accepted c registry es id = [] then none
                    else some ((s.accepted c registry es id).map DataPoint.mk))
              ∧ Dict.find sources id = s.firstSource c registry es id
              ∧ (Dict.find data id).isSome = (Dict.find sources id).isSome
              ∧ ∀ ds, Dict.find sources id = some ds →
                  ds.ID = id ∧ ∃ e ∈ es, s.passes c registry e = some ds := by
  refine ⟨rfl, rfl, ?_⟩
  intro es
  obtain ⟨hiff, hall⟩ := onMessage_batch s c registry submitOk es
  refine ⟨hiff, ?_⟩
  intro data sources hsub id
  obtain ⟨hd, hs, hk⟩ := hall data sources hsub
  refine ⟨?_, hs id, hk id, ?_⟩
  · rw [hd id]
    by_cases hnil : s.accepted c registry es id = []
    · simp [extend, hnil]
    · simp [extend, hnil]
  · intro ds hfind
    rw [hs id] at hfind
    unfold Subscription.firstSource at hfind
    have h1 := List.find?_some hfind
    have h2 := List.mem_of_find?_eq_some hfind
    obtain ⟨e, he, hp⟩ := List.mem_filterMap.mp h2
    exact ⟨by simpa using h1, e, he, hp⟩

/-- C25 on `mixedMessage` and on a message without a valid entry. -/
theorem C25_one_submit_with_grouped_batch_witness :
    ((subscriptionOf confT).onMessage connectorWithX catalogAll true
        (.entries mixedMessage)).submit = some batchForX
    ∧ ((subscriptionOf confT).onMessage connectorWithX catalogAll true
        (.entries [entryMismatch, entryNoName])).submit = none
    ∧ (∀ id,
        Dict.find batchForX.1 id
            = (if (subscriptionOf confT).accepted connectorWithX catalogAll mixedMessage id = []
                then none
              else some (((subscriptionOf confT).accepted connectorWithX catalogAll
                mixedMessage id).map DataPoint.mk))
        ∧ Dict.find batchForX.2 id
            = (subscriptionOf confT).firstSource connectorWithX catalogAll mixedMessage id
        ∧ (Dict.find batchForX.1 id).isSome = (Dict.find batchForX.2 id).isSome
        ∧ ∀ ds, Dict.find batchForX.2 id = some ds →
            ds.ID = id ∧ ∃ e ∈ mixedMessage,
              (subscriptionOf confT).passes connectorWithX catalogAll e = some ds) :=
  ⟨by decide, by decide,
    ((C25_one_submit_with_grouped_batch (subscriptionOf confT) connectorWithX catalogAll
      true).2.2 mixedMessage).2 batchForX.1 batchForX.2 (by decide)⟩

/-! ## Catalog lookups and the cache -/

theorem onEntry_lookup (s : Subscription) (registry : String → Lookup) (b : Batch) (e : Entry) :
    (e.Name = "" →
      (s.onEntry registry b e).lookups = b.lookups ∧ (s.onEntry registry b e).cache = b.cache)
    ∧ (e.Name ≠ "" → Dict.find b.cache e.Name = none →
      (s.onEntry registry b e).lookups = b.lookups ++ [e.Name]
      ∧ (s.onEntry registry b e).cache
          = (match registry e.Name with
            | .found ds => Dict.put b.cache e.Name ds
            | _ => b.cache))
    ∧ (e.Name ≠ "" → ∀ ds, Dict.find b.cache e.Name = some ds →
      (s.onEntry registry b e).lookups = b.lookups ∧ (s.onEntry registry b e).cache = b.cache) := by
  refine ⟨?_, ?_, ?_⟩
  · intro hname
    simp [Subscription.onEntry, hname]
  · intro hname hfind
    unfold Subscription.onEntry
    simp only [hname, if_false, hfind]
    cases hreg : registry e.Name with
    | failed => exact ⟨rfl, rfl⟩
    | missing => exact ⟨rfl, rfl⟩
    | found ds =>
      simp only
      rw [(accept_cache s _ ds e).1, (accept_cache s _ ds e).2]
      exact ⟨rfl, rfl⟩
  · intro hname ds hfind
    unfold Subscription.onEntry
    simp only [hname, if_false, hfind]
    rw [(accept_cache s _ ds e).1, (accept_cache s _ ds e).2]
    exact ⟨rfl, rfl⟩

theorem onEntry_lookedUp (s : Subscription) (registry : String → Lookup) (c : MQTTConnector)
    (b : Batch) (e : Entry) (hc : b.Coherent c registry) (hl : b.LookedUp c registry) :
    (s.onEntry registry b e).LookedUp c registry := by
  obtain ⟨h0, h1, h2⟩ := onEntry_lookup s registry b e
  obtain ⟨k, l, m⟩ := hl
  by_cases hname : e.Name = ""
  · obtain ⟨e1, e2⟩ := h0 hname
    unfold Batch.LookedUp
    rw [e1, e2]
    exact ⟨k, l, m⟩
  · cases hfind : Dict.find b.cache e.Name with
    | some ds =>
      obtain ⟨e1, e2⟩ := h2 hname ds hfind
      unfold Batch.LookedUp
      rw [e1, e2]
      exact ⟨k, l, m⟩
    | none =>
      obtain ⟨e1, e2⟩ := h1 hname hfind
      have hcn := hc e.Name
      rw [hfind] at hcn
      simp only at hcn
      unfold Batch.LookedUp
      rw [e1, e2]
      refine ⟨?_, ?_, ?_⟩
      · intro name hmem
        rcases List.mem_append.mp hmem with h | h
        · exact k name h
        · rw [List.mem_singleton.mp h]
          exact hcn
      · intro name ds hreg hmem
        by_cases hn : name = e.Name
        · subst hn
          simp [hreg, Dict.find_put_same]
        · have hold : name ∈ b.lookups := by
            rcases List.mem_append.mp hmem with h | h
            · exact h
            · exact absurd (List.mem_singleton.mp h) hn
          have := l name ds hreg hold
          cases hr : registry e.Name with
          | failed => simpa using this
          | missing => simpa using this
          | found d => simpa [Dict.find_put_other _ _ _ _ hn] using this
      · intro name ds hreg
        rw [List.count_append]
        by_cases hn : name = e.Name
        · subst hn
          have hnot : e.Name ∉ b.lookups := by
            intro hmem
            have := l e.Name ds hreg hmem
            rw [hfind] at this
            simp at this
          simp [List.count_eq_zero_of_not_mem hnot]
        · have hne : ¬ e.Name = name := fun h => hn h.symm
          have := m name ds hreg
          simpa [List.count_singleton, hne] using this

theorem foldl_lookedUp (s : Subscription) (registry : String → Lookup) (c : MQTTConnector)
    (es : List Entry) (b : Batch) (hc : b.Coherent c registry) (hk : b.SameKeys)
    (hl : b.LookedUp c registry) :
    (es.foldl (s.onEntry registry) b).LookedUp c registry := by
  induction es generalizing b with
  | nil => exact hl
  | cons e es ih =>
    obtain ⟨s1, s2, _, _⟩ := onEntry_batch s registry c b e hc hk
    exact ih _ s1 s2 (onEntry_lookedUp s registry c b e hc hl)

theorem onMessage_cache_lookups (s : Subscription) (c : MQTTConnector)
    (registry : String → Lookup) (submitOk : Bool) (es : List Entry) :
    (s.onMessage c registry submitOk (.entries es)).state.cache
        = (es.foldl (s.onEntry registry)
            { cache := c.cache, data := [], sources := [], lookups := [], log := [] }).cache
    ∧ (s.onMessage c registry submitOk (.entries es)).lookups
        = (es.foldl (s.onEntry registry)
            { cache := c.cache, data := [], sources := [], lookups := [], log := [] }).lookups := by
  unfold Subscription.onMessage
  dsimp only
  split <;> exact ⟨rfl, rfl⟩

/-- C26: for an entry with a name, `onMessage` looks the name up in the catalog
exactly when the cache does not hold it at that moment; a lookup that yields a
catalog entry stores it in the cache under the name, a lookup that fails or
finds nothing stores nothing, and a cached name leaves lookups and cache as they
are (an entry without a name is skipped before any lookup). Over a whole
message: only names the connector had not cached are looked up; a name the
catalog finds is looked up once and is cached in the connector afterwards, so a
second entry with that name, in this message or a later one, is resolved from
the cache; a name whose lookup fails or finds nothing is not cached; what was
cached stays cached. -/
theorem C26_lookup_exactly_on_cache_miss (s : Subscription) (registry : String → Lookup) :
    (∀ (b : Batch) (e : Entry),
        (e.Name = "" →
          (s.onEntry registry b e).lookups = b.lookups
          ∧ (s.onEntry registry b e).cache = b.cache)
        ∧ (e.Name ≠ "" → Dict.find b.cache e.Name = none →
          (s.onEntry registry b e).lookups = b.lookups ++ [e.Name]
          ∧ (s.onEntry registry b e).cache
              = (match registry e.Name with
                | .found ds => Dict.put b.cache e.Name ds
                | _ => b.cache))
        ∧ (e.Name ≠ "" → ∀ ds, Dict.find b.cache e.Name = some ds →
          (s.onEntry registry b e).lookups = b.lookups
          ∧ (s.onEntry registry b e).cache = b.cache))
    ∧ (∀ (c : MQTTConnector) (submitOk : Bool) (es : List Entry),
        (∀ name, name ∈ (s.onMessage c registry submitOk (.entries es)).lookups →
          c.cache.find name = none)
        ∧ (∀ name ds, registry name = Lookup.found ds →
            name ∈ (s.onMessage c registry submitOk (.entries es)).lookups →
            (s.onMessage c registry submitOk (.entries es)).state.cache.find name = some ds
            ∧ (s.onMessage c registry submitOk (.entries es)).lookups.count name = 1)
        ∧ (∀ name, name ∈ (s.onMessage c registry submitOk (.entries es)).lookups →
            (registry name = Lookup.failed ∨ registry name = Lookup.missing) →
            (s.onMessage c registry submitOk (.entries es)).state.cache.find name = none)
        ∧ (∀ name ds, c.cache.find name = some ds →
            (s.onMessage c registry submitOk (.entries es)).state.cache.find name = some ds
            ∧ name ∉ (s.onMessage c registry submitOk (.entries es)).lookups)) := by
  refine ⟨fun b e => onEntry_lookup s registry b e, ?_⟩
  intro c submitOk es
  obtain ⟨hcache, hlook⟩ := onMessage_cache_lookups s c registry submitOk es
  have hk0 : Batch.SameKeys
      { cache := c.cache, data := [], sources := [], lookups := [], log := [] } :=
    fun id => by simp [Dict.find]
  have hl0 : Batch.LookedUp
      { cache := c.cache, data := [], sources := [], lookups := [], log := [] } c registry :=
    ⟨fun _ h => by simp at h, fun _ _ _ h => by simp at h, fun _ _ _ => by simp⟩
  obtain ⟨hcoh, _, _, _⟩ := foldl_batch s registry c es _ (initial_coherent c registry) hk0
  obtain ⟨k, l, m⟩ := foldl_lookedUp s registry c es _ (initial_coherent c registry) hk0 hl0
  rw [hcache, hlook]
  refine ⟨k, ?_, ?_, ?_⟩
  · intro name ds hreg hmem
    refine ⟨l name ds hreg hmem, ?_⟩
    have h1 := m name ds hreg
    have h2 := List.count_pos_iff.mpr hmem
    omega
  · intro name hmem hreg
    have hcn := hcoh name
    have hnone : c.resolve registry name = none :=
      (resolve_eq_none_iff c registry name).mpr ⟨k name hmem, hreg⟩
    revert hcn
    cases hf : Dict.find (es.foldl (s.onEntry registry)
        { cache := c.cache, data := [], sources := [], lookups := [], log := [] }).cache name with
    | none => intro _; rfl
    | some d =>
      intro hcn
      simp only at hcn
      rw [hnone] at hcn
      simp at hcn
  · intro name ds hfind
    have hcn := hcoh name
    have hres : c.resolve registry name = some ds := by simp [MQTTConnector.resolve, hfind]
    constructor
    · revert hcn
      cases hf : Dict.find (es.foldl (s.onEntry registry)
          { cache := c.cache, data := [], sources := [], lookups := [], log := [] }).cache
          name with
      | none =>
        intro hcn
        simp only at hcn
        rw [hfind] at hcn
        simp at hcn
      | some d =>
        intro hcn
        simp only at hcn
        rw [hres] at hcn
        exact hcn.symm
    · intro hmem
      have := k name hmem
      rw [hfind] at this
      simp at this

/-- C26 on `repeatedMessage`: X's name is looked up once and cached, the name
whose lookup fails is looked up for each of its two entries and not cached. -/
theorem C26_lookup_exactly_on_cache_miss_witness :
    ((subscriptionOf confT).onMessage connectorWithX catalogAll true
        (.entries repeatedMessage)).lookups = [dsX.Resource, "res/down", "res/down"]
    ∧ (((subscriptionOf confT).onEntry catalogAll startBatch entryForX).lookups
          = startBatch.lookups ++ [entryForX.Name]
      ∧ ((subscriptionOf confT).onEntry catalogAll startBatch entryForX).cache
          = (match catalogAll entryForX.Name with
            | .found ds => Dict.put startBatch.cache entryForX.Name ds
            | _ => startBatch.cache))
    ∧ (((subscriptionOf confT).onMessage connectorWithX catalogAll true
          (.entries repeatedMessage)).state.cache.find dsX.Resource = some dsX
      ∧ ((subscriptionOf confT).onMessage connectorWithX catalogAll true
          (.entries repeatedMessage)).lookups.count dsX.Resource = 1)
    ∧ ((subscriptionOf confT).onMessage connectorWithX catalogAll true
        (.entries repeatedMessage)).state.cache.find "res/down" = none :=
  ⟨by decide,
    ((C26_lookup_exactly_on_cache_miss (subscriptionOf confT) catalogAll).1 startBatch
      entryForX).2.1 (by decide) (by decide),
    ((C26_lookup_exactly_on_cache_miss (subscriptionOf confT) catalogAll).2 connectorWithX true
      repeatedMessage).2.1 dsX.Resource dsX (by decide) (by decide),
    ((C26_lookup_exactly_on_cache_miss (subscriptionOf confT) catalogAll).2 connectorWithX true
      repeatedMessage).2.2.1 "res/down" (by decide) (Or.inl (by decide))⟩

/-! ## The type check -/

/-- C30: the type check of `onMessage` raises no error exactly when: for a
float source, the entry has no boolean value and no non-empty string value; for
a string source, no numeric and no boolean value; for a bool source, no numeric
value and no non-empty string value; for any other declared type always. On a
wanted data source an entry that raises no error is appended to the batch under
the data source's id, and one that raises an error leaves the batch unchanged
and logs the type error. -/
theorem C30_type_check_rejects_only_clashing_kinds (ds : DataSource) (e : Entry) :
    (typeError ds e = false ↔
      (ds.Typ = FLOAT →
        e.BooleanValue = none ∧ (e.StringValue = none ∨ e.StringValue = some ""))
      ∧ (ds.Typ = STRING → e.Value = none ∧ e.BooleanValue = none)
      ∧ (ds.Typ = BOOL →
        e.Value = none ∧ (e.StringValue = none ∨ e.StringValue = some "")))
    ∧ (ds.Typ ≠ FLOAT → ds.Typ ≠ STRING → ds.Typ ≠ BOOL → typeError ds e = false)
    ∧ (∀ (s : Subscription) (b : Batch), s.wants ds = true →
        (typeError ds e = false →
          (s.accept b ds e).data
            = Dict.put b.data ds.ID ((b.data.find ds.ID).getD [] ++ [DataPoint.mk e]))
        ∧ (typeError ds e = true →
          (s.accept b ds e).data = b.data ∧ (s.accept b ds e).sources = b.sources
          ∧ (s.accept b ds e).log = b.log ++ [Diag.typeError e.Name])) := by
  refine ⟨?_, ?_, ?_⟩
  · unfold typeError
    by_cases hf : ds.Typ = FLOAT
    · have h1 : ¬ FLOAT = STRING := by decide
      have h2 : ¬ FLOAT = BOOL := by decide
      cases hb : e.BooleanValue <;> cases hs : e.StringValue <;> simp [hf, h1, h2]
    · by_cases hs : ds.Typ = STRING
      · have h1 : ¬ STRING = FLOAT := by decide
        have h2 : ¬ STRING = BOOL := by decide
        cases hv : e.Value <;> cases hb : e.BooleanValue <;> simp [hs, h1, h2]
      · by_cases hb : ds.Typ = BOOL
        · have h1 : ¬ BOOL = FLOAT := by decide
          have h2 : ¬ BOOL = STRING := by decide
          cases hv : e.Value <;> cases hst : e.StringValue <;> simp [hb, h1, h2]
        · simp [hf, hs, hb]
  · intro hf hs hb
    simp [typeError, hf, hs, hb]
  · intro s b hw
    obtain ⟨hd, hsrc⟩ := accept_batch s b ds e
    constructor
    · intro ht
      rw [hd]
      simp [hw, ht]
    · intro ht
      refine ⟨by rw [hd]; simp [hw, ht], by rw [hsrc]; simp [hw, ht], ?_⟩
      obtain ⟨conf, hm, hu, htop⟩ := (wants_iff s ds).mp hw
      simp [Subscription.accept, hm, hu, htop, ht]

/-- C30 on X, a float source: an entry that carries only an empty string raises
no type error and is appended to the batch; an entry that carries a non-empty
string raises one. -/
theorem C30_type_check_rejects_only_clashing_kinds_witness :
    typeError dsX entryEmptyString = false
    ∧ typeError dsX entryMismatch = true
    ∧ ((subscriptionOf confT).accept startBatch dsX entryEmptyString).data
        = Dict.put startBatch.data dsX.ID
            ((startBatch.data.find dsX.ID).getD [] ++ [DataPoint.mk entryEmptyString])
    ∧ (((subscriptionOf confT).accept startBatch dsX entryMismatch).data = startBatch.data
      ∧ ((subscriptionOf confT).accept startBatch dsX entryMismatch).sources
          = startBatch.sources
      ∧ ((subscriptionOf confT).accept startBatch dsX entryMismatch).log
          = startBatch.log ++ [Diag.typeError entryMismatch.Name]) :=
  ⟨by decide, by decide,
    ((C30_type_check_rejects_only_clashing_kinds dsX entryEmptyString).2.2
      (subscriptionOf confT) startBatch (by decide)).1 (by decide),
    ((C30_type_check_rejects_only_clashing_kinds dsX entryMismatch).2.2
      (subscriptionOf confT) startBatch (by decide)).2 (by decide)⟩

/-! ## The on-connect handler -/

theorem put_find_self {V : Type} (m : Dict V) (k : String) (v : V)
    (h : Dict.find m k = some v) : Dict.put m k v = m := by
  induction m with
  | nil => simp [Dict.find] at h
  | cons p m ih =>
    obtain ⟨a, b⟩ := p
    by_cases hk : k = a
    · subst hk
      simp only [Dict.find, if_true, Option.some.injEq] at h
      simp [Dict.put, h]
    · simp only [Dict.find, hk, if_false] at h
      simp [Dict.put, hk, ih h]

theorem reconnect_fold (m : Manager) (ok : BrokerCall → Bool)
    (subs : Dict Subscription) (r : Reconnected) (hr : r.manager = m) :
    (subs.foldl
      (fun r p =>
        { manager := r.manager
          calls := r.calls ++ [BrokerCall.subscribe r.manager.url p.2.topic p.2.qos]
          failures :=
            if ok (BrokerCall.subscribe r.manager.url p.2.topic p.2.qos) then r.failures
            else r.failures + 1 })
      r).manager = m
    ∧ (subs.foldl
      (fun r p =>
        { manager := r.manager
          calls := r.calls ++ [BrokerCall.subscribe r.manager.url p.2.topic p.2.qos]
          failures :=
            if ok (BrokerCall.subscribe r.manager.url p.2.topic p.2.qos) then r.failures
            else r.failures + 1 })
      r).calls = r.calls ++ subs.map fun p => BrokerCall.subscribe m.url p.2.topic p.2.qos := by
  induction subs generalizing r with
  | nil => simp [hr]
  | cons p rest ih =>
    simp only [List.foldl_cons]
    obtain ⟨i1, i2⟩ := ih
      { manager := r.manager
        calls := r.calls ++ [BrokerCall.subscribe r.manager.url p.2.topic p.2.qos]
        failures :=
          if ok (BrokerCall.subscribe r.manager.url p.2.topic p.2.qos) then r.failures
          else r.failures + 1 }
      hr
    refine ⟨i1, ?_⟩
    rw [i2]
    simp [hr]

/-- C27: `Manager.onConnectHandler` issues exactly one SUBSCRIBE for every
subscription the manager tracks, with that subscription's topic and qos, and
leaves the manager as it was, subscription map and receiver counts included,
whether or not the subscribes succeed; so it does the same however often it
runs, and the connector whose manager reconnects is unchanged. -/
theorem C27_on_connect_resubscribes_and_changes_nothing (m : Manager) (ok : BrokerCall → Bool) :
    (m.reconnect ok).manager = m
    ∧ (m.reconnect ok).calls
        = m.subscriptions.map (fun p => BrokerCall.subscribe m.url p.2.topic p.2.qos)
    ∧ (m.reconnect ok).calls = m.onConnectHandler
    ∧ (m.reconnect ok).calls.length = m.subscriptions.length
    ∧ (∀ ok2 : BrokerCall → Bool,
        ((m.reconnect ok).manager.reconnect ok2).manager = m
        ∧ ((m.reconnect ok).manager.reconnect ok2).calls = (m.reconnect ok).calls)
    ∧ (∀ (c : MQTTConnector) (url : String),
        (c.connected url ok).state = c
        ∧ (c.managers.find url = some m → (c.connected url ok).calls = m.onConnectHandler)) := by
  have h := reconnect_fold m ok m.subscriptions { manager := m, calls := [], failures := 0 } rfl
  have hm : (m.reconnect ok).manager = m := h.1
  have hc : (m.reconnect ok).calls
      = m.subscriptions.map (fun p => BrokerCall.subscribe m.url p.2.topic p.2.qos) := by
    have := h.2
    simpa [Manager.reconnect] using this
  refine ⟨hm, hc, ?_, ?_, ?_, ?_⟩
  · rw [hc]
    rfl
  · rw [hc, List.length_map]
  · intro ok2
    have h2 := reconnect_fold m ok2 m.subscriptions { manager := m, calls := [], failures := 0 }
      rfl
    rw [hm]
    refine ⟨h2.1, ?_⟩
    rw [hc]
    have := h2.2
    simpa [Manager.reconnect] using this
  · intro c url
    constructor
    · unfold MQTTConnector.connected
      cases hf : c.managers.find url with
      | none => rfl
      | some m2 =>
        have hm2 : (m2.reconnect ok).manager = m2 :=
          (reconnect_fold m2 ok m2.subscriptions { manager := m2, calls := [], failures := 0 }
            rfl).1
        simp only [hm2, put_find_self _ _ _ hf]
    · intro hf
      unfold MQTTConnector.connected
      simp only [hf, hc]
      rfl

/-- C27 on the manager that tracks two topics while the broker rejects every
SUBSCRIBE: two calls, manager and connector unchanged. -/
theorem C27_on_connect_resubscribes_and_changes_nothing_witness :
    twoTopicConnector.managers.find confT.URL = some twoTopicManager
    ∧ (twoTopicManager.reconnect allFail).calls
        = [.subscribe confT.URL confOther.Topic confOther.QoS,
            .subscribe confT.URL confT.Topic confT.QoS]
    ∧ (twoTopicManager.reconnect allFail).failures = 2
    ∧ (twoTopicManager.reconnect allFail).manager = twoTopicManager
    ∧ (twoTopicConnector.connected confT.URL allFail).state = twoTopicConnector
    ∧ (twoTopicConnector.connected confT.URL allFail).calls = twoTopicManager.onConnectHandler :=
  ⟨by decide, by decide, by decide,
    (C27_on_connect_resubscribes_and_changes_nothing twoTopicManager allFail).1,
    ((C27_on_connect_resubscribes_and_changes_nothing twoTopicManager allFail).2.2.2.2.2
      twoTopicConnector confT.URL).1,
    ((C27_on_connect_resubscribes_and_changes_nothing twoTopicManager allFail).2.2.2.2.2
      twoTopicConnector confT.URL).2 (by decide)⟩

/-! ## The mutex -/

theorem guarded_held (accesses : List StateMap) :
    guarded true (accesses.map MutexEvent.access ++ [MutexEvent.unlock]) = true := by
  induction accesses with
  | nil => rfl
  | cons f rest ih => simpa [guarded] using ih

/-- C28: the notification handlers and the retry sweep access the maps between
`Lock` and `Unlock`, but `onMessage` reads and writes the cache, and the startup
loop of `NewMQTTConnector` reads the manager map and writes the failed
registrations, on code paths that never take the mutex. -/
theorem C28_message_handler_and_startup_hold_no_mutex :
    (∀ accesses : List StateMap, guarded false (lockedPath accesses) = true)
    ∧ Subscription.entryEvents catalogAll connectorWithX.cache entryForX
        = [MutexEvent.access StateMap.cache, MutexEvent.access StateMap.cache]
    ∧ guarded false (Subscription.entryEvents catalogAll connectorWithX.cache entryForX) = false
    ∧ MQTTConnector.empty.listedEvents allFail dsX
        = [MutexEvent.access StateMap.managers, MutexEvent.access StateMap.failedRegistrations]
    ∧ guarded false (MQTTConnector.empty.listedEvents allFail dsX) = false :=
  ⟨fun accesses => by simpa [lockedPath, guarded] using guarded_held accesses,
    by decide, by decide, by decide, by decide⟩

/-! ## Frames of register and unregister -/

theorem find_some_mem {V : Type} (m : Dict V) (k : String) (v : V)
    (h : Dict.find m k = some v) : (k, v) ∈ m := by
  induction m with
  | nil => simp [Dict.find] at h
  | cons p m ih =>
    obtain ⟨a, b⟩ := p
    by_cases hk : k = a
    · subst hk
      simp only [Dict.find, if_true, Option.some.injEq] at h
      subst h
      exact List.mem_cons_self _ _
    · simp only [Dict.find, hk, if_false] at h
      exact List.mem_cons_of_mem _ (ih h)

theorem dropIfEmpty_failedRegistrations (c : MQTTConnector) (url : String) (m : Manager)
    (calls : List BrokerCall) :
    (c.dropIfEmpty url m calls).state.failedRegistrations = c.failedRegistrations := by
  unfold MQTTConnector.dropIfEmpty
  split <;> rfl

theorem unregister_failedRegistrations (c : MQTTConnector) (ok : BrokerCall → Bool)
    (conf : MQTTConf) :
    (c.unregister ok conf).state.failedRegistrations = c.failedRegistrations := by
  unfold MQTTConnector.unregister
  split
  · rfl
  · split
    · rfl
    · dsimp only
      split
      · split
        · exact dropIfEmpty_failedRegistrations _ _ _ _
        · rfl
      · exact dropIfEmpty_failedRegistrations _ _ _ _

theorem register_find_other (c : MQTTConnector) (ok : BrokerCall → Bool) (conf : MQTTConf)
    (url : String) (h : url ≠ conf.URL) :
    (c.register ok conf).state.managers.find url = c.managers.find url := by
  unfold MQTTConnector.register
  split
  · dsimp only
    split
    · exact Dict.find_put_other _ _ _ _ h
    · rfl
  · split
    · dsimp only
      split
      · exact Dict.find_put_other _ _ _ _ h
      · rfl
    · exact Dict.find_put_other _ _ _ _ h

theorem dropIfEmpty_find_other (c : MQTTConnector) (url : String) (m : Manager)
    (calls : List BrokerCall) (u : String) (h : u ≠ url) :
    (c.dropIfEmpty url m calls).state.managers.find u = c.managers.find u := by
  unfold MQTTConnector.dropIfEmpty
  split
  · exact Dict.find_remove_other _ _ _ h
  · exact Dict.find_put_other _ _ _ _ h

theorem unregister_find_other (c : MQTTConnector) (ok : BrokerCall → Bool) (conf : MQTTConf)
    (url : String) (h : url ≠ conf.URL) :
    (c.unregister ok conf).state.managers.find url = c.managers.find url := by
  unfold MQTTConnector.unregister
  split
  · rfl
  · split
    · rfl
    · dsimp only
      split
      · split
        · exact dropIfEmpty_find_other _ _ _ _ _ h
        · exact Dict.find_put_other _ _ _ _ h
      · exact dropIfEmpty_find_other _ _ _ _ _ h

theorem dropIfEmpty_subscription (c : MQTTConnector) (url : String) (m : Manager)
    (calls : List BrokerCall) (t : String) :
    (c.dropIfEmpty url m calls).state.subscription url t = m.subscriptions.find t := by
  unfold MQTTConnector.dropIfEmpty
  split
  · rename_i hlen
    have hnil : m.subscriptions = [] := List.length_eq_zero.mp hlen
    simp [MQTTConnector.subscription, Dict.find_remove_same, hnil, Dict.find]
  · simp [MQTTConnector.subscription, Dict.find_put_same]

theorem register_subscription_other (c : MQTTConnector) (ok : BrokerCall → Bool)
    (conf : MQTTConf) (topic : String) (h : topic ≠ conf.Topic) :
    (c.register ok conf).state.subscription conf.URL topic = c.subscription conf.URL topic := by
  cases hm : c.managers.find conf.URL with
  | none =>
    by_cases hok : ok (.connect conf.URL) = true
    · simp [MQTTConnector.register, MQTTConnector.subscription, hm, hok, Dict.find_put_same,
        Dict.put, Dict.find, h]
    · simp [MQTTConnector.register, MQTTConnector.subscription, hm, hok]
  | some m =>
    cases hs : m.subscriptions.find conf.Topic with
    | none =>
      by_cases hok : ok (.subscribe m.url conf.Topic conf.QoS) = true
      · simp [MQTTConnector.register, MQTTConnector.subscription, hm, hs, hok,
          Dict.find_put_same, Dict.find_put_other _ _ _ _ h]
      · simp [MQTTConnector.register, MQTTConnector.subscription, hm, hs, hok]
    | some s =>
      simp [MQTTConnector.register, MQTTConnector.subscription, hm, hs, Dict.find_put_same,
        Dict.find_put_other _ _ _ _ h]

theorem unregister_subscription_other (c : MQTTConnector) (ok : BrokerCall → Bool)
    (conf : MQTTConf) (topic : String) (h : topic ≠ conf.Topic) :
    (c.unregister ok conf).state.subscription conf.URL topic
      = c.subscription conf.URL topic := by
  cases hm : c.managers.find conf.URL with
  | none => simp [MQTTConnector.unregister, hm]
  | some m =>
    cases hs : m.subscriptions.find conf.Topic with
    | none => simp [MQTTConnector.unregister, hm, hs]
    | some s =>
      have hc : c.subscription conf.URL topic = m.subscriptions.find topic := by
        simp [MQTTConnector.subscription, hm]
      rw [hc]
      unfold MQTTConnector.unregister
      simp only [hm, hs]
      split
      · split
        · rw [dropIfEmpty_subscription]
          simp [Dict.find_remove_other _ _ _ h, Dict.find_put_other _ _ _ _ h]
        · simp [MQTTConnector.subscription, Dict.find_put_same,
            Dict.find_put_other _ _ _ _ h]
      · rw [dropIfEmpty_subscription]
        simp [Dict.find_put_other _ _ _ _ h]

/-- C32: `register(conf)` and `unregister(conf)`, whatever the broker answers
(success, error and panic alike), leave the manager stored under every other
url as it was, leave the subscription stored under every other topic of the
url of `conf` as it was (topic, qos and receiver count), and leave the
resolution cache and the failed registrations untouched. -/
theorem C32_register_unregister_frame (c : MQTTConnector) (ok : BrokerCall → Bool)
    (conf : MQTTConf) (url topic : String) (hurl : url ≠ conf.URL)
    (htopic : topic ≠ conf.Topic) :
    ((c.register ok conf).state.managers.find url = c.managers.find url
      ∧ (c.register ok conf).state.subscription conf.URL topic = c.subscription conf.URL topic
      ∧ (c.register ok conf).state.cache = c.cache
      ∧ (c.register ok conf).state.failedRegistrations = c.failedRegistrations)
    ∧ ((c.unregister ok conf).state.managers.find url = c.managers.find url
      ∧ (c.unregister ok conf).state.subscription conf.URL topic
          = c.subscription conf.URL topic
      ∧ (c.unregister ok conf).state.cache = c.cache
      ∧ (c.unregister ok conf).state.failedRegistrations = c.failedRegistrations) :=
  ⟨⟨register_find_other c ok conf url hurl, register_subscription_other c ok conf topic htopic,
      register_cache c ok conf, register_failedRegistrations c ok conf⟩,
    unregister_find_other c ok conf url hurl,
    unregister_subscription_other c ok conf topic htopic,
    unregister_cache c ok conf, unregister_failedRegistrations c ok conf⟩

/-- C32 on `twoBrokerConnector`: around `register(confT)` with a failing broker
and around the `unregister(confT)` that removes the subscription, the manager
of the other broker and the subscription for the other topic stay as they
were. -/
theorem C32_register_unregister_frame_witness :
    confElsewhere.URL ≠ confT.URL ∧ confOther.Topic ≠ confT.Topic
    ∧ ((twoBrokerConnector.register allFail confT).state.managers.find confElsewhere.URL
          = twoBrokerConnector.managers.find confElsewhere.URL
      ∧ (twoBrokerConnector.register allFail confT).state.subscription confT.URL confOther.Topic
          = twoBrokerConnector.subscription confT.URL confOther.Topic
      ∧ (twoBrokerConnector.register allFail confT).state.cache = twoBrokerConnector.cache
      ∧ (twoBrokerConnector.register allFail confT).state.failedRegistrations
          = twoBrokerConnector.failedRegistrations)
    ∧ ((twoBrokerConnector.unregister allOk confT).state.managers.find confElsewhere.URL
          = twoBrokerConnector.managers.find confElsewhere.URL
      ∧ (twoBrokerConnector.unregister allOk confT).state.subscription confT.URL confOther.Topic
          = twoBrokerConnector.subscription confT.URL confOther.Topic
      ∧ (twoBrokerConnector.unregister allOk confT).state.cache = twoBrokerConnector.cache
      ∧ (twoBrokerConnector.unregister allOk confT).state.failedRegistrations
          = twoBrokerConnector.failedRegistrations)
    ∧ twoBrokerConnector.subscription confT.URL confOther.Topic = some (subscriptionOf confOther)
    ∧ (twoBrokerConnector.unregister allOk confT).state.subscription confT.URL confT.Topic
        = none :=
  ⟨by decide, by decide,
    (C32_register_unregister_frame twoBrokerConnector allFail confT confElsewhere.URL
      confOther.Topic (by decide) (by decide)).1,
    (C32_register_unregister_frame twoBrokerConnector allOk confT confElsewhere.URL
      confOther.Topic (by decide) (by decide)).2,
    by decide, by decide⟩

/-! ## Register followed by unregister -/

theorem subscriptions_ne_nil_of_noIdle (c : MQTTConnector) (url : String) (m : Manager)
    (hc : c.NoIdleManager) (hm : c.managers.find url = some m) : m.subscriptions ≠ [] := by
  have h := hc (url, m) (find_some_mem _ _ _ hm)
  intro e
  simp [e] at h

theorem remove_of_find_none {V : Type} (m : Dict V) (k : String)
    (h : Dict.find m k = none) : Dict.remove m k = m := by
  induction m with
  | nil => rfl
  | cons p m ih =>
    obtain ⟨a, b⟩ := p
    by_cases hk : k = a
    · simp [Dict.find, hk] at h
    · simp only [Dict.find, hk, if_false] at h
      simp [Dict.remove, hk, ih h]

theorem register_unregister_fresh (c : MQTTConnector) (conf : MQTTConf)
    (hm : c.managers.find conf.URL = none) :
    (c.register allOk conf).ret = Ret.nil
    ∧ ((c.register allOk conf).state.unregister allOk conf).ret = Ret.nil
    ∧ ((c.register allOk conf).state.unregister allOk conf).state = c := by
  rw [register_fresh c conf hm, unregister_last c conf hm]
  exact ⟨rfl, rfl, rfl⟩

theorem dropIfEmpty_ret (c : MQTTConnector) (url : String) (m : Manager)
    (calls : List BrokerCall) : (c.dropIfEmpty url m calls).ret = Ret.nil := by
  unfold MQTTConnector.dropIfEmpty
  split <;> rfl

theorem register_unregister_other (c : MQTTConnector) (ok1 ok2 : BrokerCall → Bool)
    (conf : MQTTConf) (url topic : String) (h : url ≠ conf.URL ∨ topic ≠ conf.Topic) :
    ((c.register ok1 conf).state.unregister ok2 conf).state.subscription url topic
      = c.subscription url topic := by
  by_cases hu : url = conf.URL
  · subst hu
    have ht : topic ≠ conf.Topic := by
      rcases h with h | h
      · exact absurd rfl h
      · exact h
    rw [unregister_subscription_other _ _ _ _ ht, register_subscription_other _ _ _ _ ht]
  · unfold MQTTConnector.subscription
    rw [unregister_find_other _ _ _ _ hu, register_find_other _ _ _ _ hu]

theorem register_unregister_new_topic (c : MQTTConnector) (conf : MQTTConf) (m : Manager)
    (hm : c.managers.find conf.URL = some m) (hs : m.subscriptions.find conf.Topic = none) :
    (c.register allOk conf).ret = Ret.nil
    ∧ ((c.register allOk conf).state.unregister allOk conf).ret = Ret.nil
    ∧ ((c.register allOk conf).state.unregister allOk conf).state.subscription
        conf.URL conf.Topic = none
    ∧ (m.subscriptions ≠ [] →
        ((c.register allOk conf).state.unregister allOk conf).state = c) := by
  have hreg : c.register allOk conf
      = Step.mk
          (MQTTConnector.mk
            (c.managers.put conf.URL
              (Manager.mk m.url (m.subscriptions.put conf.Topic (subscriptionOf conf))))
            c.cache c.failedRegistrations)
          [.subscribe m.url conf.Topic conf.QoS] Ret.nil := by
    simp [MQTTConnector.register, hm, hs, allOk, subscriptionOf]
  have hun := unregister_last_receiver (c.register allOk conf).state allOk conf
    (Manager.mk m.url (m.subscriptions.put conf.Topic (subscriptionOf conf)))
    (subscriptionOf conf)
    (by rw [hreg]; exact Dict.find_put_same _ _ _)
    (Dict.find_put_same _ _ _) rfl rfl
  refine ⟨by rw [hreg], ?_, ?_, ?_⟩
  · rw [hun]
    exact dropIfEmpty_ret _ _ _ _
  · rw [hun, dropIfEmpty_subscription]
    exact Dict.find_remove_same _ _
  · intro hne
    have hlen : ¬ m.subscriptions.length = 0 := fun e => hne (List.length_eq_zero.mp e)
    have hback : Dict.put c.managers conf.URL m = c.managers := put_find_self _ _ _ hm
    rw [hun, hreg]
    simp [MQTTConnector.dropIfEmpty, remove_put_same, remove_of_find_none _ _ hs, hlen,
      Dict.put_put, hback]

theorem register_unregister_held (c : MQTTConnector) (conf : MQTTConf) (m : Manager)
    (s : Subscription)
    (hm : c.managers.find conf.URL = some m) (hs : m.subscriptions.find conf.Topic = some s)
    (hk : 1 ≤ s.receivers) :
    (c.register allOk conf).ret = Ret.nil
    ∧ ((c.register allOk conf).state.unregister allOk conf).ret = Ret.nil
    ∧ ((c.register allOk conf).state.unregister allOk conf).state = c := by
  have h0 : ¬ s.receivers = 0 := by omega
  have hnil : ¬ m.subscriptions = [] := fun e => by simp [e, Dict.find] at hs
  have hsub : Dict.put m.subscriptions conf.Topic s = m.subscriptions :=
    put_find_self _ _ _ hs
  have hback : Dict.put c.managers conf.URL m = c.managers := put_find_self _ _ _ hm
  have hs1 : (⟨s.url, s.topic, s.qos, s.receivers + 1 - 1⟩ : Subscription) = s := by
    cases s
    simp
  simp [MQTTConnector.register, MQTTConnector.unregister, MQTTConnector.dropIfEmpty, hm, hs,
    Dict.find_put_same, h0, hnil, Dict.put_put, hs1, hsub, hback]

/-- C31: in a connector state in which the subscription for the pair of `conf`
is absent or has at least one receiver, `register(conf)` followed by
`unregister(conf)`, with every broker call succeeding, returns nil twice and
leaves under every url and topic the subscription that was there, with its
receiver count. In a state in which no manager is idle (every reachable state
is such a state) the two calls restore the state itself, so the manager map has
the urls it had; the one thing they can change otherwise is to drop an idle
manager of the url of `conf`. -/
theorem C31_register_then_unregister_restores (c : MQTTConnector) (conf : MQTTConf)
    (hheld : c.subscription conf.URL conf.Topic = none
      ∨ 1 ≤ c.receiverCount conf.URL conf.Topic) :
    (c.register allOk conf).ret = Ret.nil
    ∧ ((c.register allOk conf).state.unregister allOk conf).ret = Ret.nil
    ∧ (∀ url topic,
        ((c.register allOk conf).state.unregister allOk conf).state.subscription url topic
          = c.subscription url topic)
    ∧ (∀ url, url ≠ conf.URL →
        ((c.register allOk conf).state.unregister allOk conf).state.managers.find url
          = c.managers.find url)
    ∧ (c.NoIdleManager →
        ((c.register allOk conf).state.unregister allOk conf).state = c
        ∧ ((c.register allOk conf).state.unregister allOk conf).state.managers
            = c.managers) := by
  have key : (c.register allOk conf).ret = Ret.nil
      ∧ ((c.register allOk conf).state.unregister allOk conf).ret = Ret.nil
      ∧ ((c.register allOk conf).state.unregister allOk conf).state.subscription
          conf.URL conf.Topic = c.subscription conf.URL conf.Topic
      ∧ (c.NoIdleManager →
          ((c.register allOk conf).state.unregister allOk conf).state = c) := by
    cases hm : c.managers.find conf.URL with
    | none =>
      obtain ⟨h1, h2, h3⟩ := register_unregister_fresh c conf hm
      exact ⟨h1, h2, by rw [h3], fun _ => h3⟩
    | some m =>
      cases hs : m.subscriptions.find conf.Topic with
      | none =>
        obtain ⟨h1, h2, h3, h4⟩ := register_unregister_new_topic c conf m hm hs
        refine ⟨h1, h2, ?_, fun hidle => h4 (subscriptions_ne_nil_of_noIdle c conf.URL m hidle hm)⟩
        rw [h3]
        simp [MQTTConnector.subscription, hm, hs]
      | some s =>
        have hk : 1 ≤ s.receivers := by
          rcases hheld with h | h
          · simp [MQTTConnector.subscription, hm, hs] at h
          · simpa [MQTTConnector.receiverCount, MQTTConnector.subscription, hm, hs] using h
        obtain ⟨h1, h2, h3⟩ := register_unregister_held c conf m s hm hs hk
        exact ⟨h1, h2, by rw [h3], fun _ => h3⟩
  refine ⟨key.1, key.2.1, fun url topic => ?_, fun url hu => ?_, fun hidle => ?_⟩
  · by_cases h : url = conf.URL ∧ topic = conf.Topic
    · obtain ⟨rfl, rfl⟩ := h
      exact key.2.2.1
    · exact register_unregister_other c allOk allOk conf url topic (by tauto)
  · rw [unregister_find_other _ _ _ _ hu, register_find_other _ _ _ _ hu]
  · exact ⟨key.2.2.2 hidle, by rw [key.2.2.2 hidle]⟩

/-- C31 on two states: `confT` registered and unregistered on the connector
that already holds it with one receiver, and on the connector whose manager
tracks only the other topic. -/
theorem C31_register_then_unregister_restores_witness :
    (twoTopicConnector.NoIdleManager
      ∧ (twoTopicConnector.subscription confT.URL confT.Topic = none
        ∨ 1 ≤ twoTopicConnector.receiverCount confT.URL confT.Topic)
      ∧ (twoTopicConnector.register allOk confT).state.receiverCount confT.URL confT.Topic = 2
      ∧ ((twoTopicConnector.register allOk confT).state.unregister allOk confT).state
          = twoTopicConnector)
    ∧ ((MQTTConnector.empty.withShared confOther 1).NoIdleManager
      ∧ ((MQTTConnector.empty.withShared confOther 1).subscription confT.URL confT.Topic = none
        ∨ 1 ≤ (MQTTConnector.empty.withShared confOther 1).receiverCount confT.URL confT.Topic)
      ∧ (((MQTTConnector.empty.withShared confOther 1).register allOk confT).state.unregister
            allOk confT).state.managers
          = (MQTTConnector.empty.withShared confOther 1).managers) :=
  ⟨⟨by unfold MQTTConnector.NoIdleManager; decide, by decide, by decide,
      ((C31_register_then_unregister_restores twoTopicConnector confT (by decide)).2.2.2.2
        (by unfold MQTTConnector.NoIdleManager; decide)).1⟩,
    by unfold MQTTConnector.NoIdleManager; decide, by decide,
    ((C31_register_then_unregister_restores (MQTTConnector.empty.withShared confOther 1) confT
      (by decide)).2.2.2.2 (by unfold MQTTConnector.NoIdleManager; decide)).2⟩

/-! ## Records and the keys they are stored under -/

theorem keysAgree_put (c : MQTTConnector) (url : String) (m : Manager)
    (hc : c.KeysAgree) (hm : m.KeysAgree url) :
    MQTTConnector.KeysAgree { c with managers := c.managers.put url m } := by
  intro p hp
  rcases Dict.mem_put _ _ _ _ hp with h | h
  · exact hc p h
  · subst h
    exact hm

theorem keysAgree_remove (c : MQTTConnector) (url : String) (hc : c.KeysAgree) :
    MQTTConnector.KeysAgree { c with managers := c.managers.remove url } :=
  fun p hp => hc p (Dict.mem_remove _ _ _ hp)

theorem manager_keysAgree_put (m : Manager) (u t : String) (s : Subscription)
    (hm : m.KeysAgree u) (hs : s.url = u ∧ s.topic = t) :
    Manager.KeysAgree { m with subscriptions := m.subscriptions.put t s } u := by
  refine ⟨hm.1, fun q hq => ?_⟩
  rcases Dict.mem_put _ _ _ _ hq with h | h
  · exact hm.2 q h
  · subst h
    exact hs

theorem manager_keysAgree_remove (m : Manager) (u t : String) (hm : m.KeysAgree u) :
    Manager.KeysAgree { m with subscriptions := m.subscriptions.remove t } u :=
  ⟨hm.1, fun q hq => hm.2 q (Dict.mem_remove _ _ _ hq)⟩

theorem keysAgree_register (c : MQTTConnector) (ok : BrokerCall → Bool) (conf : MQTTConf)
    (hc : c.KeysAgree) : (c.register ok conf).state.KeysAgree := by
  cases hm : c.managers.find conf.URL with
  | none =>
    have hnew : Manager.KeysAgree
        { url := conf.URL
          subscriptions := Dict.put [] conf.Topic
            { url := conf.URL, topic := conf.Topic, qos := conf.QoS, receivers := 1 } }
        conf.URL := by
      refine ⟨rfl, fun q hq => ?_⟩
      simp only [Dict.put, List.mem_singleton] at hq
      subst hq
      exact ⟨rfl, rfl⟩
    unfold MQTTConnector.register
    simp only [hm]
    split
    · exact keysAgree_put c _ _ hc hnew
    · exact hc
  | some m =>
    have hmk : m.KeysAgree conf.URL := hc (conf.URL, m) (find_some_mem _ _ _ hm)
    cases hs : m.subscriptions.find conf.Topic with
    | none =>
      unfold MQTTConnector.register
      simp only [hm, hs]
      split
      · exact keysAgree_put c _ _ hc (manager_keysAgree_put m _ _ _ hmk ⟨rfl, rfl⟩)
      · exact hc
    | some s =>
      have hsk := hmk.2 (conf.Topic, s) (find_some_mem _ _ _ hs)
      unfold MQTTConnector.register
      simp only [hm, hs]
      exact keysAgree_put c _ _ hc (manager_keysAgree_put m _ _ _ hmk ⟨hsk.1, hsk.2⟩)

theorem keysAgree_dropIfEmpty (c : MQTTConnector) (url : String) (m : Manager)
    (calls : List BrokerCall) (hc : c.KeysAgree) (hm : m.KeysAgree url) :
    (c.dropIfEmpty url m calls).state.KeysAgree := by
  unfold MQTTConnector.dropIfEmpty
  split
  · exact keysAgree_remove c url hc
  · exact keysAgree_put c url m hc hm

theorem keysAgree_unregister (c : MQTTConnector) (ok : BrokerCall → Bool) (conf : MQTTConf)
    (hc : c.KeysAgree) : (c.unregister ok conf).state.KeysAgree := by
  cases hm : c.managers.find conf.URL with
  | none => simpa [MQTTConnector.unregister, hm] using hc
  | some m =>
    have hmk : m.KeysAgree conf.URL := hc (conf.URL, m) (find_some_mem _ _ _ hm)
    cases hs : m.subscriptions.find conf.Topic with
    | none => simpa [MQTTConnector.unregister, hm, hs] using hc
    | some s =>
      have hsk := hmk.2 (conf.Topic, s) (find_some_mem _ _ _ hs)
      have hlow : Manager.KeysAgree
          { m with subscriptions :=
              m.subscriptions.put conf.Topic { s with receivers := s.receivers - 1 } }
          conf.URL :=
        manager_keysAgree_put m _ _ _ hmk ⟨hsk.1, hsk.2⟩
      unfold MQTTConnector.unregister
      simp only [hm, hs]
      split
      · split
        · exact keysAgree_dropIfEmpty c _ _ _ hc (manager_keysAgree_remove _ _ _ hlow)
        · exact keysAgree_put c _ _ hc hlow
      · exact keysAgree_dropIfEmpty c _ _ _ hc hlow

theorem keysAgree_run (ops : List Op) (c : MQTTConnector) (hc : c.KeysAgree) :
    (c.run ops).KeysAgree := by
  induction ops generalizing c with
  | nil => exact hc
  | cons o os ih =>
    apply ih
    unfold Op.step
    split
    · exact keysAgree_register c _ _ hc
    · exact keysAgree_unregister c _ _ hc

theorem nodup_keys_put {V : Type} (m : Dict V) (k : String) (v : V)
    (h : (m.map Prod.fst).Nodup) : ((Dict.put m k v).map Prod.fst).Nodup := by
  induction m with
  | nil => simp [Dict.put]
  | cons p m ih =>
    obtain ⟨a, b⟩ := p
    simp only [List.map_cons, List.nodup_cons] at h
    by_cases hk : k = a
    · subst hk
      simpa [Dict.put] using h
    · simp only [Dict.put, hk, if_false, List.map_cons, List.nodup_cons]
      refine ⟨fun hmem => ?_, ih h.2⟩
      obtain ⟨q, hq, hqa⟩ := List.mem_map.mp hmem
      rcases Dict.mem_put _ _ _ _ hq with h1 | h1
      · exact h.1 (List.mem_map.mpr ⟨q, h1, hqa⟩)
      · subst h1
        exact hk hqa

theorem nodup_keys_remove {V : Type} (m : Dict V) (k : String)
    (h : (m.map Prod.fst).Nodup) : ((Dict.remove m k).map Prod.fst).Nodup := by
  rw [remove_eq_filter]
  exact h.sublist ((List.filter_sublist _).map Prod.fst)

theorem uniqueKeys_put (c : MQTTConnector) (url : String) (m : Manager)
    (hc : c.UniqueKeys) (hm : (m.subscriptions.map Prod.fst).Nodup) :
    MQTTConnector.UniqueKeys { c with managers := c.managers.put url m } := by
  refine ⟨nodup_keys_put _ _ _ hc.1, fun p hp => ?_⟩
  rcases Dict.mem_put _ _ _ _ hp with h | h
  · exact hc.2 p h
  · subst h
    exact hm

theorem uniqueKeys_remove (c : MQTTConnector) (url : String) (hc : c.UniqueKeys) :
    MQTTConnector.UniqueKeys { c with managers := c.managers.remove url } :=
  ⟨nodup_keys_remove _ _ hc.1, fun p hp => hc.2 p (Dict.mem_remove _ _ _ hp)⟩

theorem uniqueKeys_register (c : MQTTConnector) (ok : BrokerCall → Bool) (conf : MQTTConf)
    (hc : c.UniqueKeys) : (c.register ok conf).state.UniqueKeys := by
  cases hm : c.managers.find conf.URL with
  | none =>
    unfold MQTTConnector.register
    simp only [hm]
    split
    · exact uniqueKeys_put c _ _ hc (by simp [Dict.put])
    · exact hc
  | some m =>
    have hmk := hc.2 (conf.URL, m) (find_some_mem _ _ _ hm)
    cases hs : m.subscriptions.find conf.Topic with
    | none =>
      unfold MQTTConnector.register
      simp only [hm, hs]
      split
      · exact uniqueKeys_put c _ _ hc (nodup_keys_put _ _ _ hmk)
      · exact hc
    | some s =>
      unfold MQTTConnector.register
      simp only [hm, hs]
      exact uniqueKeys_put c _ _ hc (nodup_keys_put _ _ _ hmk)

theorem uniqueKeys_dropIfEmpty (c : MQTTConnector) (url : String) (m : Manager)
    (calls : List BrokerCall) (hc : c.UniqueKeys) (hm : (m.subscriptions.map Prod.fst).Nodup) :
    (c.dropIfEmpty url m calls).state.UniqueKeys := by
  unfold MQTTConnector.dropIfEmpty
  split
  · exact uniqueKeys_remove c url hc
  · exact uniqueKeys_put c url m hc hm

theorem uniqueKeys_unregister (c : MQTTConnector) (ok : BrokerCall → Bool) (conf : MQTTConf)
    (hc : c.UniqueKeys) : (c.unregister ok conf).state.UniqueKeys := by
  cases hm : c.managers.find conf.URL with
  | none => simpa [MQTTConnector.unregister, hm] using hc
  | some m =>
    have hmk := hc.2 (conf.URL, m) (find_some_mem _ _ _ hm)
    cases hs : m.subscriptions.find conf.Topic with
    | none => simpa [MQTTConnector.unregister, hm, hs] using hc
    | some s =>
      unfold MQTTConnector.unregister
      simp only [hm, hs]
      split
      · split
        · exact uniqueKeys_dropIfEmpty c _ _ _ hc
            (nodup_keys_remove _ _ (nodup_keys_put _ _ _ hmk))
        · exact uniqueKeys_put c _ _ hc (nodup_keys_put _ _ _ hmk)
      · exact uniqueKeys_dropIfEmpty c _ _ _ hc (nodup_keys_put _ _ _ hmk)

theorem uniqueKeys_run (ops : List Op) (c : MQTTConnector) (hc : c.UniqueKeys) :
    (c.run ops).UniqueKeys := by
  induction ops generalizing c with
  | nil => exact hc
  | cons o os ih =>
    apply ih
    unfold Op.step
    split
    · exact uniqueKeys_register c _ _ hc
    · exact uniqueKeys_unregister c _ _ hc

/-- C33: in every state reached from the empty connector by a run of `register`
and `unregister` calls, whatever the broker answers, the manager `m` stored
under the url `u` has `url = u`, every subscription stored in `m` under a topic
`t` has `url = u` and `topic = t`, and no url is stored twice in the manager
map and no topic twice in `m` (one manager per url, one subscription per
pair). -/
theorem C33_stored_records_carry_their_keys (ops : List Op) (u : String) (m : Manager)
    (hm : (MQTTConnector.empty.run ops).managers.find u = some m) :
    m.url = u
    ∧ (∀ t s, m.subscriptions.find t = some s → s.url = u ∧ s.topic = t)
    ∧ ((MQTTConnector.empty.run ops).managers.map Prod.fst).Nodup
    ∧ (m.subscriptions.map Prod.fst).Nodup := by
  have hk : (MQTTConnector.empty.run ops).KeysAgree :=
    keysAgree_run ops MQTTConnector.empty (fun _ hp => by simp [MQTTConnector.empty] at hp)
  have hu : (MQTTConnector.empty.run ops).UniqueKeys :=
    uniqueKeys_run ops MQTTConnector.empty
      ⟨by simp [MQTTConnector.empty], fun _ hp => by simp [MQTTConnector.empty] at hp⟩
  have hmem := find_some_mem _ _ _ hm
  refine ⟨(hk _ hmem).1, fun t s hs => ?_, hu.1, hu.2 _ hmem⟩
  exact (hk _ hmem).2 (t, s) (find_some_mem _ _ _ hs)

/-- C33 on the run `twoBrokerRun`: the manager left under the url of `confT`
tracks the other topic only, and carries that url. -/
theorem C33_stored_records_carry_their_keys_witness :
    (MQTTConnector.empty.run twoBrokerRun).managers.find confT.URL
        = some (sharedManager confOther 1)
    ∧ (sharedManager confOther 1).url = confT.URL
    ∧ (∀ t s, (sharedManager confOther 1).subscriptions.find t = some s →
        s.url = confT.URL ∧ s.topic = t)
    ∧ ((MQTTConnector.empty.run twoBrokerRun).managers.map Prod.fst).Nodup
    ∧ ((sharedManager confOther 1).subscriptions.map Prod.fst).Nodup :=
  ⟨by decide, C33_stored_records_carry_their_keys twoBrokerRun confT.URL
    (sharedManager confOther 1) (by decide)⟩

/-! ## Pages of a key slice -/

theorem window_min (slice : List String) (l r : Nat) :
    window slice (min l slice.length) (min r slice.length) = window slice l r := by
  unfold window
  have h1 : slice.take (min r slice.length) = slice.take r := by
    rcases Nat.le_total r slice.length with h | h
    · rw [Nat.min_eq_left h]
    · rw [Nat.min_eq_right h, List.take_of_length_le (le_refl _), List.take_of_length_le h]
  rw [h1]
  rcases Nat.le_total l slice.length with h | h
  · rw [Nat.min_eq_left h]
  · rw [Nat.min_eq_right h]
    have hlen : (slice.take r).length ≤ slice.length := by
      rw [List.length_take]
      exact Nat.min_le_right _ _
    rw [List.drop_eq_nil_of_le hlen, List.drop_eq_nil_of_le (le_trans hlen h)]

theorem sliceRange_window (slice : List String) (l r : Nat) (hlr : l ≤ r)
    (hr : r ≤ slice.length) :
    sliceRange slice (l : Int) (r : Int) = some (window slice l r) := by
  unfold sliceRange window
  have h : (0 : Int) ≤ (l : Int) ∧ (l : Int) ≤ (r : Int) ∧ (r : Int) ≤ (slice.length : Int) :=
    ⟨by omega, by omega, by omega⟩
  simp [h]

theorem getPageOfSlice_first (slice : List String) (page perPage maxPerPage : Int)
    (hper : 0 ≤ perPage) (hmax : 1 ≤ maxPerPage) (hpage : page ≤ 1) :
    getPageOfSlice slice page perPage maxPerPage
      = some (window slice 0 (effectivePerPage perPage maxPerPage)) := by
  obtain ⟨pp, hpp⟩ : ∃ pp : Nat,
      (if perPage = 0 ∨ perPage > maxPerPage then maxPerPage else perPage) = (pp : Int) := by
    refine ⟨(if perPage = 0 ∨ perPage > maxPerPage then maxPerPage else perPage).toNat, ?_⟩
    rw [Int.toNat_of_nonneg]
    split <;> omega
  have hpp1 : 1 ≤ pp := by
    split at hpp <;> omega
  have hppm : (pp : Int) ≤ maxPerPage := by
    split at hpp <;> omega
  have heff : effectivePerPage perPage maxPerPage = pp := by
    unfold effectivePerPage
    rw [hpp]
    rfl
  have hsecond : (if (pp : Int) > maxPerPage ∨ (pp : Int) = 0 then maxPerPage else (pp : Int))
      = (pp : Int) := by
    rw [if_neg]
    omega
  have hfirst : (if page = 0 then (1 : Int) else page) < 2 := by
    split <;> omega
  unfold getPageOfSlice validatePagingParams
  simp only [hpp, hsecond, hfirst, if_true, heff]
  split
  · rename_i h
    unfold window
    rw [List.take_of_length_le (by omega)]
    rfl
  · rename_i h
    have := sliceRange_window slice 0 pp (by omega) (by omega)
    simpa using this

theorem window_eq_nil (slice : List String) (l r : Nat) (h : slice.length ≤ l) :
    window slice l r = [] := by
  unfold window
  apply List.drop_eq_nil_of_le
  rw [List.length_take]
  exact le_trans (Nat.min_le_right _ _) h

theorem window_to_end (slice : List String) (l r : Nat) (h : slice.length ≤ r) :
    window slice l r = window slice l slice.length := by
  unfold window
  rw [List.take_of_length_le h, List.take_of_length_le (le_refl _)]

theorem getPageOfSlice_later (slice : List String) (page perPage maxPerPage : Int)
    (hper : 0 ≤ perPage) (hmax : 1 ≤ maxPerPage) (hpage : 2 ≤ page) :
    getPageOfSlice slice page perPage maxPerPage
      = some (window slice ((page.toNat - 1) * effectivePerPage perPage maxPerPage)
          (page.toNat * effectivePerPage perPage maxPerPage)) := by
  obtain ⟨pp, hpp⟩ : ∃ pp : Nat,
      (if perPage = 0 ∨ perPage > maxPerPage then maxPerPage else perPage) = (pp : Int) := by
    refine ⟨(if perPage = 0 ∨ perPage > maxPerPage then maxPerPage else perPage).toNat, ?_⟩
    rw [Int.toNat_of_nonneg]
    split <;> omega
  have hpp1 : 1 ≤ pp := by
    split at hpp <;> omega
  have hppm : (pp : Int) ≤ maxPerPage := by
    split at hpp <;> omega
  have heff : effectivePerPage perPage maxPerPage = pp := by
    unfold effectivePerPage
    rw [hpp]
    rfl
  have hsecond : (if (pp : Int) > maxPerPage ∨ (pp : Int) = 0 then maxPerPage else (pp : Int))
      = (pp : Int) := by
    rw [if_neg]
    omega
  obtain ⟨pn, hpn⟩ : ∃ pn : Nat, page = (pn : Int) := ⟨page.toNat, by omega⟩
  subst hpn
  have hpn2 : 2 ≤ pn := by omega
  have hzero : ¬ ((pn : Int) = 0) := by omega
  have hnot : ¬ ((pn : Int) < 2) := by omega
  have hpp0 : ¬ ((pp : Int) = 0) := by omega
  have hq : Int.tdiv (slice.length : Int) (pp : Int) = ((slice.length / pp : Nat) : Int) := by
    rw [Int.tdiv_eq_ediv (by omega) (by omega)]
    norm_cast
  have hle : slice.length / pp * pp ≤ slice.length := Nat.div_mul_le_self _ _
  have hlt : slice.length < (slice.length / pp + 1) * pp := by
    have := Nat.lt_div_mul_add (a := slice.length) (b := pp) (by omega)
    rw [Nat.add_mul, Nat.one_mul]
    exact this
  unfold getPageOfSlice validatePagingParams
  simp only [hpp, hsecond, hzero, hnot, if_false, heff, Int.toNat_ofNat]
  simp only [hpp0, if_false, hq]
  by_cases h1 : pn = slice.length / pp + 1
  · have h1i : (pn : Int) = ((slice.length / pp : Nat) : Int) + 1 := by omega
    rw [if_pos h1i]
    have hl : (pp : Int) * ((pn : Int) - 1) = ((slice.length / pp * pp : Nat) : Int) := by
      rw [h1i]
      push_cast
      ring
    rw [hl, sliceRange_window slice _ _ hle (le_refl _)]
    have hpn1 : pn - 1 = slice.length / pp := by omega
    rw [hpn1, window_to_end slice _ (pn * pp) (by rw [h1]; omega)]
  · have h1i : ¬ ((pn : Int) = ((slice.length / pp : Nat) : Int) + 1) := by omega
    rw [if_neg h1i]
    by_cases h2 : pn ≤ slice.length / pp
    · have hmul : pn * pp ≤ slice.length :=
        le_trans (Nat.mul_le_mul_right pp h2) hle
      have hcond : (pn : Int) ≤ ((slice.length / pp : Nat) : Int)
          ∧ (pn : Int) * (pp : Int) ≤ (slice.length : Int) := by
        refine ⟨by omega, ?_⟩
        exact_mod_cast hmul
      rw [if_pos hcond]
      have hsub : (pn - 1) * pp + pp = pn * pp := by
        have : pn = (pn - 1) + 1 := by omega
        conv_rhs => rw [this, Nat.add_mul, Nat.one_mul]
      have hl : (pn : Int) * (pp : Int) - (pp : Int) = (((pn - 1) * pp : Nat) : Int) := by
        have : ((pn * pp : Nat) : Int) = (((pn - 1) * pp + pp : Nat) : Int) := by rw [hsub]
        push_cast at this
        push_cast
        linarith
      have hr : (pn : Int) * (pp : Int) = ((pn * pp : Nat) : Int) := by push_cast; rfl
      simp only [hl]
      rw [hr, sliceRange_window slice _ _ (by omega) hmul]
    · have hcond : ¬ ((pn : Int) ≤ ((slice.length / pp : Nat) : Int)
          ∧ (pn : Int) * (pp : Int) ≤ (slice.length : Int)) := by
        intro h
        omega
      rw [if_neg hcond]
      have hge : slice.length / pp + 1 ≤ pn - 1 := by omega
      have : slice.length ≤ (pn - 1) * pp :=
        le_trans (le_of_lt hlt) (Nat.mul_le_mul_right pp hge)
      rw [window_eq_nil slice _ _ this]

theorem getPageOfSlice_window (slice : List String) (page perPage maxPerPage : Int)
    (hper : 0 ≤ perPage) (hmax : 1 ≤ maxPerPage) :
    getPageOfSlice slice page perPage maxPerPage
      = some (window slice ((effectivePage page - 1) * effectivePerPage perPage maxPerPage)
          (effectivePage page * effectivePerPage perPage maxPerPage)) := by
  by_cases hpage : page ≤ 1
  · have he : effectivePage page = 1 := by
      unfold effectivePage
      rw [max_eq_right hpage]
      rfl
    rw [getPageOfSlice_first slice page perPage maxPerPage hper hmax hpage, he]
    simp
  · have he : effectivePage page = page.toNat := by
      unfold effectivePage
      rw [max_eq_left (by omega)]
    rw [getPageOfSlice_later slice page perPage maxPerPage hper hmax (by omega), he]

theorem effectivePerPage_pos (perPage maxPerPage : Int) (hper : 0 ≤ perPage)
    (hmax : 1 ≤ maxPerPage) :
    1 ≤ effectivePerPage perPage maxPerPage
    ∧ (effectivePerPage perPage maxPerPage : Int) ≤ maxPerPage := by
  unfold effectivePerPage
  split <;> omega

theorem effectivePage_succ (k : Nat) : effectivePage ((k : Int) + 1) = k + 1 := by
  unfold effectivePage
  rw [max_eq_left (by omega)]
  omega

theorem pagesUpTo_take (slice : List String) (perPage maxPerPage : Int)
    (hper : 0 ≤ perPage) (hmax : 1 ≤ maxPerPage) (k : Nat) :
    pagesUpTo slice perPage maxPerPage k
      = some (slice.take (k * effectivePerPage perPage maxPerPage)) := by
  induction k with
  | zero => simp [pagesUpTo]
  | succ k ih =>
    have hpage := getPageOfSlice_window slice ((k : Int) + 1) perPage maxPerPage hper hmax
    rw [effectivePage_succ] at hpage
    simp only [pagesUpTo, ih, hpage, Nat.add_sub_cancel]
    congr 1
    unfold window
    have hle : k * effectivePerPage perPage maxPerPage
        ≤ (k + 1) * effectivePerPage perPage maxPerPage :=
      Nat.mul_le_mul_right _ (Nat.le_succ k)
    have htake : slice.take (k * effectivePerPage perPage maxPerPage)
        = (slice.take ((k + 1) * effectivePerPage perPage maxPerPage)).take
            (k * effectivePerPage perPage maxPerPage) := by
      rw [List.take_take, Nat.min_eq_left hle]
    rw [htake, List.take_append_drop]

theorem ceil_mul_ge (n pp : Nat) (hpp : 1 ≤ pp) : n ≤ (n + pp - 1) / pp * pp := by
  have h := Nat.lt_div_mul_add (a := n + pp - 1) (b := pp) (by omega)
  omega

/-- C34: for a page size `perPage ≥ 0` and a maximum `maxPerPage ≥ 1`,
`getPageOfSlice` returns (without panicking) the window
`slice[min((p-1)*pp, n) : min(p*pp, n)]` of the slice of length `n`, where
`p = max(page, 1)` and `pp` is the maximum if `perPage` is zero or above the
maximum and `perPage` otherwise; the pages `1..ceil(n/pp)` concatenated are the
slice, and every later page is empty. -/
theorem C34_page_is_the_window (slice : List String) (page perPage maxPerPage : Int)
    (hper : 0 ≤ perPage) (hmax : 1 ≤ maxPerPage) :
    getPageOfSlice slice page perPage maxPerPage
      = some (window slice
          (min ((effectivePage page - 1) * effectivePerPage perPage maxPerPage) slice.length)
          (min (effectivePage page * effectivePerPage perPage maxPerPage) slice.length))
    ∧ pagesUpTo slice perPage maxPerPage
        ((slice.length + effectivePerPage perPage maxPerPage - 1)
          / effectivePerPage perPage maxPerPage) = some slice
    ∧ ∀ later : Int,
        (((slice.length + effectivePerPage perPage maxPerPage - 1)
          / effectivePerPage perPage maxPerPage : Nat) : Int) < later →
        getPageOfSlice slice later perPage maxPerPage = some [] := by
  have hpp := (effectivePerPage_pos perPage maxPerPage hper hmax).1
  have hceil := ceil_mul_ge slice.length (effectivePerPage perPage maxPerPage) hpp
  refine ⟨?_, ?_, ?_⟩
  · rw [window_min]
    exact getPageOfSlice_window slice page perPage maxPerPage hper hmax
  · rw [pagesUpTo_take slice perPage maxPerPage hper hmax, List.take_of_length_le hceil]
  · intro later hlater
    generalize (slice.length + effectivePerPage perPage maxPerPage - 1)
      / effectivePerPage perPage maxPerPage = k at hceil hlater
    rw [getPageOfSlice_window slice later perPage maxPerPage hper hmax]
    congr 1
    apply window_eq_nil
    have he : effectivePage later = later.toNat := by
      unfold effectivePage
      rw [max_eq_left (by omega)]
    rw [he]
    refine le_trans hceil (Nat.mul_le_mul_right _ ?_)
    omega

/-- C34 on five keys in pages of two: page 2 is the window `[2:4]`, the three
pages give back the five keys, and page 4 is empty. -/
theorem C34_page_is_the_window_witness :
    (0 : Int) ≤ 2 ∧ (1 : Int) ≤ 100
    ∧ getPageOfSlice fiveKeys 2 2 100 = some ["k3", "k4"]
    ∧ pagesUpTo fiveKeys 2 100 3 = some fiveKeys
    ∧ getPageOfSlice fiveKeys 4 2 100 = some [] :=
  ⟨by decide, by decide,
    (C34_page_is_the_window fiveKeys 2 2 100 (by decide) (by decide)).1,
    (C34_page_is_the_window fiveKeys 2 2 100 (by decide) (by decide)).2.1,
    (C34_page_is_the_window fiveKeys 2 2 100 (by decide) (by decide)).2.2 4 (by decide)⟩
theorem getPageOfSlice_negative (slice : List String) (page perPage maxPerPage : Int)
    (hper : perPage < 0) (hmax : 1 ≤ maxPerPage) (hpage : page ≤ 1) :
    getPageOfSlice slice page perPage maxPerPage = none := by
  have hkeep : (if perPage = 0 ∨ perPage > maxPerPage then maxPerPage else perPage)
      = perPage := by
    rw [if_neg]
    omega
  have hsecond : (if perPage > maxPerPage ∨ perPage = 0 then maxPerPage else perPage)
      = perPage := by
    rw [if_neg]
    omega
  have hfirst : (if page = 0 then (1 : Int) else page) < 2 := by
    split <;> omega
  have hlen : ¬ (perPage > (slice.length : Int)) := by omega
  have hbounds : ¬ ((0 : Int) ≤ 0 ∧ (0 : Int) ≤ perPage ∧ perPage ≤ (slice.length : Int)) := by
    omega
  unfold getPageOfSlice validatePagingParams
  simp only [hkeep, hsecond, hfirst, hlen, if_true, if_false, sliceRange, hbounds]

/-- C35: a negative page size passes `validatePagingParams` unchanged, and on
the first page (page 1, 0 or negative) `getPageOfSlice` then evaluates
`slice[:perPage]` with a negative bound and panics instead of returning keys. -/
theorem C35_negative_page_size_panics :
    validatePagingParams 1 (-1) 100 = (1, -1)
    ∧ getPageOfSlice fiveKeys 1 (-1) 100 = none
    ∧ getPageOfSlice fiveKeys 0 (-1) 100 = none
    ∧ getPageOfSlice fiveKeys (-2) (-1) 100 = none
    ∧ getPageOfSlice [] 1 (-1) 100 = none
    ∧ getPageOfSlice fiveKeys 1 0 100 = some fiveKeys
    ∧ getPageOfSlice fiveKeys 1 2 100 = some ["k1", "k2"] :=
  ⟨by decide, by decide, by decide, by decide, by decide, by decide, by decide⟩

/-! ## Updates of the in-memory storage -/

theorem keys_put_of_find_some {V : Type} (m : Dict V) (k : String) (v old : V)
    (h : Dict.find m k = some old) : (Dict.put m k v).map Prod.fst = m.map Prod.fst := by
  induction m with
  | nil => simp [Dict.find] at h
  | cons p m ih =>
    obtain ⟨a, b⟩ := p
    by_cases hk : k = a
    · simp [Dict.put, hk]
    · simp only [Dict.find, hk, if_false] at h
      simp [Dict.put, hk, ih h]

/-- C36: `update(id, ds)` on a stored id returns nil and stores under `id` the
record with the stored `ID`, `URL` and `Data` and with `Resource`, `Meta`,
`Retention`, `Aggregation`, `Type` and `Format` of `ds`; every other id keeps
its record and no id is added or removed. On an id that is not stored it
returns `ErrorNotFound` and the storage is unchanged. -/
theorem C36_update_keeps_read_only_fields (ms : MemoryStorage) (id : String)
    (ds : registry.DataSource) :
    (∀ old, ms.data.find id = some old →
      (ms.update id ds).2 = none
      ∧ (ms.update id ds).1.data.find id
          = some { ID := old.ID, URL := old.URL, Data := old.Data, Resource := ds.Resource
                   Meta := ds.Meta, Retention := ds.Retention, Aggregation := ds.Aggregation
                   Typ := ds.Typ, Format := ds.Format }
      ∧ (∀ other, other ≠ id → (ms.update id ds).1.data.find other = ms.data.find other)
      ∧ (ms.update id ds).1.data.map Prod.fst = ms.data.map Prod.fst)
    ∧ (ms.data.find id = none →
      (ms.update id ds).2 = some ErrorNotFound ∧ (ms.update id ds).1 = ms) := by
  constructor
  · intro old hold
    refine ⟨?_, ?_, ?_, ?_⟩
    · simp [MemoryStorage.update, hold]
    · simp [MemoryStorage.update, hold, Dict.find_put_same]
    · intro other hne
      simp [MemoryStorage.update, hold, Dict.find_put_other _ _ _ _ hne]
    · simp only [MemoryStorage.update, hold]
      exact keys_put_of_find_some _ _ _ _ hold
  · intro hnone
    simp [MemoryStorage.update, hnone]

/-- C36 on the storage that holds the records added under `a` and `b`: updating
`a` with `submittedB` keeps the id and the two locations that `add` gave to `a`
and leaves `b` alone; updating an id that was never added is refused. -/
theorem C36_update_keeps_read_only_fields_witness :
    storageAB.data.find "a"
        = some { submittedA with ID := "a", URL := "/registry/a", Data := "/data/a" }
    ∧ ((storageAB.update "a" submittedB).2 = none
      ∧ (storageAB.update "a" submittedB).1.data.find "a"
          = some { submittedB with ID := "a", URL := "/registry/a", Data := "/data/a" }
      ∧ (∀ other, other ≠ "a" →
          (storageAB.update "a" submittedB).1.data.find other = storageAB.data.find other)
      ∧ (storageAB.update "a" submittedB).1.data.map Prod.fst = storageAB.data.map Prod.fst)
    ∧ storageAB.data.find "c" = none
    ∧ (storageAB.update "c" submittedB).2 = some ErrorNotFound
    ∧ (storageAB.update "c" submittedB).1 = storageAB :=
  ⟨by decide,
    (C36_update_keeps_read_only_fields storageAB "a" submittedB).1
      { submittedA with ID := "a", URL := "/registry/a", Data := "/data/a" } (by decide),
    by decide,
    (C36_update_keeps_read_only_fields storageAB "c" submittedB).2 (by decide)⟩

/-! ## The entry limit of a datastore query -/

theorem maxEntries_cases (limit perPage : Int) :
    (if limit > 0 ∧ perPage > limit then limit else perPage)
        = (if 0 < limit ∧ limit < perPage then limit else perPage)
    ∧ (if limit > 0 ∧ perPage > limit then limit else perPage) ≤ perPage
    ∧ (0 < limit →
        (if limit > 0 ∧ perPage > limit then limit else perPage) = min perPage limit) := by
  refine ⟨?_, ?_, ?_⟩
  · rfl
  · split <;> omega
  · intro h
    split <;> omega

/-- C39: called with at least one source, `LightdbStorage.Query` reaches the
datastore and passes `MaxEntries = q.Limit` when `0 < q.Limit < q.perPage` and
`MaxEntries = q.perPage` otherwise; so `MaxEntries` never exceeds `q.perPage`,
it is `min(q.perPage, q.Limit)` for a positive limit, and the count returned
is the length of the pack returned (0 with the nil pack of a failed query). -/
theorem C39_max_entries_is_limit_capped_by_page (s : LightdbStorage) (q : Query)
    (first : DataStream) (rest : List DataStream) :
    ∃ r, s.Query q (first :: rest) = some r
      ∧ r.passed.MaxEntries = (if 0 < q.Limit ∧ q.Limit < q.perPage then q.Limit else q.perPage)
      ∧ r.passed.MaxEntries ≤ q.perPage
      ∧ (0 < q.Limit → r.passed.MaxEntries = min q.perPage q.Limit)
      ∧ r.passed.Series = first.Name
      ∧ r.count = r.pack.length := by
  obtain ⟨h1, h2, h3⟩ := maxEntries_cases q.Limit q.perPage
  unfold LightdbStorage.Query
  dsimp only
  split
  · exact ⟨_, rfl, h1, h2, h3, rfl, rfl⟩
  · exact ⟨_, rfl, h1, h2, h3, rfl, rfl⟩

/-- C39 on a datastore of three entries: with `perPage = 2` and `Limit = 5` two
entries are asked for and counted, with `Limit = 1` one, and without a limit
two. -/
theorem C39_max_entries_is_limit_capped_by_page_witness :
    (threeEntries.Query ⟨0, 9, "asc", 5, 2⟩ [⟨"res/x"⟩]).map
        (fun r => (r.passed.MaxEntries, r.count)) = some (2, 2)
    ∧ (threeEntries.Query ⟨0, 9, "asc", 1, 2⟩ [⟨"res/x"⟩]).map
        (fun r => (r.passed.MaxEntries, r.count)) = some (1, 1)
    ∧ (threeEntries.Query ⟨0, 9, "asc", 0, 2⟩ [⟨"res/x"⟩]).map
        (fun r => (r.passed.MaxEntries, r.count)) = some (2, 2)
    ∧ (brokenStore.Query ⟨0, 9, "asc", 1, 2⟩ [⟨"res/x"⟩]).map
        (fun r => (r.passed.MaxEntries, r.count, r.err)) = some (1, 0, true)
    ∧ ∃ r, threeEntries.Query ⟨0, 9, "asc", 1, 2⟩ [⟨"res/x"⟩, ⟨"res/y"⟩] = some r
      ∧ r.passed.MaxEntries = (if (0 : Int) < 1 ∧ (1 : Int) < 2 then 1 else 2)
      ∧ r.passed.MaxEntries ≤ 2
      ∧ ((0 : Int) < 1 → r.passed.MaxEntries = min 2 1)
      ∧ r.passed.Series = "res/x"
      ∧ r.count = r.pack.length :=
  ⟨by decide, by decide, by decide, by decide,
    C39_max_entries_is_limit_capped_by_page threeEntries ⟨0, 9, "asc", 1, 2⟩ ⟨"res/x"⟩
      [⟨"res/y"⟩]⟩

/-! ## The period pattern -/

theorem matches_chars (cs : List Char) (x : List Char) :
    x ∈ ((cs.map RegularExpression.char).foldr RegularExpression.plus
        RegularExpression.zero).matches' ↔ ∃ c ∈ cs, x = [c] := by
  induction cs with
  | nil => simp [RegularExpression.matches']
  | cons c cs ih =>
    simp only [List.map_cons, List.foldr_cons, RegularExpression.matches', Language.mem_add,
      ih, List.mem_cons, exists_eq_or_imp]
    constructor
    · rintro (h | h)
      · exact Or.inl h
      · exact Or.inr h
    · rintro (h | h)
      · exact Or.inl h
      · exact Or.inr h

theorem matches_literal (w : List Char) (x : List Char) :
    x ∈ ((w.map RegularExpression.char).foldr RegularExpression.comp
        RegularExpression.epsilon).matches' ↔ x = w := by
  induction w generalizing x with
  | nil => simp [RegularExpression.matches', Language.mem_one]
  | cons c w ih =>
    simp only [List.map_cons, List.foldr_cons, RegularExpression.matches', Language.mem_mul]
    constructor
    · rintro ⟨a, ha, b, hb, rfl⟩
      rw [ih] at hb
      have : a = [c] := ha
      subst this hb
      rfl
    · rintro rfl
      exact ⟨[c], rfl, w, (ih w).mpr rfl, rfl⟩

theorem matches_alternatives (words : List String) (x : List Char) :
    x ∈ (alternatives words).matches' ↔ ∃ w ∈ words, x = w.toList := by
  unfold alternatives
  induction words with
  | nil => simp [RegularExpression.matches']
  | cons w ws ih =>
    simp only [List.map_cons, List.foldr_cons, RegularExpression.matches', Language.mem_add,
      ih, List.mem_cons, exists_eq_or_imp]
    have : x ∈ (literal w).matches' ↔ x = w.toList := matches_literal w.toList x
    rw [this]

theorem digits_eq : (List.range ('9'.toNat + 1 - '0'.toNat)).map
    (fun i => Char.ofNat ('0'.toNat + i)) = ['0', '1', '2', '3', '4', '5', '6', '7', '8', '9'] := by
  decide

theorem mem_digits_iff (c : Char) :
    c ∈ ['0', '1', '2', '3', '4', '5', '6', '7', '8', '9'] ↔ c.isDigit = true := by
  constructor
  · intro h
    simp only [List.mem_cons, List.mem_singleton, List.not_mem_nil, or_false] at h
    rcases h with rfl | rfl | rfl | rfl | rfl | rfl | rfl | rfl | rfl | rfl <;> decide
  · intro h
    have hc : c = Char.ofNat c.toNat := (Char.ofNat_toNat c).symm
    have hb : 48 ≤ c.toNat ∧ c.toNat ≤ 57 := by
      simp only [Char.isDigit, Bool.and_eq_true, decide_eq_true_eq] at h
      exact ⟨h.1, h.2⟩
    obtain ⟨h1, h2⟩ := hb
    rw [hc]
    generalize c.toNat = n at h1 h2
    interval_cases n <;> decide

theorem matches_digit (x : List Char) :
    x ∈ (charClass '0' '9').matches' ↔ ∃ c, c.isDigit = true ∧ x = [c] := by
  have h : charClass '0' '9'
      = ((['0', '1', '2', '3', '4', '5', '6', '7', '8', '9'].map RegularExpression.char).foldr
          RegularExpression.plus RegularExpression.zero) := by
    unfold charClass
    rw [← digits_eq, List.map_map]
    rfl
  rw [h, matches_chars]
  constructor
  · rintro ⟨c, hc, rfl⟩
    exact ⟨c, (mem_digits_iff c).mp hc, rfl⟩
  · rintro ⟨c, hc, rfl⟩
    exact ⟨c, (mem_digits_iff c).mpr hc, rfl⟩

theorem matches_digits (x : List Char) :
    x ∈ (RegularExpression.star (charClass '0' '9')).matches'
      ↔ ∀ c ∈ x, c.isDigit = true := by
  simp only [RegularExpression.matches', Language.mem_kstar]
  constructor
  · rintro ⟨L, rfl, hL⟩ c hc
    obtain ⟨y, hy, hcy⟩ := List.mem_flatten.mp hc
    obtain ⟨d, hd, rfl⟩ := (matches_digit y).mp (hL y hy)
    simp only [List.mem_singleton] at hcy
    subst hcy
    exact hd
  · intro h
    refine ⟨x.map (fun c => [c]), ?_, ?_⟩
    · clear h
      induction x with
      | nil => rfl
      | cons c x ih => simpa using ih
    · intro y hy
      obtain ⟨c, hc, rfl⟩ := List.mem_map.mp hy
      exact (matches_digit [c]).mpr ⟨c, h c hc, rfl⟩

theorem matches_periodPattern (x : List Char) :
    periodPattern.rmatch x = true
      ↔ ∃ digits : List Char, ∃ suffix ∈ supportedPeriods,
          x = digits ++ suffix.toList ∧ ∀ c ∈ digits, c.isDigit = true := by
  rw [RegularExpression.rmatch_iff_matches']
  unfold periodPattern
  rw [RegularExpression.matches', Language.mem_mul]
  constructor
  · rintro ⟨a, ha, b, hb, rfl⟩
    obtain ⟨w, hw, rfl⟩ := (matches_alternatives _ b).mp hb
    exact ⟨a, w, hw, rfl, (matches_digits a).mp ha⟩
  · rintro ⟨a, w, hw, rfl, ha⟩
    exact ⟨a, (matches_digits a).mpr ha, w.toList, (matches_alternatives _ _).mpr ⟨w, hw, rfl⟩,
      rfl⟩

/-- C37: `SupportedPeriod(p)` is true exactly when `p` is empty or `p` is a run
of zero or more decimal digits followed by one of the suffixes `m`, `h`, `d`,
`w`; so `h` and `10d` are accepted and `10`, `1.5h` and `10dd` are rejected. -/
theorem C37_supported_period_is_digits_then_suffix :
    (∀ p : String, SupportedPeriod p = true
      ↔ (p = "" ∨ ∃ digits : List Char, ∃ suffix ∈ ["m", "h", "d", "w"],
          p.toList = digits ++ suffix.toList ∧ ∀ c ∈ digits, c.isDigit = true))
    ∧ SupportedPeriod "h" = true ∧ SupportedPeriod "10d" = true
    ∧ SupportedPeriod "10" = false ∧ SupportedPeriod "1.5h" = false
    ∧ SupportedPeriod "10dd" = false := by
  refine ⟨fun p => ?_, by decide, by decide, by decide, by decide, by decide⟩
  unfold SupportedPeriod
  by_cases hp : p = ""
  · simp [hp]
  · simp only [hp, if_false, false_or]
    exact matches_periodPattern p.toList

/-! ## The aggregation map -/

theorem extendSources_append (stored : Option (List String)) (a b : List String) :
    extendSources (extendSources stored a) b = extendSources stored (a ++ b) := by
  unfold extendSources
  by_cases ha : a = [] <;> by_cases hb : b = [] <;> simp [ha, hb]

theorem sourcesOf_step (ds : DataSource) (m : Dict Aggregation) (dsa : DataSourceAggregation)
    (id : String) :
    sourcesOf
        (Dict.put m dsa.ID
          { ID := dsa.ID, Interval := dsa.Interval, Aggregates := dsa.Aggregates
            Retention := dsa.Retention
            Sources :=
              (match Dict.find m dsa.ID with
                | some a => a.Sources
                | none => []) ++ [ds.ID] })
        id
      = extendSources (sourcesOf m id) (if dsa.ID = id then [ds.ID] else []) := by
  unfold sourcesOf extendSources
  by_cases h : dsa.ID = id
  · subst h
    rw [Dict.find_put_same]
    cases Dict.find m dsa.ID <;> simp
  · have h1 : id ≠ dsa.ID := fun e => h e.symm
    rw [Dict.find_put_other _ _ _ _ h1]
    simp [h]

theorem sourcesOf_aggregations (ds : DataSource) (carried : List DataSourceAggregation)
    (m : Dict Aggregation) (id : String) :
    sourcesOf
        (carried.foldl
          (fun m dsa =>
            let sources :=
              match Dict.find m dsa.ID with
              | some a => a.Sources
              | none => []
            Dict.put m dsa.ID
              { ID := dsa.ID, Interval := dsa.Interval, Aggregates := dsa.Aggregates
                Retention := dsa.Retention, Sources := sources ++ [ds.ID] })
          m)
        id
      = extendSources (sourcesOf m id)
          ((carried.filter (fun dsa => decide (dsa.ID = id))).map (fun _ => ds.ID)) := by
  induction carried generalizing m with
  | nil => simp [extendSources]
  | cons dsa rest ih =>
    rw [List.foldl_cons, ih]
    dsimp only
    rw [sourcesOf_step, extendSources_append]
    congr 1
    by_cases h : dsa.ID = id <;> simp [h, List.filter_cons]

theorem sourcesOf_aggregateSource (m : Dict Aggregation) (ds : DataSource) (id : String) :
    sourcesOf (aggregateSource m ds) id = extendSources (sourcesOf m id) (carriers [ds] id) := by
  unfold aggregateSource
  rw [sourcesOf_aggregations]
  simp [carriers]

theorem carriers_cons (ds : DataSource) (rest : List DataSource) (id : String) :
    carriers (ds :: rest) id = carriers [ds] id ++ carriers rest id := by
  simp [carriers]

theorem sourcesOf_foldl (visited : List DataSource) (m : Dict Aggregation) (id : String) :
    sourcesOf (visited.foldl aggregateSource m) id
      = extendSources (sourcesOf m id) (carriers visited id) := by
  induction visited generalizing m with
  | nil => simp [extendSources, carriers]
  | cons ds rest ih =>
    rw [List.foldl_cons, ih, sourcesOf_aggregateSource, extendSources_append, ← carriers_cons]

theorem keyedById_put (m : Dict Aggregation) (a : Aggregation) (h : KeyedById m) :
    KeyedById (Dict.put m a.ID a) := by
  refine ⟨fun p hp => ?_, nodup_keys_put _ _ _ h.2⟩
  rcases Dict.mem_put _ _ _ _ hp with h1 | h1
  · exact h.1 p h1
  · subst h1
    rfl

theorem keyedById_aggregateSource (m : Dict Aggregation) (ds : DataSource) (h : KeyedById m) :
    KeyedById (aggregateSource m ds) := by
  unfold aggregateSource
  generalize ds.Aggregation = carried
  induction carried generalizing m with
  | nil => exact h
  | cons dsa rest ih =>
    rw [List.foldl_cons]
    apply ih
    exact keyedById_put m
      { ID := dsa.ID, Interval := dsa.Interval, Aggregates := dsa.Aggregates
        Retention := dsa.Retention
        Sources :=
          (match Dict.find m dsa.ID with
            | some a => a.Sources
            | none => []) ++ [ds.ID] } h

theorem keyedById_foldl (visited : List DataSource) (m : Dict Aggregation) (h : KeyedById m) :
    KeyedById (visited.foldl aggregateSource m) := by
  induction visited generalizing m with
  | nil => exact h
  | cons ds rest ih =>
    rw [List.foldl_cons]
    exact ih _ (keyedById_aggregateSource m ds h)

theorem aggregateFrom_spec (client : Nat → Nat → Page) (k fuel page : Nat)
    (aggrs : Dict Aggregation) (hpage : page ≤ k)
    (hend : (client k 100).ends k = true)
    (hbefore : ∀ j, page ≤ j → j < k → (client j 100).ends j = false)
    (hfuel : k < page + fuel) :
    ∃ a, aggregateFrom client fuel page aggrs = some a
      ∧ a.requests = (List.range' page (k + 1 - page)).map (fun p => (p, 100))
      ∧ a.visited
          = (List.range' page (k + 1 - page)).flatMap (fun j => (client j 100).datasources)
      ∧ a.aggrs = a.visited.foldl aggregateSource aggrs
      ∧ a.ret = (if client k 100 = Page.failed then Ret.error else Ret.nil) := by
  induction fuel generalizing page aggrs with
  | zero => omega
  | succ fuel ih =>
    have hlast : (client page 100).ends page = true → page = k := by
      intro h
      by_contra hne
      have := hbefore page (le_refl _) (by omega)
      rw [this] at h
      exact Bool.false_ne_true h
    unfold aggregateFrom
    cases hc : client page 100 with
    | failed =>
      have hk : page = k := hlast (by rw [hc]; rfl)
      subst hk
      have hlen : page + 1 - page = 1 := by omega
      simp [hlen, hc, Page.datasources]
    | listed dss total =>
      dsimp only
      by_cases hstop : (page : Int) * 100 ≥ total
      · have hk : page = k := hlast (by rw [hc]; simp [Page.ends, hstop])
        subst hk
        have hlen : page + 1 - page = 1 := by omega
        simp [hstop, hlen, hc, Page.datasources]
      · have hne : page ≠ k := by
          intro e
          subst e
          rw [hc] at hend
          simp [Page.ends, hstop] at hend
        obtain ⟨a, ha, r1, r2, r3, r4⟩ := ih (page + 1) (dss.foldl aggregateSource aggrs)
          (by omega) (fun j h1 h2 => hbefore j (by omega) h2) (by omega)
        have hlen : k + 1 - page = (k + 1 - (page + 1)) + 1 := by omega
        simp only [hstop, if_false, ha]
        refine ⟨_, rfl, ?_, ?_, ?_, r4⟩
        · rw [hlen, List.range'_succ]
          simp [r1]
        · rw [hlen, List.range'_succ]
          simp [r2, hc, Page.datasources]
        · simp only [List.foldl_append]
          exact r3

/-- C38: when the catalog's pages 1..k-1 are fetched and do not end the
enumeration and page `k` ends it (it is the last page, or its fetch fails),
`Aggregations` returns, for every fuel of at least `k` iterations, after
visiting the data sources of those pages in order. The map it returns has an
entry under an id exactly when a visited data source carries an aggregation
with that id; the entry carries that id, no id has two entries, and its
`Sources` are the ids of the carrying data sources in order of visit, once per
carried aggregation. The enumeration error is returned when the fetch of page
`k` failed, and nil otherwise. -/
theorem C38_aggregations_collect_sources_per_id (client : Nat → Nat → Page) (k fuel : Nat)
    (hk : 1 ≤ k) (hend : (client k 100).ends k = true)
    (hbefore : ∀ j, 1 ≤ j → j < k → (client j 100).ends j = false) (hfuel : k ≤ fuel) :
    ∃ a, Aggregations client fuel = some a
      ∧ a.visited = (List.range' 1 k).flatMap (fun j => (client j 100).datasources)
      ∧ (∀ id, (a.aggrs.find id).map Aggregation.Sources
          = if carriers a.visited id = [] then none else some (carriers a.visited id))
      ∧ (∀ id agg, a.aggrs.find id = some agg → agg.ID = id)
      ∧ (a.aggrs.map Prod.fst).Nodup
      ∧ a.ret = (if client k 100 = Page.failed then Ret.error else Ret.nil) := by
  obtain ⟨a, ha, _, r2, r3, r4⟩ :=
    aggregateFrom_spec client k fuel 1 [] hk hend hbefore (by omega)
  have hkeyed : KeyedById a.aggrs := by
    rw [r3]
    exact keyedById_foldl _ _ ⟨fun _ hp => by simp at hp, by simp⟩
  refine ⟨a, ha, by simpa using r2, fun id => ?_, fun id agg hfind => ?_, hkeyed.2, r4⟩
  · have h := sourcesOf_foldl a.visited [] id
    rw [← r3] at h
    simpa [sourcesOf, extendSources, Dict.find] using h
  · exact hkeyed.1 (id, agg) (find_some_mem _ _ _ hfind)

/-- C38 on the two-page catalog `aggregatedCatalog` and on `brokenCatalog`, whose
second page cannot be fetched: the hourly mean is carried by `hourly` and
`both`, the daily maximum by `both`; the broken catalog gives the error and the
sources of the first page. -/
theorem C38_aggregations_collect_sources_per_id_witness :
    (aggregatedCatalog 2 100).ends 2 = true
    ∧ (∀ j, 1 ≤ j → j < 2 → (aggregatedCatalog j 100).ends j = false)
    ∧ (Aggregations aggregatedCatalog 2).map
        (fun a => (a.aggrs.map (fun p => (p.1, p.2.Sources)), a.ret))
        = some ([("h1", ["hourly", "both"]), ("d1", ["both"])], Ret.nil)
    ∧ (Aggregations brokenCatalog 2).map
        (fun a => (a.aggrs.map (fun p => (p.1, p.2.Sources)), a.ret))
        = some ([("h1", ["hourly"])], Ret.error)
    ∧ (∃ a, Aggregations aggregatedCatalog 2 = some a
      ∧ a.visited = (List.range' 1 2).flatMap (fun j => (aggregatedCatalog j 100).datasources)
      ∧ (∀ id, (a.aggrs.find id).map Aggregation.Sources
          = if carriers a.visited id = [] then none else some (carriers a.visited id))
      ∧ (∀ id agg, a.aggrs.find id = some agg → agg.ID = id)
      ∧ (a.aggrs.map Prod.fst).Nodup
      ∧ a.ret = (if aggregatedCatalog 2 100 = Page.failed then Ret.error else Ret.nil)) :=
  ⟨by decide,
    fun j h1 h2 => by
      have hj : j = 1 := by omega
      subst hj
      decide,
    by decide, by decide,
    C38_aggregations_collect_sources_per_id aggregatedCatalog 2 2 (by decide) (by decide)
      (fun j h1 h2 => by
        have hj : j = 1 := by omega
        subst hj
        decide)
      (by decide)⟩
